import Mathlib

/-!
# TURN server core: authentication and request dispatch

A shallow embedding of package `server` (`internal/server`): `util.go`
(nonce generation, `authenticateRequest`), `server.go` (`HandleRequest`,
`handleTURNPacket`, `getMessageHandler`), `stun.go` (`handleBindingRequest`)
and the packet checks of `checkpackets.go`.

Conventions of the embedding

* `[]byte` values are lists of naturals (one byte each); the nil slice is `[]`.
  The buffers that `checkpackets.go` slices are `ByteSlice`s, which also hold
  the bytes of the backing array between length and capacity, because Go
  checks the bounds of `m[lo:hi]` against the capacity of `m`.
* A Go `error` is `Option GoError`; `none` is the nil error.
* A `time.Time` is an integer count of nanoseconds on the process clock, a
  `time.Duration` an integer count of nanoseconds saturated to the int64 range.
* Calls that leave the package (`stun.Build`, `net.PacketConn.WriteTo`, the
  attribute getters of the `stun` codec, `crypto/md5`, `time.Now`,
  `math/rand`, the configured `AuthHandler`) are inputs: their results are
  fields of `Env`, `PacketConn`, `StunMessageIF` and `Request`.
* Functions of the repository that are not among the sources (`proto`,
  `ipnet`, the handlers of `turn.go`) are the fields of `Collaborators`.
* Effects are explicit: a run returns the nonce store after the call, the
  list of `WriteTo` calls it made, the list of `AuthHandler` calls it made
  and, for the dispatcher, the list of calls it made.
-/

namespace TurnServer

/-! ## Go values -/

mutual
/-- A non-nil Go `error`: a package-level sentinel (`errors.New`), an error
produced outside the package, or the result of `fmt.Errorf` whose first verb
is `%w`. -/
inductive GoError where
  | sentinel (name : String)
  | external (msg : String)
  | errorf (format : String) (wrapped : GoError) (operands : List Operand)
/-- The operands of `fmt.Errorf` that follow the wrapped error. -/
inductive Operand where
  | str (s : String)
  | err (e : GoError)
  | nilErr
end

/-- The operand that formats a possibly nil `error` under `%v`. -/
def Operand.ofError : Option GoError → Operand
  | some e => Operand.err e
  | none => Operand.nilErr

/-- Whether the chain of `%w` wrappings of an error reaches the sentinel of
the given name (what `errors.Is` computes against a sentinel). -/
def GoError.wraps : GoError → String → Bool
  | .sentinel n, target => n == target
  | .external _, _ => false
  | .errorf _ w _, target => w.wraps target

/-- Modelled from the spec: `errors.go` of package `server` is not among the
sources; the sentinel for "nonce generation failure" is identified by its Go
identifier. -/
def errFailedToGenerateNonce : GoError := .sentinel "errFailedToGenerateNonce"

/-- Modelled from the spec: `errors.go` of package `server` is not among the
sources; the sentinel reporting a nonce collision as an internal error is
identified by its Go identifier. -/
def errDuplicatedNonce : GoError := .sentinel "errDuplicatedNonce"

/-- Modelled from the spec: `errors.go` of package `server` is not among the
sources; the sentinel for "internal write failure" is identified by its Go
identifier. -/
def errFailedToSendError : GoError := .sentinel "errFailedToSendError"

/-- Modelled from the spec: `errors.go` of package `server` is not among the
sources; the sentinel of the diagnostic sent when the credential lookup
returns no key is identified by its Go identifier. -/
def errNoSuchUser : GoError := .sentinel "errNoSuchUser"

/-- A `net.Addr`, identified by its printed form. -/
abbrev NetAddr := String

/-! ## Time -/

/-- The largest `time.Duration` (int64 nanoseconds). -/
def maxDuration : Int := 9223372036854775807

/-- The smallest `time.Duration` (int64 nanoseconds). -/
def minDuration : Int := -9223372036854775808

/-- Go `time.Time.Sub`: the difference `t - u`, saturated to the range of
`time.Duration`. -/
def timeSub (t u : Int) : Int :=
  if t - u > maxDuration then maxDuration
  else if t - u < minDuration then minDuration
  else t - u

/-- Go `time.Hour` in nanoseconds. -/
def timeHour : Int := 3600 * 1000000000

/-- Go `maximumAllocationLifetime = time.Hour`. -/
def maximumAllocationLifetime : Int := timeHour

/-- Go `nonceLifetime = time.Hour`. -/
def nonceLifetime : Int := timeHour

/-! ## The nonce store (`sync.Map`) -/

/-- A key of the `sync.Map` (an `interface{}`): a `string`, or a pointer
`*stun.Nonce` identified by its address. Two keys are equal when they have the
same dynamic type and the same value. -/
inductive MapKey where
  | str (s : String)
  | noncePtr (addr : Nat)
  deriving DecidableEq, Repr

/-- A value of the `sync.Map` (an `interface{}`): a `time.Time`, or a value of
another type (the tests store the string `"Hello"`). -/
inductive MapValue where
  | time (t : Int)
  | other (desc : String)
  deriving DecidableEq, Repr

/-- The contents of a `sync.Map`, as an association list in insertion order. -/
abbrev SyncMap := List (MapKey × MapValue)

/-- Go `sync.Map.Load`. -/
def SyncMap.Load (m : SyncMap) (key : MapKey) : Option MapValue :=
  (m.find? (fun kv => decide (kv.1 = key))).map Prod.snd

/-- Go `sync.Map.LoadOrStore`: the map afterwards, the value now under the key,
and whether it was loaded (the key was already present). -/
def SyncMap.LoadOrStore (m : SyncMap) (key : MapKey) (value : MapValue) :
    SyncMap × MapValue × Bool :=
  match m.Load key with
  | some actual => (m, actual, true)
  | none => (m ++ [(key, value)], value, false)

/-- Go `sync.Map.Delete`. -/
def SyncMap.Delete (m : SyncMap) (key : MapKey) : SyncMap :=
  m.filter (fun kv => decide (kv.1 ≠ key))

/-- Whether a key is present in the store. -/
def SyncMap.hasKey (m : SyncMap) (key : MapKey) : Bool :=
  (m.Load key).isSome

/-- An address above every `*stun.Nonce` address that occurs as a key. -/
def SyncMap.ptrBound : SyncMap → Nat
  | [] => 0
  | (MapKey.noncePtr a, _) :: rest => max (a + 1) (SyncMap.ptrBound rest)
  | (MapKey.str _, _) :: rest => SyncMap.ptrBound rest

/-- The allocation `&stun.Nonce{}`: a pointer that is distinct from every
pointer already reachable, in particular from every pointer key of the
store. -/
def newNoncePtr (m : SyncMap) : MapKey :=
  MapKey.noncePtr (SyncMap.ptrBound m)

/-! ## STUN messages -/

/-- Go `stun.MessageClass`. -/
inductive MessageClass where
  | request
  | indication
  | successResponse
  | errorResponse
  deriving DecidableEq, Repr

/-- Go `stun.MessageType`: a method (a 12-bit number) and a class. -/
structure MessageType where
  Method : Nat
  Class : MessageClass
  deriving DecidableEq, Repr

/-- Go `stun.NewType`. -/
def NewType (method : Nat) (cls : MessageClass) : MessageType :=
  ⟨method, cls⟩

/-- Go `stun.ClassErrorResponse`. -/
def ClassErrorResponse : MessageClass := MessageClass.errorResponse

/-- Go `stun.AttrMessageIntegrity`. -/
def AttrMessageIntegrity : Nat := 0x0008

/-- Go `stun.CodeBadRequest`. -/
def CodeBadRequest : Nat := 400

/-- Go `stun.CodeUnauthorized`. -/
def CodeUnauthorized : Nat := 401

/-- Go `stun.CodeStaleNonce`. -/
def CodeStaleNonce : Nat := 438

/-- Go `stun.CodeWrongCredentials`. -/
def CodeWrongCredentials : Nat := 441

/-- A `stun.Setter` handed to `stun.Build`. -/
inductive Setter where
  | message (transactionID : List Nat)
  | msgType (t : MessageType)
  | errorCodeAttribute (code : Nat)
  | nonce (n : String)
  | realm (r : String)
  | messageIntegrity (key : List Nat)
  | xorMappedAddress (ip : List Nat) (port : Nat)
  | fingerprint
  deriving DecidableEq, Repr

/-- What `authenticateRequest` observes of its `stun.StunMessageIF` argument:
the results of the interface methods and of the codec getters applied to
`GetMessage()`. -/
structure StunMessageIF where
  /-- Result of `GetTransactionID()` -/
  transactionID : List Nat
  /-- Result of `Contains(t)` -/
  contains : Nat → Bool
  /-- Result of `(&stun.Nonce{}).GetFrom(GetMessage())` -/
  nonce : Except GoError String
  /-- Result of `(&stun.Realm{}).GetFrom(GetMessage())` -/
  realm : Except GoError String
  /-- Result of `(&stun.Username{}).GetFrom(GetMessage())` -/
  username : Except GoError String
  /-- Result of `stun.MessageIntegrity(key).Check(GetMessage())` -/
  integrityCheck : List Nat → Option GoError

/-- A call `conn.WriteTo(msg.Raw, dst)`; the datagram is identified by the
setters `stun.Build` applied to produce it. -/
structure WriteCall where
  conn : String
  dst : NetAddr
  msg : List Setter
  deriving DecidableEq, Repr

/-- A `net.PacketConn`: its identity and the error `WriteTo` returns. -/
structure PacketConn where
  name : String
  writeTo : List Setter → NetAddr → Option GoError

/-- The fields of `Request` that `util.go` uses. -/
structure Request where
  Conn : PacketConn
  SrcAddr : NetAddr
  Buff : List Nat
  Nonces : SyncMap
  AuthHandler : String → String → NetAddr → List Nat × Bool
  Realm : String

/-- The results of the calls that leave the program during one run. -/
structure Env where
  /-- Result of `crypto/md5`: the digest of the bytes written to the hash -/
  md5Sum : List Nat → List Nat
  /-- Result of `time.Now().Unix()` read by `buildNonce` -/
  unixNow : Int
  /-- Result of `rand.Int63()` read by `buildNonce` -/
  randInt63 : Nat
  /-- Result of `time.Now()` passed to `LoadOrStore` -/
  storeNow : Int
  /-- Result of `time.Now()` read by `time.Since` -/
  sinceNow : Int
  /-- the error `stun.Build` returns for a list of setters, if any -/
  stunBuild : List Setter → Option GoError

/-- Go `time.Since`. -/
def timeSince (e : Env) (t : Int) : Int :=
  timeSub e.sinceNow t

/-! ## `util.go` -/

/-- One lowercase hexadecimal digit. -/
def hexDigit (d : Nat) : Char :=
  "0123456789abcdef".toList.getD d '0'

/-- Go `fmt.Sprintf("%x", b)` for a byte slice: two lowercase digits per byte. -/
def hexEncode (b : List Nat) : String :=
  String.mk (b.flatMap (fun x => [hexDigit (x / 16 % 16), hexDigit (x % 16)]))

/-- Go `strconv.FormatInt(x, 10)`. -/
def formatInt (x : Int) : String :=
  toString x

/-- Go `io.WriteString(h, s)` on an MD5 hash whose written bytes are `h`: the
bytes of `s` are appended; `hash.Hash` writes never return an error. -/
def ioWriteString (h : List Nat) (s : String) : Except GoError (List Nat) :=
  .ok (h ++ s.toList.map Char.toNat)

/-- Go `buildNonce`. -/
def buildNonce (e : Env) : Except GoError String :=
  match ioWriteString [] (formatInt e.unixNow) with
  | .error err => .error (.errorf "%w: %v" errFailedToGenerateNonce [.err err])
  | .ok h1 =>
    match ioWriteString h1 (formatInt (Int.ofNat e.randInt63)) with
    | .error err => .error (.errorf "%w: %v" errFailedToGenerateNonce [.err err])
    | .ok h2 => .ok (hexEncode (e.md5Sum h2))

/-- Go `buildAndSend`: the returned error and the `WriteTo` calls made. -/
def buildAndSend (e : Env) (conn : PacketConn) (dst : NetAddr) (attrs : List Setter) :
    Option GoError × List WriteCall :=
  match e.stunBuild attrs with
  | some err => (some err, [])
  | none => (conn.writeTo attrs dst, [⟨conn.name, dst, attrs⟩])

/-- Go `buildAndSendErr`: send a STUN packet and return the original error to
the caller. -/
def buildAndSendErr (e : Env) (conn : PacketConn) (dst : NetAddr) (err : Option GoError)
    (attrs : List Setter) : Option GoError × List WriteCall :=
  match buildAndSend e conn dst attrs with
  | (some sendErr, ws) =>
    (some (.errorf "%w %v %v" errFailedToSendError [.err sendErr, Operand.ofError err]), ws)
  | (none, ws) => (err, ws)

/-- Go `buildMsg`. -/
def buildMsg (transactionID : List Nat) (msgType : MessageType) (additional : List Setter) :
    List Setter :=
  [Setter.message transactionID, Setter.msgType msgType] ++ additional

/-- What a run of `authenticateRequest` returns and does. -/
structure AuthResult where
  /-- the returned `stun.MessageIntegrity` (`[]` is nil) -/
  integrity : List Nat
  /-- the returned `bool` -/
  ok : Bool
  /-- the returned `error` -/
  err : Option GoError
  /-- the contents of `r.Nonces` after the call -/
  nonces : SyncMap
  /-- the calls of `r.Conn.WriteTo`, in order -/
  writes : List WriteCall
  /-- the calls of `r.AuthHandler`, in order -/
  authCalls : List (String × String × NetAddr)

/-- The closure `respondWithNonce` of `authenticateRequest`, run on the
current contents `nonces` of `r.Nonces`. -/
def respondWithNonce (e : Env) (r : Request) (m : StunMessageIF) (callingMethod : Nat)
    (nonces : SyncMap) (responseCode : Nat) : AuthResult :=
  match buildNonce e with
  | .error err => ⟨[], false, some err, nonces, [], []⟩
  | .ok nonce =>
    match nonces.LoadOrStore (MapKey.str nonce) (MapValue.time e.storeNow) with
    | (nonces', _, true) => ⟨[], false, some errDuplicatedNonce, nonces', [], []⟩
    | (nonces', _, false) =>
      match buildAndSend e r.Conn r.SrcAddr
          (buildMsg m.transactionID (NewType callingMethod ClassErrorResponse)
            [Setter.errorCodeAttribute responseCode, Setter.nonce nonce, Setter.realm r.Realm]) with
      | (err, ws) => ⟨[], false, err, nonces', ws, []⟩

/-- Go `authenticateRequest`. -/
def authenticateRequest (e : Env) (r : Request) (m : StunMessageIF) (callingMethod : Nat) :
    AuthResult :=
  if !m.contains AttrMessageIntegrity then
    respondWithNonce e r m callingMethod r.Nonces CodeUnauthorized
  else
    let nonceAttrPtr := newNoncePtr r.Nonces
    let badRequestMsg := buildMsg m.transactionID (NewType callingMethod ClassErrorResponse)
      [Setter.errorCodeAttribute CodeBadRequest]
    match m.nonce with
    | .error err =>
      match buildAndSendErr e r.Conn r.SrcAddr (some err) badRequestMsg with
      | (err', ws) => ⟨[], false, err', r.Nonces, ws, []⟩
    | .ok nonceAttr =>
      match r.Nonces.Load (MapKey.str nonceAttr) with
      | none =>
        respondWithNonce e r m callingMethod (r.Nonces.Delete nonceAttrPtr) CodeStaleNonce
      | some (MapValue.other _) =>
        respondWithNonce e r m callingMethod (r.Nonces.Delete nonceAttrPtr) CodeStaleNonce
      | some (MapValue.time timeValue) =>
        if timeSince e timeValue ≥ nonceLifetime then
          respondWithNonce e r m callingMethod (r.Nonces.Delete nonceAttrPtr) CodeStaleNonce
        else
          match m.realm with
          | .error err =>
            match buildAndSendErr e r.Conn r.SrcAddr (some err) badRequestMsg with
            | (err', ws) => ⟨[], false, err', r.Nonces, ws, []⟩
          | .ok realmAttr =>
            match m.username with
            | .error err =>
              match buildAndSendErr e r.Conn r.SrcAddr (some err) badRequestMsg with
              | (err', ws) => ⟨[], false, err', r.Nonces, ws, []⟩
            | .ok usernameAttr =>
              match r.AuthHandler usernameAttr realmAttr r.SrcAddr with
              | (_, false) =>
                match buildAndSendErr e r.Conn r.SrcAddr
                    (some (.errorf "%w %s" errNoSuchUser [.str usernameAttr])) badRequestMsg with
                | (err', ws) =>
                  ⟨[], false, err', r.Nonces, ws, [(usernameAttr, realmAttr, r.SrcAddr)]⟩
              | (ourKey, true) =>
                match m.integrityCheck ourKey with
                | some err =>
                  match buildAndSendErr e r.Conn r.SrcAddr (some err) badRequestMsg with
                  | (err', ws) =>
                    ⟨[], false, err', r.Nonces, ws, [(usernameAttr, realmAttr, r.SrcAddr)]⟩
                | none =>
                  ⟨ourKey, true, none, r.Nonces, [], [(usernameAttr, realmAttr, r.SrcAddr)]⟩

/-- The runs of `authenticateRequest` on one request and message, handled one
after the other in the environments given, each run on the nonce store that
the run before it left. -/
def authenticateRepeatedly : List Env → Request → StunMessageIF → Nat → List AuthResult
  | [], _, _, _ => []
  | e :: es, r, m, cm =>
    authenticateRequest e r m cm ::
      authenticateRepeatedly es
        ⟨r.Conn, r.SrcAddr, r.Buff, (authenticateRequest e r m cm).nonces, r.AuthHandler, r.Realm⟩
        m cm

/-! ## `server.go` and `stun.go` -/

/-- Modelled from the spec: `errors.go` of package `server` is not among the
sources; the sentinel for a method that the routing table does not list for
the class is identified by its Go identifier. -/
def errUnexpectedMethod : GoError := .sentinel "errUnexpectedMethod"

/-- Modelled from the spec: `errors.go` of package `server` is not among the
sources; the sentinel for a class that is neither Request nor Indication is
identified by its Go identifier. -/
def errUnexpectedClass : GoError := .sentinel "errUnexpectedClass"

/-- Modelled from the spec: `errors.go` of package `server` is not among the
sources; the sentinel for a buffer that does not decode as a STUN message is
identified by its Go identifier. -/
def errFailedToCreateSTUNPacket : GoError := .sentinel "errFailedToCreateSTUNPacket"

/-- Modelled from the spec: `errors.go` of package `server` is not among the
sources; the sentinel for a decoded message without a handler is identified
by its Go identifier. -/
def errUnhandledSTUNPacket : GoError := .sentinel "errUnhandledSTUNPacket"

/-- Modelled from the spec: `errors.go` of package `server` is not among the
sources; the sentinel for a handler that returned an error is identified by
its Go identifier. -/
def errFailedToHandle : GoError := .sentinel "errFailedToHandle"

/-- Modelled from the spec: `errors.go` of package `server` is not among the
sources; the sentinel for a buffer that does not decode as channel data is
identified by its Go identifier. -/
def errFailedToCreateChannelData : GoError := .sentinel "errFailedToCreateChannelData"

/-- Modelled from the spec: `errors.go` of package `server` is not among the
sources; the sentinel for a channel-data frame that could not be handled is
identified by its Go identifier. -/
def errUnableToHandleChannelData : GoError := .sentinel "errUnableToHandleChannelData"

/-- Go `stun.ClassRequest`. -/
def ClassRequest : MessageClass := MessageClass.request

/-- Go `stun.ClassIndication`. -/
def ClassIndication : MessageClass := MessageClass.indication

/-- Go `stun.ClassSuccessResponse`. -/
def ClassSuccessResponse : MessageClass := MessageClass.successResponse

/-- Go `stun.MethodBinding`. -/
def MethodBinding : Nat := 0x001

/-- Go `stun.MethodAllocate`. -/
def MethodAllocate : Nat := 0x003

/-- Go `stun.MethodRefresh`. -/
def MethodRefresh : Nat := 0x004

/-- Go `stun.MethodSend`. -/
def MethodSend : Nat := 0x006

/-- Go `stun.MethodData`. -/
def MethodData : Nat := 0x007

/-- Go `stun.MethodCreatePermission`. -/
def MethodCreatePermission : Nat := 0x008

/-- Go `stun.MethodChannelBind`. -/
def MethodChannelBind : Nat := 0x009

/-- Go `stun.BindingSuccess`. -/
def BindingSuccess : MessageType := NewType MethodBinding ClassSuccessResponse

/-- The handlers that `getMessageHandler` can return, by their Go names. -/
inductive Handler where
  | handleSendIndication
  | handleAllocateRequest
  | handleRefreshRequest
  | handleCreatePermissionRequest
  | handleChannelBindRequest
  | handleBindingRequest
  deriving DecidableEq, Repr

/-- A `logging.LeveledLogger`, identified by its scope; what is logged does
not come back to the program. -/
structure LeveledLogger where
  scope : String
  deriving DecidableEq, Repr

/-- What a handler returns and does: the returned `error`, the contents of
`r.Nonces` afterwards, the `WriteTo` calls and the `AuthHandler` calls. -/
structure HandlerResult where
  err : Option GoError
  nonces : SyncMap
  writes : List WriteCall
  authCalls : List (String × String × NetAddr)

/-- A decoded `proto.ChannelData`. -/
structure ChannelData where
  Number : Nat
  Data : List Nat
  deriving DecidableEq, Repr

/-- What `handleTURNPacket` observes of the message after `Decode`:
`GetTypeMethod()`, `GetTypeClass()` and the message as the handlers see it. -/
structure DecodedMessage where
  typeMethod : Nat
  typeClass : MessageClass
  msg : StunMessageIF

/-- The functions that `server.go` and `stun.go` call and that are not among
the sources: the codecs of `proto` and `stun`, `ipnet.AddrIPPort`, and the
handlers of `turn.go`. -/
structure Collaborators where
  /-- Result of `proto.IsChannelData(buf)` -/
  IsChannelData : List Nat → Bool
  /-- Result of `(&proto.ChannelData{Raw: buf}).Decode()` -/
  channelDataDecode : List Nat → Except GoError ChannelData
  /-- Result of `handleChannelData(r, &c)` of `turn.go` -/
  handleChannelData : Request → ChannelData → HandlerResult
  /-- Result of `m.Decode()` after `m.ApplyBuf(buf...)` -/
  stunDecode : List Nat → Except GoError DecodedMessage
  /-- Result of `stun.Method.String()` -/
  methodString : Nat → String
  /-- Result of `stun.MessageClass.String()` -/
  classString : MessageClass → String
  /-- Result of `ipnet.AddrIPPort(addr)` -/
  AddrIPPort : NetAddr → Except GoError (List Nat × Nat)
  /-- Result of the handlers of `turn.go` -/
  turnHandler : Handler → Request → StunMessageIF → HandlerResult

/-- A call made while a datagram is handled. -/
inductive Call where
  | handleDataPacket
  | handleTURNPacket
  | channelDataDecode
  | handleChannelData
  | stunDecode
  | getMessageHandler
  | handler (h : Handler)
  deriving DecidableEq, Repr

/-- What handling a datagram returns and does: the returned `error`, the
contents of `r.Nonces` afterwards, the `WriteTo` calls and the calls made, in
order. -/
structure PacketResult where
  err : Option GoError
  nonces : SyncMap
  writes : List WriteCall
  calls : List Call

/-- Go `handleBindingRequest`. -/
def handleBindingRequest (e : Env) (lib : Collaborators) (r : Request) (m : StunMessageIF) :
    HandlerResult :=
  match lib.AddrIPPort r.SrcAddr with
  | .error err => ⟨some err, r.Nonces, [], []⟩
  | .ok (ip, port) =>
    match buildAndSend e r.Conn r.SrcAddr
        (buildMsg m.transactionID BindingSuccess
          [Setter.xorMappedAddress ip port, Setter.fingerprint]) with
    | (err, ws) => ⟨err, r.Nonces, ws, []⟩

/-- Go `getMessageHandler`: the handler or the error, and the messages passed
to `logger.Debug`. -/
def getMessageHandler (lib : Collaborators) (cls : MessageClass) (method : Nat)
    (_logger : LeveledLogger) : Except GoError Handler × List String :=
  match cls with
  | MessageClass.indication =>
    if method = MethodSend then (.ok Handler.handleSendIndication, [])
    else (.error (.errorf "%w: %s" errUnexpectedMethod [.str (lib.methodString method)]), [])
  | MessageClass.request =>
    if method = MethodAllocate then
      (.ok Handler.handleAllocateRequest, ["Method Allocate"])
    else if method = MethodRefresh then
      (.ok Handler.handleRefreshRequest, ["Method Refresh"])
    else if method = MethodCreatePermission then
      (.ok Handler.handleCreatePermissionRequest, ["Method Create Permission"])
    else if method = MethodChannelBind then
      (.ok Handler.handleChannelBindRequest, ["Method Channel Bind"])
    else if method = MethodBinding then
      (.ok Handler.handleBindingRequest, ["Method Binding"])
    else (.error (.errorf "%w: %s" errUnexpectedMethod [.str (lib.methodString method)]), [])
  | _ => (.error (.errorf "%w: %s" errUnexpectedClass [.str (lib.classString cls)]), [])

/-- The call `h(r, m)` of a handler returned by `getMessageHandler`:
`handleBindingRequest` is `stun.go`, the others are `turn.go`. -/
def runHandler (e : Env) (lib : Collaborators) (h : Handler) (r : Request)
    (m : StunMessageIF) : HandlerResult :=
  match h with
  | Handler.handleBindingRequest => handleBindingRequest e lib r m
  | _ => lib.turnHandler h r m

/-- Go `handleDataPacket`. -/
def handleDataPacket (lib : Collaborators) (r : Request) : PacketResult :=
  match lib.channelDataDecode r.Buff with
  | .error err =>
    ⟨some (.errorf "%w: %v" errFailedToCreateChannelData [.err err]), r.Nonces, [],
      [Call.handleDataPacket, Call.channelDataDecode]⟩
  | .ok c =>
    match lib.handleChannelData r c with
    | ⟨some err, nonces, ws, _⟩ =>
      ⟨some (.errorf "%w from %v: %v" errUnableToHandleChannelData [.str r.SrcAddr, .err err]),
        nonces, ws, [Call.handleDataPacket, Call.channelDataDecode, Call.handleChannelData]⟩
    | ⟨none, nonces, ws, _⟩ =>
      ⟨none, nonces, ws, [Call.handleDataPacket, Call.channelDataDecode, Call.handleChannelData]⟩

/-- Go `handleTURNPacket`; `log` is `r.Log`. -/
def handleTURNPacket (e : Env) (lib : Collaborators) (log : LeveledLogger) (r : Request) :
    PacketResult :=
  match lib.stunDecode r.Buff with
  | .error err =>
    ⟨some (.errorf "%w: %v" errFailedToCreateSTUNPacket [.err err]), r.Nonces, [],
      [Call.handleTURNPacket, Call.stunDecode]⟩
  | .ok m =>
    match (getMessageHandler lib m.typeClass m.typeMethod log).1 with
    | .error err =>
      ⟨some (.errorf "%w %v-%v from %v: %v" errUnhandledSTUNPacket
          [.str (lib.methodString m.typeMethod), .str (lib.classString m.typeClass),
            .str r.SrcAddr, .err err]),
        r.Nonces, [], [Call.handleTURNPacket, Call.stunDecode, Call.getMessageHandler]⟩
    | .ok h =>
      match runHandler e lib h r m.msg with
      | ⟨some err, nonces, ws, _⟩ =>
        ⟨some (.errorf "%w %v-%v from %v: %v" errFailedToHandle
            [.str (lib.methodString m.typeMethod), .str (lib.classString m.typeClass),
              .str r.SrcAddr, .err err]),
          nonces, ws,
          [Call.handleTURNPacket, Call.stunDecode, Call.getMessageHandler, Call.handler h]⟩
      | ⟨none, nonces, ws, _⟩ =>
        ⟨none, nonces, ws,
          [Call.handleTURNPacket, Call.stunDecode, Call.getMessageHandler, Call.handler h]⟩

/-- Go `HandleRequest`; `log` is `r.Log`. -/
def HandleRequest (e : Env) (lib : Collaborators) (log : LeveledLogger) (r : Request) :
    PacketResult :=
  if lib.IsChannelData r.Buff then handleDataPacket lib r
  else handleTURNPacket e lib log r

/-- The routing table of the dispatcher, as the specification lists it: the
handler of a (class, method) pair, if any. -/
def routingTable (cls : MessageClass) (method : Nat) : Option Handler :=
  if cls = MessageClass.request ∧ method = MethodBinding then some Handler.handleBindingRequest
  else if cls = MessageClass.request ∧ method = MethodAllocate then
    some Handler.handleAllocateRequest
  else if cls = MessageClass.request ∧ method = MethodRefresh then
    some Handler.handleRefreshRequest
  else if cls = MessageClass.request ∧ method = MethodCreatePermission then
    some Handler.handleCreatePermissionRequest
  else if cls = MessageClass.request ∧ method = MethodChannelBind then
    some Handler.handleChannelBindRequest
  else if cls = MessageClass.indication ∧ method = MethodSend then
    some Handler.handleSendIndication
  else none

/-! ## `checkpackets.go` -/

/-- A Go `[]byte` value as the slice expressions of `checkpackets.go` see it:
`elems` are its elements `m[0]`, ..., `m[len(m)-1]`, and `spare` are the bytes
of its backing array that follow them, up to its capacity. A slice literal, a
nil slice and a slice from `make([]byte, n)` have no spare bytes and are
written `⟨elems, []⟩`; `b[:n]` has the elements `b[0..n)` and, as spare bytes,
the rest of `b` up to its capacity. -/
structure ByteSlice where
  elems : List Nat
  spare : List Nat

/-- Go `len(m)`. -/
def ByteSlice.len (m : ByteSlice) : Nat :=
  m.elems.length

/-- Go `cap(m)`. -/
def ByteSlice.cap (m : ByteSlice) : Nat :=
  m.elems.length + m.spare.length

/-- The elements of the slice expression `m[lo:hi]` on a byte slice; `none`
is the run-time panic for bounds out of range. Go checks the bounds of a slice
expression on a slice against the capacity, `0 <= lo <= hi <= cap(m)`, so the
result may hold bytes beyond `len(m)`. -/
def goSlice (m : ByteSlice) (lo hi : Int) : Option (List Nat) :=
  if 0 ≤ lo ∧ lo ≤ hi ∧ hi ≤ (m.cap : Int) then
    some (((m.elems ++ m.spare).drop lo.toNat).take (hi - lo).toNat)
  else none

/-- Go `binary.BigEndian.Uint16`; `none` is the run-time panic for a slice
shorter than two bytes. -/
def bigEndianUint16 (b : List Nat) : Option Nat :=
  match b with
  | b0 :: b1 :: _ => some (b0 % 256 * 256 + b1 % 256)
  | _ => none

/-- Go `(*mPacket).CheckNonce`: the result, the nonce and the cursor
afterwards; `none` is a run-time panic. -/
def CheckNonce (mPkt : Int) (m : ByteSlice) : Option (Bool × Option (List Nat) × Int) :=
  match (goSlice m mPkt (mPkt + 2)).bind bigEndianUint16 with
  | none => none
  | some mtype =>
    if mtype ≠ 0x15 then some (false, none, mPkt)
    else
      match (goSlice m (mPkt + 2) (mPkt + 4)).bind bigEndianUint16 with
      | none => none
      | some mLength =>
        if mLength ≠ 0x20 then some (false, none, mPkt)
        else
          match goSlice m (mPkt + 4) (mPkt + 0x24) with
          | none => none
          | some nonce => some (true, some nonce, mPkt + (mLength : Int) + 4)

/-- Go `binary.BigEndian.Uint32`; `none` is the run-time panic for a slice
shorter than four bytes. -/
def bigEndianUint32 (b : List Nat) : Option Nat :=
  match b with
  | b0 :: b1 :: b2 :: b3 :: _ =>
    some (b0 % 256 * 16777216 + b1 % 256 * 65536 + b2 % 256 * 256 + b3 % 256)
  | _ => none

/-- Go `getType`. -/
def getType (m : List Nat) : Option Nat :=
  bigEndianUint16 m

/-- Go `getLength`. -/
def getLength (m : List Nat) : Option Nat :=
  bigEndianUint16 m

/-- Go `getMagicCookie`. -/
def getMagicCookie (m : List Nat) : Option Nat :=
  bigEndianUint32 m

/-- Go `getTransactionID`. -/
def getTransactionID (m : List Nat) : List Nat :=
  m

/-- The constant `headerlen`. -/
def headerlen : Int := 20

/-- The constant `errorcodelen`. -/
def errorcodelen : Int := 8

/-- Go `(*mPacket).CheckHeader`: the type, length, cookie and transaction id
read, and the cursor afterwards; `none` is a run-time panic. -/
def CheckHeader (mPkt : Int) (m : ByteSlice) : Option ((Nat × Nat × Nat × List Nat) × Int) :=
  match (goSlice m mPkt 2).bind getType with
  | none => none
  | some mType =>
    match (goSlice m (mPkt + 2) 4).bind getLength with
    | none => none
    | some mLength =>
      match (goSlice m (mPkt + 4) 8).bind getMagicCookie with
      | none => none
      | some mCookie =>
        match goSlice m (mPkt + 8) 20 with
        | none => none
        | some s => some ((mType, mLength, mCookie, getTransactionID s), mPkt + 8)

/-- Go `(*mPacket).CheckBadAuthHeader`: the result and the cursor afterwards;
`none` is a run-time panic. -/
def CheckBadAuthHeader (mPkt : Int) (m : ByteSlice) : Option (Bool × Int) :=
  match CheckHeader mPkt m with
  | none => none
  | some ((mType, mLength, mCookie, mTransactionID), mPkt') =>
    if mType = 0x113 ∧ mLength = 0x3c ∧ mCookie ≠ 0x0 ∧ mTransactionID.length = 12 then
      some (true, mPkt')
    else some (false, mPkt')

/-- Go `(*mPacket).CheckTransactionID`: the result and the cursor afterwards;
`none` is a run-time panic. -/
def CheckTransactionID (mPkt : Int) (m : ByteSlice) : Option (Bool × Int) :=
  match goSlice m mPkt (mPkt + 12) with
  | none => none
  | some s =>
    if getTransactionID s = "00000000000000".toList.map Char.toNat then
      some (true, mPkt + 12)
    else some (false, mPkt + 12)

/-- Go `(*mPacket).CheckRealm`, with the string `mval` given by its bytes:
the result and the cursor afterwards; `none` is a run-time panic. The length
read is compared with `uint16(len(mval))`. -/
def CheckRealm (mPkt : Int) (m : ByteSlice) (mval : List Nat) : Option (Bool × Int) :=
  match (goSlice m mPkt (mPkt + 2)).bind bigEndianUint16 with
  | none => none
  | some mtype =>
    if mtype ≠ 0x14 then some (false, mPkt)
    else
      match (goSlice m (mPkt + 2) (mPkt + 4)).bind bigEndianUint16 with
      | none => none
      | some mLength =>
        if mLength ≠ mval.length % 65536 then some (false, mPkt)
        else
          match goSlice m (mPkt + 4) (mPkt + 4 + (mval.length : Int)) with
          | none => none
          | some value =>
            if mval ≠ value then some (false, mPkt)
            else some (true, mPkt + (mLength : Int) + 4)

/-- Go `(*mPacket).CheckErrorCode`, with the required type and length (uint8)
and code (uint32) as naturals: the result and the cursor afterwards; `none` is
a run-time panic. -/
def CheckErrorCode (mPkt : Int) (m : ByteSlice)
    (mRequiredType mRequiredLength mRequiredCode : Nat) : Option (Bool × Int) :=
  match (goSlice m mPkt (mPkt + 2)).bind bigEndianUint16 with
  | none => none
  | some mtype =>
    if mtype ≠ mRequiredType then some (false, mPkt)
    else
      match (goSlice m (mPkt + 2) (mPkt + 4)).bind bigEndianUint16 with
      | none => none
      | some mLength =>
        if mLength ≠ mRequiredLength then some (false, mPkt)
        else
          match (goSlice m (mPkt + 4) (mPkt + 8)).bind bigEndianUint32 with
          | none => none
          | some mErrorCode =>
            if mErrorCode = mRequiredCode then some (true, mPkt + 8)
            else some (false, mPkt + 8)

/-- Go `(*mPacket).GetNonceFromResponse`: the returned slice (`none` is nil)
and the receiver's cursor afterwards; the outer `none` is a run-time panic. -/
def GetNonceFromResponse (mPkt : Int) (mBadAuthPacket : ByteSlice) :
    Option (Option (List Nat) × Int) :=
  match CheckNonce (mPkt + (headerlen + errorcodelen)) mBadAuthPacket with
  | none => none
  | some (bOK, nonce, _) =>
    if !bOK then some (none, mPkt)
    else some (nonce, mPkt)

/-! ## `allocationLifeTime` -/

/-- Modelled from the spec: `proto.DefaultLifetime` (package `proto` is not
among the sources), ten minutes, in nanoseconds. -/
def DefaultLifetime : Int := 10 * 60 * 1000000000

/-- What `allocationLifeTime` observes of its `*stun.Message`: the result of
`lifetime.GetFrom(m)`, an error or the `Duration` of the LIFETIME attribute in
nanoseconds. -/
structure LifetimeMessage where
  lifetime : Except GoError Int

/-- Go `allocationLifeTime`. -/
def allocationLifeTime (m : LifetimeMessage) : Int :=
  match m.lifetime with
  | .ok duration =>
    if duration < maximumAllocationLifetime then duration else DefaultLifetime
  | .error _ => DefaultLifetime

/-- Whether a call is the call of a handler returned by `getMessageHandler`. -/
def Call.isHandler : Call → Bool
  | Call.handler _ => true
  | _ => false

/-! ## Sample inputs -/

/-- A stand-in for `crypto/md5` that is right on the one input the samples
hash, the bytes of "720042" (Unix time 7200 followed by the random number 42);
every other input gets sixteen zero bytes. -/
def sampleMd5 (bs : List Nat) : List Nat :=
  if bs = [55, 50, 48, 48, 52, 50] then
    [68, 137, 248, 208, 170, 237, 67, 172, 190, 126, 170, 244, 169, 198, 111, 141]
  else List.replicate 16 0

/-- A connection whose writes succeed. -/
def sampleConn : PacketConn :=
  ⟨"udp4:0.0.0.0:3478", fun _ _ => none⟩

/-- An environment in which `stun.Build` succeeds and every clock reading is
`now`; `buildNonce` hashes Unix time 7200 and the random number 42. -/
def sampleEnvAt (now : Int) : Env :=
  ⟨sampleMd5, 7200, 42, now, now, fun _ => none⟩

/-- The sample environment two hours after the clock's origin. -/
def sampleEnv : Env :=
  sampleEnvAt (2 * timeHour)

/-- The credential lookup of the tests: the key of the single user
`dummyuser`. -/
def sampleAuth (username realm : String) (_srcAddr : NetAddr) : List Nat × Bool :=
  if username = "dummyuser" ∧ realm = "myenterprise" then ([1, 2, 3], true) else ([], false)

/-- A message without MESSAGE-INTEGRITY (the blank Allocate of the tests). -/
def sampleBlankMsg : StunMessageIF :=
  ⟨[1, 2, 3, 4, 5, 6, 7, 8, 9, 10, 11, 12], fun _ => false,
    .error (.external "attribute not found"), .error (.external "attribute not found"),
    .error (.external "attribute not found"), fun _ => none⟩

/-- A message carrying MESSAGE-INTEGRITY and the given NONCE, with the REALM
and USERNAME of the tests; the integrity check passes for the key `[1, 2, 3]`
only. -/
def sampleAuthMsg (nonce : String) : StunMessageIF :=
  ⟨[1, 2, 3, 4, 5, 6, 7, 8, 9, 10, 11, 12], fun _ => true,
    .ok nonce, .ok "myenterprise", .ok "dummyuser",
    fun key => if key = [1, 2, 3] then none else some (.external "integrity check failed")⟩

/-- A request on the given nonce store. -/
def sampleRequest (nonces : SyncMap) : Request :=
  ⟨sampleConn, "250.128.0.0:5600", [], nonces, sampleAuth, "myenterprise"⟩

/-- The nonce that `buildNonce` returns in `sampleEnv`. -/
def sampleNonce : String := "4489f8d0aaed43acbe7eaaf4a9c66f8d"

/-- A message with valid nonce, realm and username of a user that the
credential lookup does not know. -/
def sampleUnknownUserMsg : StunMessageIF :=
  ⟨[1, 2, 3, 4, 5, 6, 7, 8, 9, 10, 11, 12], fun _ => true,
    .ok "123", .ok "myenterprise", .ok "mallory", fun _ => none⟩

/-- The 401 challenge that answers `sampleBlankMsg` for method 3 (Allocate)
in `sampleEnv`. -/
def sampleChallenge : WriteCall :=
  ⟨"udp4:0.0.0.0:3478", "250.128.0.0:5600",
    [Setter.message [1, 2, 3, 4, 5, 6, 7, 8, 9, 10, 11, 12],
      Setter.msgType (NewType 3 ClassErrorResponse), Setter.errorCodeAttribute 401,
      Setter.nonce sampleNonce, Setter.realm "myenterprise"]⟩

/-- A connection on which every write fails. -/
def failingConn : PacketConn :=
  ⟨"udp4:0.0.0.0:3478", fun _ _ => some (.external "write: network is unreachable")⟩

/-- A message with valid nonce, realm and username whose MESSAGE-INTEGRITY
check fails for every key. -/
def sampleBadIntegrityMsg : StunMessageIF :=
  ⟨[1, 2, 3, 4, 5, 6, 7, 8, 9, 10, 11, 12], fun _ => true,
    .ok "123", .ok "myenterprise", .ok "dummyuser",
    fun _ => some (.external "integrity check failed")⟩

/-- Modelled from the spec: `proto.IsChannelData` (package `proto` is not among
the sources) by the classification rule "the first two bits of byte 0
determine the frame type: `01` is channel data". -/
def specIsChannelData (buf : List Nat) : Bool :=
  match buf with
  | b :: _ => b / 64 % 4 == 1
  | [] => false

/-- A 20-byte Binding request header: type 0x0001, length 0, the magic
cookie and the transaction id 1..12. -/
def sampleBindingBuf : List Nat :=
  [0x00, 0x01, 0x00, 0x00, 0x21, 0x12, 0xA4, 0x42, 1, 2, 3, 4, 5, 6, 7, 8, 9, 10, 11, 12]

/-- A 20-byte header of a Request with the method Send (type 0x0006). -/
def sampleSendRequestBuf : List Nat :=
  [0x00, 0x06, 0x00, 0x00, 0x21, 0x12, 0xA4, 0x42, 1, 2, 3, 4, 5, 6, 7, 8, 9, 10, 11, 12]

/-- Sample collaborators: the classifier of the specification, a decoder
that knows the two sample headers, a source address parser that knows the
sample source address, and handlers that return nil and do nothing. -/
def sampleLib : Collaborators :=
  ⟨specIsChannelData,
    fun _ => .error (.external "unexpected EOF"),
    fun r _ => ⟨none, r.Nonces, [], []⟩,
    fun buf =>
      if buf = sampleBindingBuf then .ok ⟨MethodBinding, MessageClass.request, sampleBlankMsg⟩
      else if buf = sampleSendRequestBuf then
        .ok ⟨MethodSend, MessageClass.request, sampleBlankMsg⟩
      else .error (.external "unexpected EOF"),
    fun method => toString method,
    fun cls => if cls = MessageClass.request then "request" else "other",
    fun addr =>
      if addr = "250.128.0.0:5600" then .ok ([250, 128, 0, 0], 5600)
      else .error (.external "failed to cast net.Addr"),
    fun _ r _ => ⟨none, r.Nonces, [], []⟩⟩

/-- The logger of the samples. -/
def sampleLog : LeveledLogger := ⟨"turn"⟩

/-- A request from the sample source address with the given buffer. -/
def sampleDatagram (buf : List Nat) : Request :=
  ⟨sampleConn, "250.128.0.0:5600", buf, [], sampleAuth, "myenterprise"⟩

/-- The 401 response to an Allocate of the tests, up to the REALM: header
(type 0x0113, length 0x3c, magic cookie, transaction id 1..12), ERROR-CODE,
NONCE of 32 bytes and REALM "MyEnterprise". -/
def sampleBadAuthPacket : List Nat :=
  [0x01, 0x13, 0x00, 0x3c, 0x21, 0x12, 0xA4, 0x42, 1, 2, 3, 4, 5, 6, 7, 8, 9, 10, 11, 12,
    0x00, 0x09, 0x00, 0x04, 0x00, 0x00, 0x04, 0x01] ++
  [0x00, 0x15, 0x00, 0x20] ++ sampleNonce.toList.map Char.toNat ++
  [0x00, 0x14, 0x00, 0x0c] ++ "MyEnterprise".toList.map Char.toNat

/-- A REALM attribute with the three-byte value "abc" and one byte of
padding. -/
def samplePaddedRealm : List Nat :=
  [0x00, 0x14, 0x00, 0x03, 97, 98, 99, 0x00]

/-- A 20-byte header of type 0x0113 and length 0x3c whose cookie field is 1
instead of the magic cookie. -/
def sampleHeaderOddCookie : List Nat :=
  [0x01, 0x13, 0x00, 0x3c, 0x00, 0x00, 0x00, 0x01, 1, 2, 3, 4, 5, 6, 7, 8, 9, 10, 11, 12]

/-- The first 40 bytes of the sample response as the slice
`sampleBadAuthPacket[:40]`: length 40, capacity 80; the NONCE value lies in
the spare bytes. -/
def sampleReslicedPacket : ByteSlice :=
  ⟨sampleBadAuthPacket.take 40, sampleBadAuthPacket.drop 40⟩

/-- The first 10 bytes of the sample response as the slice
`sampleBadAuthPacket[:10:64]`: length 10, capacity 64. -/
def sampleShortSlice : ByteSlice :=
  ⟨sampleBadAuthPacket.take 10, (sampleBadAuthPacket.drop 10).take 54⟩

/-- A stand-in for `stun.Build` that enforces the two limits of the codec
which the samples reach: a REALM of more than 763 bytes and an
XOR-MAPPED-ADDRESS whose IP is neither 4 nor 16 bytes long are refused; every
other list of setters is built. -/
def sampleStunBuild (attrs : List Setter) : Option GoError :=
  if attrs.any (fun s =>
      match s with
      | Setter.realm r => decide (763 < r.utf8ByteSize)
      | _ => false) then
    some (.external "attribute size overflow")
  else if attrs.any (fun s =>
      match s with
      | Setter.xorMappedAddress ip _ => decide (ip.length ≠ 4 ∧ ip.length ≠ 16)
      | _ => false) then
    some (.external "invalid length of IP value")
  else none

/-- The sample environment with `sampleStunBuild` as `stun.Build`. -/
def sampleStrictEnv : Env :=
  ⟨sampleMd5, 7200, 42, 2 * timeHour, 2 * timeHour, sampleStunBuild⟩

/-- A realm of 800 bytes. -/
def sampleLongRealm : String :=
  String.mk (List.replicate 800 'a')

/-- A request to a server that is configured with the realm of 800 bytes. -/
def sampleLongRealmRequest (nonces : SyncMap) : Request :=
  ⟨sampleConn, "250.128.0.0:5600", [], nonces, sampleAuth, sampleLongRealm⟩

/-- The sample collaborators with a source address parser that also knows the
address ":0", a UDP address without IP, for which it yields the nil IP and
port 0. -/
def sampleNilIPLib : Collaborators :=
  ⟨sampleLib.IsChannelData, sampleLib.channelDataDecode, sampleLib.handleChannelData,
    sampleLib.stunDecode, sampleLib.methodString, sampleLib.classString,
    fun addr => if addr = ":0" then .ok ([], 0) else sampleLib.AddrIPPort addr,
    sampleLib.turnHandler⟩

/-! ## Lemmas on the nonce store -/

theorem SyncMap.lt_ptrBound (m : SyncMap) (a : Nat) (v : MapValue)
    (h : (MapKey.noncePtr a, v) ∈ m) : a < SyncMap.ptrBound m := by
  induction m with
  | nil => simp at h
  | cons kv rest ih =>
    obtain ⟨k, w⟩ := kv
    cases k with
    | str s =>
      simp only [List.mem_cons, Prod.mk.injEq, reduceCtorEq, false_and, false_or] at h
      simpa [SyncMap.ptrBound] using ih h
    | noncePtr b =>
      simp only [List.mem_cons, Prod.mk.injEq, MapKey.noncePtr.injEq] at h
      simp only [SyncMap.ptrBound]
      rcases h with ⟨hab, _⟩ | h
      · omega
      · have := ih h
        omega

/-- Deleting the freshly allocated `*stun.Nonce` key removes nothing. -/
theorem SyncMap.Delete_newNoncePtr (m : SyncMap) : m.Delete (newNoncePtr m) = m := by
  unfold SyncMap.Delete newNoncePtr
  rw [List.filter_eq_self]
  rintro ⟨k, v⟩ hkv
  simp only [ne_eq, decide_not, Bool.not_eq_eq_eq_not, Bool.not_true, decide_eq_false_iff_not]
  intro hk
  subst hk
  exact absurd (SyncMap.lt_ptrBound m _ v hkv) (lt_irrefl _)

/-- Deleting a `*stun.Nonce` key leaves every string key in place. -/
theorem SyncMap.Load_Delete_noncePtr (m : SyncMap) (a : Nat) (s : String) :
    (m.Delete (MapKey.noncePtr a)).Load (MapKey.str s) = m.Load (MapKey.str s) := by
  have hp : (fun kv : MapKey × MapValue =>
      decide (decide (kv.1 ≠ MapKey.noncePtr a) = true ∧ decide (kv.1 = MapKey.str s) = true)) =
      (fun kv => decide (kv.1 = MapKey.str s)) := by
    funext kv
    by_cases hk : kv.1 = MapKey.str s
    · simp [hk]
    · simp [hk]
  simp only [SyncMap.Delete, SyncMap.Load, List.find?_filter, hp]

theorem SyncMap.Load_append_new (m : SyncMap) (k : MapKey) (v : MapValue)
    (h : m.Load k = none) : SyncMap.Load (m ++ [(k, v)]) k = some v := by
  simp only [SyncMap.Load, Option.map_eq_none', List.find?_eq_none] at h
  simp only [SyncMap.Load, List.find?_append]
  rw [List.find?_eq_none.mpr h]
  simp

/-! ## `respondWithNonce` -/

theorem buildNonce_ok (e : Env) : ∃ n, buildNonce e = .ok n :=
  ⟨_, rfl⟩

theorem respondWithNonce_ok (e : Env) (r : Request) (m : StunMessageIF) (cm : Nat)
    (ns : SyncMap) (code : Nat) : (respondWithNonce e r m cm ns code).ok = false := by
  unfold respondWithNonce
  split
  · rfl
  · split
    · rfl
    · split
      rfl

theorem respondWithNonce_authCalls (e : Env) (r : Request) (m : StunMessageIF) (cm : Nat)
    (ns : SyncMap) (code : Nat) : (respondWithNonce e r m cm ns code).authCalls = [] := by
  unfold respondWithNonce
  split
  · rfl
  · split
    · rfl
    · split
      rfl

/-- The collision branch of `respondWithNonce`. -/
theorem respondWithNonce_collision (e : Env) (r : Request) (m : StunMessageIF) (cm : Nat)
    (ns : SyncMap) (code : Nat) (n : String) (v : MapValue)
    (hn : buildNonce e = .ok n) (hv : ns.Load (MapKey.str n) = some v) :
    respondWithNonce e r m cm ns code = ⟨[], false, some errDuplicatedNonce, ns, [], []⟩ := by
  simp [respondWithNonce, hn, SyncMap.LoadOrStore, hv]

/-- The branch of `respondWithNonce` that stores the nonce and sends. -/
theorem respondWithNonce_fresh (e : Env) (r : Request) (m : StunMessageIF) (cm : Nat)
    (ns : SyncMap) (code : Nat) (n : String)
    (hn : buildNonce e = .ok n) (hv : ns.Load (MapKey.str n) = none) :
    respondWithNonce e r m cm ns code =
      ⟨[], false,
        (buildAndSend e r.Conn r.SrcAddr (buildMsg m.transactionID (NewType cm ClassErrorResponse)
          [Setter.errorCodeAttribute code, Setter.nonce n, Setter.realm r.Realm])).1,
        ns ++ [(MapKey.str n, MapValue.time e.storeNow)],
        (buildAndSend e r.Conn r.SrcAddr (buildMsg m.transactionID (NewType cm ClassErrorResponse)
          [Setter.errorCodeAttribute code, Setter.nonce n, Setter.realm r.Realm])).2, []⟩ := by
  simp [respondWithNonce, hn, SyncMap.LoadOrStore, hv]

theorem buildAndSend_built (e : Env) (conn : PacketConn) (dst : NetAddr) (attrs : List Setter)
    (h : e.stunBuild attrs = none) :
    buildAndSend e conn dst attrs = (conn.writeTo attrs dst, [⟨conn.name, dst, attrs⟩]) := by
  simp [buildAndSend, h]

theorem buildAndSend_writes (e : Env) (conn : PacketConn) (dst : NetAddr) (attrs : List Setter)
    (w : WriteCall) (h : w ∈ (buildAndSend e conn dst attrs).2) :
    w = ⟨conn.name, dst, attrs⟩ := by
  unfold buildAndSend at h
  split at h
  · simp at h
  · simpa using h

theorem buildAndSendErr_writes (e : Env) (conn : PacketConn) (dst : NetAddr)
    (err : Option GoError) (attrs : List Setter) :
    (buildAndSendErr e conn dst err attrs).2 = (buildAndSend e conn dst attrs).2 := by
  unfold buildAndSendErr
  split <;> simp_all

theorem buildAndSendErr_ne_none (e : Env) (conn : PacketConn) (dst : NetAddr)
    (err : GoError) (attrs : List Setter) :
    (buildAndSendErr e conn dst (some err) attrs).1 ≠ none := by
  unfold buildAndSendErr
  split <;> simp

theorem buildAndSend_refused (e : Env) (conn : PacketConn) (dst : NetAddr) (attrs : List Setter)
    (berr : GoError) (h : e.stunBuild attrs = some berr) :
    buildAndSend e conn dst attrs = (some berr, []) := by
  simp [buildAndSend, h]

theorem buildAndSendErr_sent (e : Env) (conn : PacketConn) (dst : NetAddr)
    (err : Option GoError) (attrs : List Setter)
    (hb : e.stunBuild attrs = none) (hw : conn.writeTo attrs dst = none) :
    buildAndSendErr e conn dst err attrs = (err, [⟨conn.name, dst, attrs⟩]) := by
  simp [buildAndSendErr, buildAndSend, hb, hw]

/-! ## `authenticateRequest` -/

/-- C1. `authenticateRequest` returns `ok = true` exactly when the message
contains MESSAGE-INTEGRITY, NONCE parses, the presented nonce is in the store
with a timestamp less than one hour old, REALM and USERNAME parse, the
`AuthHandler` returns ok for (username, realm, source address) and the
integrity check with the returned key passes; in that case the returned
integrity value is that key, the error is nil and nothing is written. -/
theorem authenticateRequest_ok_iff (e : Env) (r : Request) (m : StunMessageIF) (cm : Nat) :
    ((authenticateRequest e r m cm).ok = true ↔
      (m.contains AttrMessageIntegrity = true ∧
        ∃ n t realm user, m.nonce = .ok n ∧
          r.Nonces.Load (MapKey.str n) = some (MapValue.time t) ∧
          timeSince e t < nonceLifetime ∧
          m.realm = .ok realm ∧ m.username = .ok user ∧
          (r.AuthHandler user realm r.SrcAddr).2 = true ∧
          m.integrityCheck (r.AuthHandler user realm r.SrcAddr).1 = none)) ∧
    ((authenticateRequest e r m cm).ok = true →
      (∃ realm user, m.realm = .ok realm ∧ m.username = .ok user ∧
        (authenticateRequest e r m cm).integrity = (r.AuthHandler user realm r.SrcAddr).1) ∧
      (authenticateRequest e r m cm).err = none ∧
      (authenticateRequest e r m cm).writes = []) := by
  unfold authenticateRequest
  split
  · rename_i h
    simp only [Bool.not_eq_true', Bool.not_eq_eq_eq_not, Bool.not_true] at h
    simp [respondWithNonce_ok, h]
  · rename_i h
    simp only [Bool.not_eq_true, Bool.not_eq_false'] at h
    split
    · simp_all
    · split
      · simp_all [respondWithNonce_ok]
      · simp_all [respondWithNonce_ok]
      · split
        · simp_all [respondWithNonce_ok]
        · split
          · simp_all
          · split
            · simp_all
            · split
              · simp_all
              · split
                · simp_all
                · simp_all

/-- C2, as stated, fails when `stun.Build` refuses the response: the server
is configured with a realm of 800 bytes, more than a REALM attribute holds;
the message carries no MESSAGE-INTEGRITY and the generated nonce is not a key
of the (empty) store, yet nothing is written, and the run returns the error
of `stun.Build`. -/
theorem unauthorized_not_built :
    sampleBlankMsg.contains AttrMessageIntegrity = false ∧
    buildNonce sampleStrictEnv = .ok sampleNonce ∧
    (sampleLongRealmRequest []).Nonces.Load (MapKey.str sampleNonce) = none ∧
    (sampleLongRealmRequest []).Realm.utf8ByteSize = 800 ∧
    (authenticateRequest sampleStrictEnv (sampleLongRealmRequest []) sampleBlankMsg 3).writes =
      [] ∧
    (authenticateRequest sampleStrictEnv (sampleLongRealmRequest []) sampleBlankMsg 3).ok =
      false ∧
    (authenticateRequest sampleStrictEnv (sampleLongRealmRequest []) sampleBlankMsg 3).err =
      some (.external "attribute size overflow") := by
  set_option maxRecDepth 8192 in
  exact ⟨by decide, rfl, by decide, by decide, by decide, by decide, rfl⟩

/-- C2, amended. When the message does not contain MESSAGE-INTEGRITY and the
freshly generated nonce `n` is not yet a key of the store, then, if
`stun.Build` accepts the setters of the response, `authenticateRequest` makes
exactly one write, to `(Conn, SrcAddr)`, of the message that `stun.Build`
builds from the request's transaction id, the type "error response of
`callingMethod`", ERROR-CODE 401, NONCE `n` and the configured REALM; if
`stun.Build` refuses them, it writes nothing and returns the error of
`stun.Build`. In both cases no message written holds a MESSAGE-INTEGRITY
setter and it returns `ok = false`. -/
theorem authenticateRequest_unauthorized (e : Env) (r : Request) (m : StunMessageIF)
    (cm : Nat) (n : String)
    (hMI : m.contains AttrMessageIntegrity = false)
    (hn : buildNonce e = .ok n)
    (hfresh : r.Nonces.Load (MapKey.str n) = none) :
    (e.stunBuild [Setter.message m.transactionID,
        Setter.msgType (NewType cm ClassErrorResponse), Setter.errorCodeAttribute 401,
        Setter.nonce n, Setter.realm r.Realm] = none →
      (authenticateRequest e r m cm).writes =
        [⟨r.Conn.name, r.SrcAddr, [Setter.message m.transactionID,
          Setter.msgType (NewType cm ClassErrorResponse), Setter.errorCodeAttribute 401,
          Setter.nonce n, Setter.realm r.Realm]⟩]) ∧
    (∀ berr, e.stunBuild [Setter.message m.transactionID,
        Setter.msgType (NewType cm ClassErrorResponse), Setter.errorCodeAttribute 401,
        Setter.nonce n, Setter.realm r.Realm] = some berr →
      (authenticateRequest e r m cm).writes = [] ∧
      (authenticateRequest e r m cm).err = some berr) ∧
    (∀ w ∈ (authenticateRequest e r m cm).writes, ∀ key, Setter.messageIntegrity key ∉ w.msg) ∧
    (authenticateRequest e r m cm).ok = false := by
  have hrun : authenticateRequest e r m cm =
      respondWithNonce e r m cm r.Nonces CodeUnauthorized := by
    simp [authenticateRequest, hMI]
  rw [hrun, respondWithNonce_fresh e r m cm r.Nonces CodeUnauthorized n hn hfresh]
  refine ⟨?_, ?_, ?_, rfl⟩
  · intro hbuild
    have hb := buildAndSend_built e r.Conn r.SrcAddr _ hbuild
    simp only [buildMsg, CodeUnauthorized, List.cons_append, List.nil_append] at hb ⊢
    simp [hb]
  · intro berr hbuild
    have hb := buildAndSend_refused e r.Conn r.SrcAddr _ berr hbuild
    simp only [buildMsg, CodeUnauthorized, List.cons_append, List.nil_append] at hb ⊢
    simp [hb]
  · intro w hw key
    have hw' := buildAndSend_writes e r.Conn r.SrcAddr _ w hw
    subst hw'
    simp [buildMsg]

theorem authenticateRequest_unauthorized_witness :
    (authenticateRequest sampleEnv (sampleRequest [(MapKey.str "456", MapValue.other "Hello")])
      sampleBlankMsg 3).writes =
      [⟨"udp4:0.0.0.0:3478", "250.128.0.0:5600", [Setter.message [1, 2, 3, 4, 5, 6, 7, 8, 9, 10, 11, 12],
        Setter.msgType (NewType 3 ClassErrorResponse), Setter.errorCodeAttribute 401,
        Setter.nonce sampleNonce, Setter.realm "myenterprise"]⟩] ∧
    (∀ w ∈ (authenticateRequest sampleEnv
        (sampleRequest [(MapKey.str "456", MapValue.other "Hello")]) sampleBlankMsg 3).writes,
      ∀ key, Setter.messageIntegrity key ∉ w.msg) ∧
    (authenticateRequest sampleEnv (sampleRequest [(MapKey.str "456", MapValue.other "Hello")])
      sampleBlankMsg 3).ok = false :=
  have h := authenticateRequest_unauthorized sampleEnv
    (sampleRequest [(MapKey.str "456", MapValue.other "Hello")]) sampleBlankMsg 3 sampleNonce
    (by decide) rfl (by decide)
  ⟨h.1 rfl, h.2.2.1, h.2.2.2⟩

/-- C3, as stated, fails when the generated nonce collides, and when
`stun.Build` refuses the response. In the first run the request carries
MESSAGE-INTEGRITY and the parseable NONCE "456", which is stored with a value
that is not a timestamp, and the nonce that `buildNonce` generates is already
a key: no response is written and the run returns `errDuplicatedNonce`. In
the second run the generated nonce is no key, but the server is configured
with a realm of 800 bytes, more than a REALM attribute holds: no response is
written and the run returns the error of `stun.Build`. -/
theorem authenticateRequest_stale_collision :
    (sampleAuthMsg "456").contains AttrMessageIntegrity = true ∧
    (sampleAuthMsg "456").nonce = .ok "456" ∧
    SyncMap.Load [(MapKey.str "456", MapValue.other "Hello"),
      (MapKey.str sampleNonce, MapValue.time 0)] (MapKey.str "456") =
        some (MapValue.other "Hello") ∧
    (authenticateRequest sampleEnv
      (sampleRequest [(MapKey.str "456", MapValue.other "Hello"),
        (MapKey.str sampleNonce, MapValue.time 0)]) (sampleAuthMsg "456") 3).writes = [] ∧
    (authenticateRequest sampleEnv
      (sampleRequest [(MapKey.str "456", MapValue.other "Hello"),
        (MapKey.str sampleNonce, MapValue.time 0)]) (sampleAuthMsg "456") 3).err =
        some errDuplicatedNonce ∧
    SyncMap.Load [(MapKey.str "456", MapValue.other "Hello")] (MapKey.str "456") =
        some (MapValue.other "Hello") ∧
    buildNonce sampleStrictEnv = .ok sampleNonce ∧
    SyncMap.Load [(MapKey.str "456", MapValue.other "Hello")] (MapKey.str sampleNonce) =
        none ∧
    (sampleLongRealmRequest [(MapKey.str "456", MapValue.other "Hello")]).Realm.utf8ByteSize =
        800 ∧
    (authenticateRequest sampleStrictEnv
      (sampleLongRealmRequest [(MapKey.str "456", MapValue.other "Hello")])
      (sampleAuthMsg "456") 3).writes = [] ∧
    (authenticateRequest sampleStrictEnv
      (sampleLongRealmRequest [(MapKey.str "456", MapValue.other "Hello")])
      (sampleAuthMsg "456") 3).err = some (.external "attribute size overflow") := by
  set_option maxRecDepth 8192 in
  exact ⟨by decide, rfl, by decide, by decide, rfl, by decide, rfl, by decide, by decide,
    by decide, rfl⟩

/-- C3, amended. When the request carries MESSAGE-INTEGRITY and a parseable
NONCE whose value is absent from the store, or is stored with a value that is
not a timestamp, and the freshly generated nonce `n` is not yet a key of the
store, then, if `stun.Build` accepts the setters of the response,
`authenticateRequest` answers with ERROR-CODE 438 carrying NONCE `n` and the
configured REALM; if `stun.Build` refuses them, it writes nothing and returns
the error of `stun.Build`. In both cases it returns `ok = false`. -/
theorem authenticateRequest_stale_unknown (e : Env) (r : Request) (m : StunMessageIF)
    (cm : Nat) (p n : String)
    (hMI : m.contains AttrMessageIntegrity = true)
    (hp : m.nonce = .ok p)
    (hcase : r.Nonces.Load (MapKey.str p) = none ∨
      ∃ d, r.Nonces.Load (MapKey.str p) = some (MapValue.other d))
    (hn : buildNonce e = .ok n)
    (hfresh : r.Nonces.Load (MapKey.str n) = none) :
    (e.stunBuild [Setter.message m.transactionID,
        Setter.msgType (NewType cm ClassErrorResponse), Setter.errorCodeAttribute 438,
        Setter.nonce n, Setter.realm r.Realm] = none →
      (authenticateRequest e r m cm).writes =
        [⟨r.Conn.name, r.SrcAddr, [Setter.message m.transactionID,
          Setter.msgType (NewType cm ClassErrorResponse), Setter.errorCodeAttribute 438,
          Setter.nonce n, Setter.realm r.Realm]⟩]) ∧
    (∀ berr, e.stunBuild [Setter.message m.transactionID,
        Setter.msgType (NewType cm ClassErrorResponse), Setter.errorCodeAttribute 438,
        Setter.nonce n, Setter.realm r.Realm] = some berr →
      (authenticateRequest e r m cm).writes = [] ∧
      (authenticateRequest e r m cm).err = some berr) ∧
    (authenticateRequest e r m cm).ok = false := by
  have hrun : authenticateRequest e r m cm =
      respondWithNonce e r m cm r.Nonces CodeStaleNonce := by
    rcases hcase with h | ⟨d, h⟩
    · simp [authenticateRequest, hMI, hp, h, SyncMap.Delete_newNoncePtr]
    · simp [authenticateRequest, hMI, hp, h, SyncMap.Delete_newNoncePtr]
  rw [hrun, respondWithNonce_fresh e r m cm r.Nonces CodeStaleNonce n hn hfresh]
  refine ⟨?_, ?_, rfl⟩
  · intro hbuild
    have hb := buildAndSend_built e r.Conn r.SrcAddr _ hbuild
    simp only [buildMsg, CodeStaleNonce, List.cons_append, List.nil_append] at hb ⊢
    simp [hb]
  · intro berr hbuild
    have hb := buildAndSend_refused e r.Conn r.SrcAddr _ berr hbuild
    simp only [buildMsg, CodeStaleNonce, List.cons_append, List.nil_append] at hb ⊢
    simp [hb]

theorem authenticateRequest_stale_unknown_witness :
    (authenticateRequest sampleEnv (sampleRequest [(MapKey.str "456", MapValue.other "Hello")])
      (sampleAuthMsg "456") 3).writes =
      [⟨"udp4:0.0.0.0:3478", "250.128.0.0:5600", [Setter.message [1, 2, 3, 4, 5, 6, 7, 8, 9, 10, 11, 12],
        Setter.msgType (NewType 3 ClassErrorResponse), Setter.errorCodeAttribute 438,
        Setter.nonce sampleNonce, Setter.realm "myenterprise"]⟩] ∧
    (authenticateRequest sampleEnv (sampleRequest [(MapKey.str "456", MapValue.other "Hello")])
      (sampleAuthMsg "456") 3).ok = false :=
  have h := authenticateRequest_stale_unknown sampleEnv
    (sampleRequest [(MapKey.str "456", MapValue.other "Hello")]) (sampleAuthMsg "456") 3
    "456" sampleNonce (by decide) rfl (Or.inr ⟨"Hello", by decide⟩) rfl (by decide)
  ⟨h.1 rfl, h.2.2⟩

/-! ## Staleness of a stored nonce -/

theorem timeSince_ge_iff (e : Env) (t : Int) :
    nonceLifetime ≤ timeSince e t ↔ nonceLifetime ≤ e.sinceNow - t := by
  unfold timeSince timeSub nonceLifetime timeHour maxDuration minDuration
  split_ifs <;> omega

theorem buildAndSendErr_not_collision (e : Env) (conn : PacketConn) (dst : NetAddr)
    (err : Option GoError) (attrs : List Setter) :
    ¬ ((buildAndSendErr e conn dst err attrs).1 = some errDuplicatedNonce ∧
      (buildAndSendErr e conn dst err attrs).2 = []) := by
  unfold buildAndSendErr buildAndSend
  cases hb : e.stunBuild attrs with
  | some se => simp [errDuplicatedNonce]
  | none =>
    cases hw : conn.writeTo attrs dst with
    | some we => simp [errDuplicatedNonce]
    | none => simp

/-- A run that finds the presented nonce stored with a timestamp at least
one hour old is the run of `respondWithNonce(stun.CodeStaleNonce)`. -/
theorem authenticateRequest_stale_run (e : Env) (r : Request) (m : StunMessageIF) (cm : Nat)
    (p : String) (t : Int)
    (hMI : m.contains AttrMessageIntegrity = true) (hp : m.nonce = .ok p)
    (hload : r.Nonces.Load (MapKey.str p) = some (MapValue.time t))
    (hstale : nonceLifetime ≤ timeSince e t) :
    authenticateRequest e r m cm =
      respondWithNonce e r m cm (r.Nonces.Delete (newNoncePtr r.Nonces)) CodeStaleNonce := by
  simp [authenticateRequest, hMI, hp, hload, hstale]

/-- A run that finds the presented nonce stored with a timestamp less than
one hour old leaves the store as it is, writes nothing but the 400 response,
and does not end the way a nonce collision does. -/
theorem authenticateRequest_accepted_nonce (e : Env) (r : Request) (m : StunMessageIF)
    (cm : Nat) (p : String) (t : Int)
    (hMI : m.contains AttrMessageIntegrity = true) (hp : m.nonce = .ok p)
    (hload : r.Nonces.Load (MapKey.str p) = some (MapValue.time t))
    (hlt : timeSince e t < nonceLifetime) :
    (authenticateRequest e r m cm).nonces = r.Nonces ∧
    (∀ w ∈ (authenticateRequest e r m cm).writes,
      w = ⟨r.Conn.name, r.SrcAddr, [Setter.message m.transactionID,
        Setter.msgType (NewType cm ClassErrorResponse),
        Setter.errorCodeAttribute CodeBadRequest]⟩) ∧
    ¬ ((authenticateRequest e r m cm).ok = false ∧
      (authenticateRequest e r m cm).err = some errDuplicatedNonce ∧
      (authenticateRequest e r m cm).writes = []) := by
  have hnot : ¬ (nonceLifetime ≤ timeSince e t) := not_le.mpr hlt
  have hw := buildAndSend_writes e r.Conn r.SrcAddr
    (buildMsg m.transactionID (NewType cm ClassErrorResponse)
      [Setter.errorCodeAttribute CodeBadRequest])
  have hc := fun (err : Option GoError) => buildAndSendErr_not_collision e r.Conn r.SrcAddr err
    (buildMsg m.transactionID (NewType cm ClassErrorResponse)
      [Setter.errorCodeAttribute CodeBadRequest])
  simp only [buildMsg, List.cons_append, List.nil_append] at hw hc
  simp only [authenticateRequest, hMI, hp, hload, ge_iff_le, hnot, buildMsg,
    List.cons_append, List.nil_append, Bool.not_true, Bool.false_eq_true, if_false]
  split
  · exact ⟨rfl, by simpa [buildAndSendErr_writes] using hw, by simpa using hc _⟩
  · split
    · exact ⟨rfl, by simpa [buildAndSendErr_writes] using hw, by simpa using hc _⟩
    · split
      · exact ⟨rfl, by simpa [buildAndSendErr_writes] using hw, by simpa using hc _⟩
      · split
        · exact ⟨rfl, by simpa [buildAndSendErr_writes] using hw, by simpa using hc _⟩
        · simp

/-- Unless the generated nonce collides, `respondWithNonce` extends the
store. -/
theorem respondWithNonce_nonces_eq (e : Env) (r : Request) (m : StunMessageIF) (cm : Nat)
    (ns : SyncMap) (code : Nat) (h : (respondWithNonce e r m cm ns code).nonces = ns) :
    (respondWithNonce e r m cm ns code).err = some errDuplicatedNonce ∧
    (respondWithNonce e r m cm ns code).writes = [] := by
  obtain ⟨n, hn⟩ := buildNonce_ok e
  cases hv : ns.Load (MapKey.str n) with
  | some v => simp [respondWithNonce_collision e r m cm ns code n v hn hv]
  | none =>
    rw [respondWithNonce_fresh e r m cm ns code n hn hv] at h
    simp at h

/-- Every run either is a run of `respondWithNonce` on the unchanged store,
with code 401 or 438, or leaves the store as it is and writes nothing but the
400 response. -/
theorem authenticateRequest_cases (e : Env) (r : Request) (m : StunMessageIF) (cm : Nat) :
    (∃ code, (code = CodeUnauthorized ∨ code = CodeStaleNonce) ∧
      authenticateRequest e r m cm = respondWithNonce e r m cm r.Nonces code) ∨
    ((authenticateRequest e r m cm).nonces = r.Nonces ∧
      ∀ w ∈ (authenticateRequest e r m cm).writes,
        w = ⟨r.Conn.name, r.SrcAddr, [Setter.message m.transactionID,
          Setter.msgType (NewType cm ClassErrorResponse),
          Setter.errorCodeAttribute CodeBadRequest]⟩) := by
  cases hMI : m.contains AttrMessageIntegrity with
  | false =>
    exact Or.inl ⟨CodeUnauthorized, Or.inl rfl, by simp [authenticateRequest, hMI]⟩
  | true =>
    cases hp : m.nonce with
    | error err =>
      refine Or.inr ?_
      have hw := buildAndSend_writes e r.Conn r.SrcAddr
        (buildMsg m.transactionID (NewType cm ClassErrorResponse)
          [Setter.errorCodeAttribute CodeBadRequest])
      simp only [buildMsg, List.cons_append, List.nil_append] at hw
      simp only [authenticateRequest, hMI, hp, buildMsg, List.cons_append, List.nil_append,
        Bool.not_true, Bool.false_eq_true, if_false]
      exact ⟨trivial, by simpa [buildAndSendErr_writes] using hw⟩
    | ok p =>
      cases hload : r.Nonces.Load (MapKey.str p) with
      | none =>
        exact Or.inl ⟨CodeStaleNonce, Or.inr rfl,
          by simp [authenticateRequest, hMI, hp, hload, SyncMap.Delete_newNoncePtr]⟩
      | some v =>
        cases v with
        | other d =>
          exact Or.inl ⟨CodeStaleNonce, Or.inr rfl,
            by simp [authenticateRequest, hMI, hp, hload, SyncMap.Delete_newNoncePtr]⟩
        | time t =>
          by_cases hstale : nonceLifetime ≤ timeSince e t
          · refine Or.inl ⟨CodeStaleNonce, Or.inr rfl, ?_⟩
            rw [authenticateRequest_stale_run e r m cm p t hMI hp hload hstale,
              SyncMap.Delete_newNoncePtr]
          · have h := authenticateRequest_accepted_nonce e r m cm p t hMI hp hload
              (not_le.mp hstale)
            exact Or.inr ⟨h.1, h.2.1⟩

/-- A response of `respondWithNonce` carries the nonce that `buildNonce`
returned, which was not a key of the store. -/
theorem respondWithNonce_issued (e : Env) (r : Request) (m : StunMessageIF) (cm : Nat)
    (ns : SyncMap) (code : Nat) (n : String)
    (h : ∃ w ∈ (respondWithNonce e r m cm ns code).writes, Setter.nonce n ∈ w.msg) :
    buildNonce e = .ok n ∧ ns.Load (MapKey.str n) = none := by
  obtain ⟨n0, hn0⟩ := buildNonce_ok e
  obtain ⟨w, hw, hmem⟩ := h
  cases hv : ns.Load (MapKey.str n0) with
  | some v =>
    rw [respondWithNonce_collision e r m cm ns code n0 v hn0 hv] at hw
    simp at hw
  | none =>
    rw [respondWithNonce_fresh e r m cm ns code n0 hn0 hv] at hw
    have hw2 := buildAndSend_writes e r.Conn r.SrcAddr _ w hw
    subst hw2
    simp [buildMsg] at hmem
    subst hmem
    exact ⟨hn0, hv⟩

/-- What `buildAndSendErr` returns and writes when it is given a non-nil
error. -/
theorem buildAndSendErr_facts (e : Env) (conn : PacketConn) (dst : NetAddr) (err : GoError)
    (attrs : List Setter) :
    (buildAndSendErr e conn dst (some err) attrs).1 ≠ none ∧
    (∀ w ∈ (buildAndSendErr e conn dst (some err) attrs).2, w = ⟨conn.name, dst, attrs⟩) ∧
    (e.stunBuild attrs = none →
      (buildAndSendErr e conn dst (some err) attrs).2 = [⟨conn.name, dst, attrs⟩]) ∧
    (e.stunBuild attrs = none → conn.writeTo attrs dst = none →
      (buildAndSendErr e conn dst (some err) attrs).1 = some err) ∧
    ((buildAndSendErr e conn dst (some err) attrs).1 = some err ∨
      ∃ sendErr, (buildAndSendErr e conn dst (some err) attrs).1 =
        some (.errorf "%w %v %v" errFailedToSendError [.err sendErr, .err err])) := by
  unfold buildAndSendErr buildAndSend
  cases hb : e.stunBuild attrs with
  | some se => simp [Operand.ofError]
  | none =>
    cases hw : conn.writeTo attrs dst with
    | some we => simp [Operand.ofError]
    | none => simp

/-- What `buildAndSendErr` returns when building or writing fails: the
error of the failed step and the error given, under `errFailedToSendError`. -/
theorem buildAndSendErr_failed (e : Env) (conn : PacketConn) (dst : NetAddr) (err : GoError)
    (attrs : List Setter) (sendErr : GoError)
    (h : e.stunBuild attrs = some sendErr ∨
      (e.stunBuild attrs = none ∧ conn.writeTo attrs dst = some sendErr)) :
    (buildAndSendErr e conn dst (some err) attrs).1 =
      some (.errorf "%w %v %v" errFailedToSendError [.err sendErr, .err err]) := by
  unfold buildAndSendErr buildAndSend
  rcases h with h | ⟨hb, hw⟩
  · simp [h, Operand.ofError]
  · simp [hb, hw, Operand.ofError]

theorem buildAndSendErr_failed_wraps (e : Env) (conn : PacketConn) (dst : NetAddr)
    (err : GoError) (attrs : List Setter)
    (h : e.stunBuild attrs ≠ none ∨
      (e.stunBuild attrs = none ∧ conn.writeTo attrs dst ≠ none)) :
    ∃ x, (buildAndSendErr e conn dst (some err) attrs).1 = some x ∧
      x.wraps "errFailedToSendError" = true := by
  unfold buildAndSendErr buildAndSend
  cases hb : e.stunBuild attrs with
  | some se => exact ⟨_, rfl, rfl⟩
  | none =>
    cases hw : conn.writeTo attrs dst with
    | some we => exact ⟨_, rfl, rfl⟩
    | none =>
      rcases h with h | ⟨_, h⟩
      · exact absurd hb h
      · exact absurd hw h

/-- Every write of `respondWithNonce` is the challenge with the given code. -/
theorem respondWithNonce_writes (e : Env) (r : Request) (m : StunMessageIF) (cm : Nat)
    (ns : SyncMap) (code : Nat) :
    ∀ w ∈ (respondWithNonce e r m cm ns code).writes,
      ∃ n, w = ⟨r.Conn.name, r.SrcAddr, [Setter.message m.transactionID,
        Setter.msgType (NewType cm ClassErrorResponse), Setter.errorCodeAttribute code,
        Setter.nonce n, Setter.realm r.Realm]⟩ := by
  intro w hw
  obtain ⟨n, hn⟩ := buildNonce_ok e
  cases hv : ns.Load (MapKey.str n) with
  | some v =>
    rw [respondWithNonce_collision e r m cm ns code n v hn hv] at hw
    simp at hw
  | none =>
    rw [respondWithNonce_fresh e r m cm ns code n hn hv] at hw
    exact ⟨n, buildAndSend_writes e r.Conn r.SrcAddr _ w hw⟩

/-- C4, as stated, fails at the boundary: a nonce issued at time 0 and
presented exactly one hour later (a difference that is not strictly greater
than one hour) takes the 438 branch, although one nanosecond earlier the same
request is accepted. -/
theorem nonce_stale_at_one_hour :
    SyncMap.Load [(MapKey.str "123", MapValue.time 0)] (MapKey.str "123") =
      some (MapValue.time 0) ∧
    ¬ ((sampleEnvAt timeHour).sinceNow - 0 > timeHour) ∧
    authenticateRequest (sampleEnvAt timeHour)
        (sampleRequest [(MapKey.str "123", MapValue.time 0)]) (sampleAuthMsg "123") 3 =
      respondWithNonce (sampleEnvAt timeHour)
        (sampleRequest [(MapKey.str "123", MapValue.time 0)]) (sampleAuthMsg "123") 3
        (SyncMap.Delete [(MapKey.str "123", MapValue.time 0)]
          (newNoncePtr [(MapKey.str "123", MapValue.time 0)])) CodeStaleNonce ∧
    (authenticateRequest (sampleEnvAt timeHour)
        (sampleRequest [(MapKey.str "123", MapValue.time 0)]) (sampleAuthMsg "123") 3).writes =
      [⟨"udp4:0.0.0.0:3478", "250.128.0.0:5600",
        [Setter.message [1, 2, 3, 4, 5, 6, 7, 8, 9, 10, 11, 12],
          Setter.msgType (NewType 3 ClassErrorResponse), Setter.errorCodeAttribute 438,
          Setter.nonce sampleNonce, Setter.realm "myenterprise"]⟩] ∧
    (authenticateRequest (sampleEnvAt timeHour)
        (sampleRequest [(MapKey.str "123", MapValue.time 0)]) (sampleAuthMsg "123") 3).ok =
      false ∧
    (authenticateRequest (sampleEnvAt (timeHour - 1))
        (sampleRequest [(MapKey.str "123", MapValue.time 0)]) (sampleAuthMsg "123") 3).ok =
      true :=
  ⟨by decide, by decide, rfl, by decide, by decide, by decide⟩

/-- C4, amended. For a request that carries MESSAGE-INTEGRITY and presents a
nonce stored with issuance time `t`, read at request time `e.sinceNow`:
`authenticateRequest` takes the 438 Stale Nonce branch if and only if the
difference is at least one hour; in particular a nonce presented exactly one
hour after issuance is stale and the request is not accepted. -/
theorem nonce_stale_iff (e : Env) (r : Request) (m : StunMessageIF) (cm : Nat)
    (p : String) (t : Int)
    (hMI : m.contains AttrMessageIntegrity = true) (hp : m.nonce = .ok p)
    (hload : r.Nonces.Load (MapKey.str p) = some (MapValue.time t)) :
    (authenticateRequest e r m cm =
        respondWithNonce e r m cm (r.Nonces.Delete (newNoncePtr r.Nonces)) CodeStaleNonce ↔
      e.sinceNow - t ≥ nonceLifetime) ∧
    (e.sinceNow - t = nonceLifetime → (authenticateRequest e r m cm).ok = false) := by
  have hstale_ok : nonceLifetime ≤ timeSince e t → (authenticateRequest e r m cm).ok = false := by
    intro hs
    rw [authenticateRequest_stale_run e r m cm p t hMI hp hload hs]
    exact respondWithNonce_ok _ _ _ _ _ _
  refine ⟨⟨?_, ?_⟩, ?_⟩
  · intro heq
    by_contra hge
    have hlt : timeSince e t < nonceLifetime := by
      have := (timeSince_ge_iff e t).not.mpr hge
      omega
    obtain ⟨hns, _, hnc⟩ := authenticateRequest_accepted_nonce e r m cm p t hMI hp hload hlt
    rw [heq, SyncMap.Delete_newNoncePtr] at hns hnc
    obtain ⟨herr, hwr⟩ := respondWithNonce_nonces_eq e r m cm r.Nonces CodeStaleNonce hns
    exact hnc ⟨respondWithNonce_ok _ _ _ _ _ _, herr, hwr⟩
  · intro hge
    exact authenticateRequest_stale_run e r m cm p t hMI hp hload
      ((timeSince_ge_iff e t).mpr hge)
  · intro heq
    exact hstale_ok ((timeSince_ge_iff e t).mpr (by omega))

theorem nonce_stale_iff_witness :
    (authenticateRequest (sampleEnvAt timeHour)
        (sampleRequest [(MapKey.str "123", MapValue.time 0)]) (sampleAuthMsg "123") 3 =
        respondWithNonce (sampleEnvAt timeHour)
          (sampleRequest [(MapKey.str "123", MapValue.time 0)]) (sampleAuthMsg "123") 3
          ((sampleRequest [(MapKey.str "123", MapValue.time 0)]).Nonces.Delete
            (newNoncePtr (sampleRequest [(MapKey.str "123", MapValue.time 0)]).Nonces))
          CodeStaleNonce ↔
      (sampleEnvAt timeHour).sinceNow - 0 ≥ nonceLifetime) ∧
    ((sampleEnvAt timeHour).sinceNow - 0 = nonceLifetime →
      (authenticateRequest (sampleEnvAt timeHour)
        (sampleRequest [(MapKey.str "123", MapValue.time 0)]) (sampleAuthMsg "123") 3).ok =
        false) :=
  nonce_stale_iff (sampleEnvAt timeHour) (sampleRequest [(MapKey.str "123", MapValue.time 0)])
    (sampleAuthMsg "123") 3 "123" 0 (by decide) rfl (by decide)

theorem SyncMap.Load_append_of_some (m : SyncMap) (k : MapKey) (v : MapValue)
    (kv : MapKey × MapValue) (h : m.Load k = some v) :
    SyncMap.Load (m ++ [kv]) k = some v := by
  simp only [SyncMap.Load, Option.map_eq_some'] at h
  obtain ⟨a, ha, hv⟩ := h
  simp [SyncMap.Load, List.find?_append, ha, hv]

/-- The stale branch never removes the presented nonce: `Delete` is given the
pointer `nonceAttr`, while the keys of the store are strings. -/
theorem authenticateRequest_stale_keeps (e : Env) (r : Request) (m : StunMessageIF)
    (cm : Nat) (p : String) (t : Int)
    (hMI : m.contains AttrMessageIntegrity = true) (hp : m.nonce = .ok p)
    (hload : r.Nonces.Load (MapKey.str p) = some (MapValue.time t))
    (hstale : nonceLifetime ≤ timeSince e t) :
    (authenticateRequest e r m cm).nonces.Load (MapKey.str p) = some (MapValue.time t) := by
  rw [authenticateRequest_stale_run e r m cm p t hMI hp hload hstale,
    SyncMap.Delete_newNoncePtr]
  obtain ⟨n, hn⟩ := buildNonce_ok e
  cases hv : r.Nonces.Load (MapKey.str n) with
  | some v =>
    rw [respondWithNonce_collision e r m cm r.Nonces CodeStaleNonce n v hn hv]
    exact hload
  | none =>
    rw [respondWithNonce_fresh e r m cm r.Nonces CodeStaleNonce n hn hv]
    exact SyncMap.Load_append_of_some _ _ _ _ hload

/-- C5 at the failing input. The nonce "123" was issued at time 0 and is
presented two hours later: the request is answered with 438, and after the
call "123" is still a key of the nonce store. -/
theorem stale_nonce_not_deleted :
    (authenticateRequest sampleEnv (sampleRequest [(MapKey.str "123", MapValue.time 0)])
      (sampleAuthMsg "123") 3).writes =
      [⟨"udp4:0.0.0.0:3478", "250.128.0.0:5600",
        [Setter.message [1, 2, 3, 4, 5, 6, 7, 8, 9, 10, 11, 12],
          Setter.msgType (NewType 3 ClassErrorResponse), Setter.errorCodeAttribute 438,
          Setter.nonce sampleNonce, Setter.realm "myenterprise"]⟩] ∧
    (authenticateRequest sampleEnv (sampleRequest [(MapKey.str "123", MapValue.time 0)])
      (sampleAuthMsg "123") 3).nonces.hasKey (MapKey.str "123") = true ∧
    (authenticateRequest sampleEnv (sampleRequest [(MapKey.str "123", MapValue.time 0)])
      (sampleAuthMsg "123") 3).nonces =
      [(MapKey.str "123", MapValue.time 0),
        (MapKey.str sampleNonce, MapValue.time (2 * timeHour))] :=
  ⟨by decide, by decide, by decide⟩

/-- C6. If `authenticateRequest` issues the nonce `n` in a challenge (a
written response carries NONCE `n`), then `n` was not a key of the store
before the call, it is stored with the issuance time `e.storeNow` after it,
and every later request on that store that echoes `n` less than one hour
after the issuance time passes the nonce check: no written response carries
ERROR-CODE 438, and when the request carries MESSAGE-INTEGRITY the store is
left as it is. -/
theorem challenge_round_trip (e : Env) (r : Request) (m : StunMessageIF) (cm : Nat)
    (n : String)
    (hissued : ∃ w ∈ (authenticateRequest e r m cm).writes, Setter.nonce n ∈ w.msg) :
    r.Nonces.Load (MapKey.str n) = none ∧
    (authenticateRequest e r m cm).nonces.Load (MapKey.str n) =
      some (MapValue.time e.storeNow) ∧
    ∀ (e2 : Env) (r2 : Request) (m2 : StunMessageIF) (cm2 : Nat),
      r2.Nonces = (authenticateRequest e r m cm).nonces →
      m2.nonce = .ok n →
      e2.sinceNow - e.storeNow < nonceLifetime →
      (∀ w ∈ (authenticateRequest e2 r2 m2 cm2).writes,
        Setter.errorCodeAttribute CodeStaleNonce ∉ w.msg) ∧
      (m2.contains AttrMessageIntegrity = true →
        (authenticateRequest e2 r2 m2 cm2).nonces = r2.Nonces) := by
  have hrun : ∃ code, authenticateRequest e r m cm = respondWithNonce e r m cm r.Nonces code := by
    rcases authenticateRequest_cases e r m cm with ⟨code, _, h⟩ | ⟨_, hbad⟩
    · exact ⟨code, h⟩
    · obtain ⟨w, hw, hmem⟩ := hissued
      rw [hbad w hw] at hmem
      simp at hmem
  obtain ⟨code, hrun⟩ := hrun
  rw [hrun] at hissued ⊢
  obtain ⟨hn, hnone⟩ := respondWithNonce_issued e r m cm r.Nonces code n hissued
  have hstored : (respondWithNonce e r m cm r.Nonces code).nonces.Load (MapKey.str n) =
      some (MapValue.time e.storeNow) := by
    rw [respondWithNonce_fresh e r m cm r.Nonces code n hn hnone]
    exact SyncMap.Load_append_new _ _ _ hnone
  refine ⟨hnone, hstored, ?_⟩
  intro e2 r2 m2 cm2 hstore hecho hage
  have hload : r2.Nonces.Load (MapKey.str n) = some (MapValue.time e.storeNow) := by
    rw [hstore]
    exact hstored
  have hlt : timeSince e2 e.storeNow < nonceLifetime := by
    have := (timeSince_ge_iff e2 e.storeNow).not.mpr (by omega)
    omega
  cases hMI : m2.contains AttrMessageIntegrity with
  | false =>
    refine ⟨?_, by simp⟩
    intro w hw
    have hrun2 : authenticateRequest e2 r2 m2 cm2 =
        respondWithNonce e2 r2 m2 cm2 r2.Nonces CodeUnauthorized := by
      simp [authenticateRequest, hMI]
    rw [hrun2] at hw
    obtain ⟨n2, hn2⟩ := respondWithNonce_writes e2 r2 m2 cm2 r2.Nonces CodeUnauthorized w hw
    subst hn2
    simp [CodeUnauthorized, CodeStaleNonce]
  | true =>
    obtain ⟨hns, hws, _⟩ :=
      authenticateRequest_accepted_nonce e2 r2 m2 cm2 n e.storeNow hMI hecho hload hlt
    refine ⟨?_, fun _ => hns⟩
    intro w hw
    rw [hws w hw]
    simp [CodeBadRequest, CodeStaleNonce]

theorem challenge_round_trip_witness :
    SyncMap.Load (sampleRequest []).Nonces (MapKey.str sampleNonce) = none ∧
    (authenticateRequest sampleEnv (sampleRequest []) sampleBlankMsg 3).nonces.Load
      (MapKey.str sampleNonce) = some (MapValue.time sampleEnv.storeNow) ∧
    ∀ (e2 : Env) (r2 : Request) (m2 : StunMessageIF) (cm2 : Nat),
      r2.Nonces = (authenticateRequest sampleEnv (sampleRequest []) sampleBlankMsg 3).nonces →
      m2.nonce = .ok sampleNonce →
      e2.sinceNow - sampleEnv.storeNow < nonceLifetime →
      (∀ w ∈ (authenticateRequest e2 r2 m2 cm2).writes,
        Setter.errorCodeAttribute CodeStaleNonce ∉ w.msg) ∧
      (m2.contains AttrMessageIntegrity = true →
        (authenticateRequest e2 r2 m2 cm2).nonces = r2.Nonces) :=
  challenge_round_trip sampleEnv (sampleRequest []) sampleBlankMsg 3 sampleNonce
    ⟨⟨"udp4:0.0.0.0:3478", "250.128.0.0:5600",
      [Setter.message [1, 2, 3, 4, 5, 6, 7, 8, 9, 10, 11, 12],
        Setter.msgType (NewType 3 ClassErrorResponse), Setter.errorCodeAttribute 401,
        Setter.nonce sampleNonce, Setter.realm "myenterprise"]⟩, by decide, by decide⟩

/-- C7. If the nonce generated for a challenge (a request without
MESSAGE-INTEGRITY, or one whose presented nonce is unknown, not a timestamp or
at least one hour old) is already a key of the nonce store,
`authenticateRequest` returns `errDuplicatedNonce` with `ok = false`, writes
nothing, and leaves the store, and the entry under that key, unchanged. -/
theorem nonce_collision_internal_error (e : Env) (r : Request) (m : StunMessageIF)
    (cm : Nat) (n : String) (v : MapValue)
    (hchallenge : m.contains AttrMessageIntegrity = false ∨
      ∃ p, m.nonce = .ok p ∧
        (r.Nonces.Load (MapKey.str p) = none ∨
          (∃ d, r.Nonces.Load (MapKey.str p) = some (MapValue.other d)) ∨
          ∃ t, r.Nonces.Load (MapKey.str p) = some (MapValue.time t) ∧
            nonceLifetime ≤ timeSince e t))
    (hn : buildNonce e = .ok n)
    (hkey : r.Nonces.Load (MapKey.str n) = some v) :
    (authenticateRequest e r m cm).err = some errDuplicatedNonce ∧
    (authenticateRequest e r m cm).ok = false ∧
    (authenticateRequest e r m cm).writes = [] ∧
    (authenticateRequest e r m cm).nonces = r.Nonces ∧
    (authenticateRequest e r m cm).nonces.Load (MapKey.str n) = some v := by
  have hrun : ∃ code, authenticateRequest e r m cm = respondWithNonce e r m cm r.Nonces code := by
    cases hMI : m.contains AttrMessageIntegrity with
    | false => exact ⟨CodeUnauthorized, by simp [authenticateRequest, hMI]⟩
    | true =>
      rcases hchallenge with h | ⟨p, hp, h | ⟨d, h⟩ | ⟨t, h, hstale⟩⟩
      · simp [hMI] at h
      · exact ⟨CodeStaleNonce,
          by simp [authenticateRequest, hMI, hp, h, SyncMap.Delete_newNoncePtr]⟩
      · exact ⟨CodeStaleNonce,
          by simp [authenticateRequest, hMI, hp, h, SyncMap.Delete_newNoncePtr]⟩
      · exact ⟨CodeStaleNonce, by
          rw [authenticateRequest_stale_run e r m cm p t hMI hp h hstale,
            SyncMap.Delete_newNoncePtr]⟩
  obtain ⟨code, hrun⟩ := hrun
  rw [hrun, respondWithNonce_collision e r m cm r.Nonces code n v hn hkey]
  exact ⟨rfl, rfl, rfl, rfl, hkey⟩

theorem nonce_collision_internal_error_witness :
    (authenticateRequest sampleEnv (sampleRequest [(MapKey.str sampleNonce, MapValue.time 5)])
      sampleBlankMsg 3).err = some errDuplicatedNonce ∧
    (authenticateRequest sampleEnv (sampleRequest [(MapKey.str sampleNonce, MapValue.time 5)])
      sampleBlankMsg 3).ok = false ∧
    (authenticateRequest sampleEnv (sampleRequest [(MapKey.str sampleNonce, MapValue.time 5)])
      sampleBlankMsg 3).writes = [] ∧
    (authenticateRequest sampleEnv (sampleRequest [(MapKey.str sampleNonce, MapValue.time 5)])
      sampleBlankMsg 3).nonces = (sampleRequest [(MapKey.str sampleNonce, MapValue.time 5)]).Nonces ∧
    (authenticateRequest sampleEnv (sampleRequest [(MapKey.str sampleNonce, MapValue.time 5)])
      sampleBlankMsg 3).nonces.Load (MapKey.str sampleNonce) = some (MapValue.time 5) :=
  nonce_collision_internal_error sampleEnv
    (sampleRequest [(MapKey.str sampleNonce, MapValue.time 5)]) sampleBlankMsg 3 sampleNonce
    (MapValue.time 5) (Or.inl (by decide)) rfl (by decide)

/-! ## The 400 responses -/

/-- C8. For a request that carries MESSAGE-INTEGRITY, when NONCE is absent or
malformed, and likewise when the presented nonce is stored with a timestamp
less than one hour old but REALM or USERNAME is absent, `authenticateRequest`
returns `ok = false` with a non-nil error, writes nothing but the response
with ERROR-CODE 400 to `(Conn, SrcAddr)`, and writes it exactly once when
`stun.Build` builds it. -/
theorem authenticateRequest_bad_request (e : Env) (r : Request) (m : StunMessageIF)
    (cm : Nat)
    (hMI : m.contains AttrMessageIntegrity = true)
    (hcase : (∃ err, m.nonce = .error err) ∨
      ∃ p t, m.nonce = .ok p ∧ r.Nonces.Load (MapKey.str p) = some (MapValue.time t) ∧
        timeSince e t < nonceLifetime ∧
        ((∃ err, m.realm = .error err) ∨ ∃ err, m.username = .error err)) :
    (authenticateRequest e r m cm).ok = false ∧
    (authenticateRequest e r m cm).err ≠ none ∧
    (∀ w ∈ (authenticateRequest e r m cm).writes,
      w = ⟨r.Conn.name, r.SrcAddr, [Setter.message m.transactionID,
        Setter.msgType (NewType cm ClassErrorResponse), Setter.errorCodeAttribute 400]⟩) ∧
    (e.stunBuild [Setter.message m.transactionID,
        Setter.msgType (NewType cm ClassErrorResponse), Setter.errorCodeAttribute 400] = none →
      (authenticateRequest e r m cm).writes =
        [⟨r.Conn.name, r.SrcAddr, [Setter.message m.transactionID,
          Setter.msgType (NewType cm ClassErrorResponse), Setter.errorCodeAttribute 400]⟩]) := by
  have hf := fun err => buildAndSendErr_facts e r.Conn r.SrcAddr err
    [Setter.message m.transactionID, Setter.msgType (NewType cm ClassErrorResponse),
      Setter.errorCodeAttribute 400]
  rcases hcase with ⟨err, hp⟩ | ⟨p, t, hp, hload, hlt, hru⟩
  · simp only [authenticateRequest, hMI, hp, buildMsg, CodeBadRequest, List.cons_append,
      List.nil_append, Bool.not_true, Bool.false_eq_true, if_false]
    exact ⟨trivial, (hf err).1, (hf err).2.1, (hf err).2.2.1⟩
  · have hnot : ¬ (nonceLifetime ≤ timeSince e t) := not_le.mpr hlt
    cases hrealm : m.realm with
    | error err =>
      simp only [authenticateRequest, hMI, hp, hload, hnot, hrealm, ge_iff_le, buildMsg,
        CodeBadRequest, List.cons_append, List.nil_append, Bool.not_true, Bool.false_eq_true,
        if_false]
      exact ⟨trivial, (hf err).1, (hf err).2.1, (hf err).2.2.1⟩
    | ok realm =>
      rcases hru with ⟨err, h⟩ | ⟨err, huser⟩
      · rw [hrealm] at h
        cases h
      · simp only [authenticateRequest, hMI, hp, hload, hnot, hrealm, huser, ge_iff_le,
          buildMsg, CodeBadRequest, List.cons_append, List.nil_append, Bool.not_true,
          Bool.false_eq_true, if_false]
        exact ⟨trivial, (hf err).1, (hf err).2.1, (hf err).2.2.1⟩

theorem authenticateRequest_bad_request_witness :
    (authenticateRequest sampleEnv (sampleRequest [])
      ⟨[1, 2, 3, 4, 5, 6, 7, 8, 9, 10, 11, 12], fun _ => true,
        .error (.external "attribute not found"), .ok "myenterprise", .ok "dummyuser",
        fun _ => none⟩ 3).ok = false ∧
    (authenticateRequest sampleEnv (sampleRequest [])
      ⟨[1, 2, 3, 4, 5, 6, 7, 8, 9, 10, 11, 12], fun _ => true,
        .error (.external "attribute not found"), .ok "myenterprise", .ok "dummyuser",
        fun _ => none⟩ 3).writes =
      [⟨"udp4:0.0.0.0:3478", "250.128.0.0:5600",
        [Setter.message [1, 2, 3, 4, 5, 6, 7, 8, 9, 10, 11, 12],
          Setter.msgType (NewType 3 ClassErrorResponse), Setter.errorCodeAttribute 400]⟩] :=
  have h := authenticateRequest_bad_request sampleEnv (sampleRequest [])
    ⟨[1, 2, 3, 4, 5, 6, 7, 8, 9, 10, 11, 12], fun _ => true,
      .error (.external "attribute not found"), .ok "myenterprise", .ok "dummyuser",
      fun _ => none⟩ 3 rfl (Or.inl ⟨_, rfl⟩)
  ⟨h.1, h.2.2.2 rfl⟩

/-- C9, as stated, fails when the 400 response cannot be written: the
credential lookup returns no key for "mallory", the write fails, and the
returned error wraps `errFailedToSendError`, not `errNoSuchUser`; the
diagnostic naming the user is only an operand of it. -/
theorem no_such_user_send_failure :
    (sampleAuth "mallory" "myenterprise" "250.128.0.0:5600").2 = false ∧
    (authenticateRequest sampleEnv
      ⟨failingConn, "250.128.0.0:5600", [], [(MapKey.str "123", MapValue.time (2 * timeHour - 1))],
        sampleAuth, "myenterprise"⟩ sampleUnknownUserMsg 3).ok = false ∧
    (authenticateRequest sampleEnv
      ⟨failingConn, "250.128.0.0:5600", [], [(MapKey.str "123", MapValue.time (2 * timeHour - 1))],
        sampleAuth, "myenterprise"⟩ sampleUnknownUserMsg 3).err =
      some (.errorf "%w %v %v" errFailedToSendError
        [.err (.external "write: network is unreachable"),
          .err (.errorf "%w %s" errNoSuchUser [.str "mallory"])]) ∧
    (GoError.errorf "%w %v %v" errFailedToSendError
        [.err (.external "write: network is unreachable"),
          .err (.errorf "%w %s" errNoSuchUser [.str "mallory"])]).wraps "errNoSuchUser" =
      false ∧
    (GoError.errorf "%w %v %v" errFailedToSendError
        [.err (.external "write: network is unreachable"),
          .err (.errorf "%w %s" errNoSuchUser [.str "mallory"])]).wraps "errFailedToSendError" =
      true :=
  ⟨by decide, by decide, rfl, by decide, by decide⟩

/-- C9, amended. For a request that passes the nonce, realm and username checks, if
`AuthHandler` returns no key, or the MESSAGE-INTEGRITY check with the returned
key fails, `authenticateRequest` returns `ok = false` and writes nothing but
the response with ERROR-CODE 400 (so none with 401, 438 or 441), exactly once
when `stun.Build` builds it. When `AuthHandler` returned no key and the
response was built and written, the returned error is
`fmt.Errorf("%w %s", errNoSuchUser, username)`, which wraps `errNoSuchUser`;
when building or writing the response failed with `sendErr`, the returned
error is `fmt.Errorf("%w %v %v", errFailedToSendError, sendErr, diagnostic)`,
which wraps `errFailedToSendError`, not `errNoSuchUser`, and holds the
diagnostic as an operand. In both branches a failed build or write makes the
returned error wrap `errFailedToSendError`. -/
theorem authenticateRequest_wrong_credentials (e : Env) (r : Request) (m : StunMessageIF)
    (cm : Nat) (p : String) (t : Int) (realm user : String)
    (hMI : m.contains AttrMessageIntegrity = true)
    (hp : m.nonce = .ok p)
    (hload : r.Nonces.Load (MapKey.str p) = some (MapValue.time t))
    (hlt : timeSince e t < nonceLifetime)
    (hrealm : m.realm = .ok realm) (huser : m.username = .ok user)
    (hfail : (r.AuthHandler user realm r.SrcAddr).2 = false ∨
      m.integrityCheck (r.AuthHandler user realm r.SrcAddr).1 ≠ none) :
    (authenticateRequest e r m cm).ok = false ∧
    (∀ w ∈ (authenticateRequest e r m cm).writes,
      w = ⟨r.Conn.name, r.SrcAddr, [Setter.message m.transactionID,
        Setter.msgType (NewType cm ClassErrorResponse), Setter.errorCodeAttribute 400]⟩) ∧
    (∀ w ∈ (authenticateRequest e r m cm).writes,
      Setter.errorCodeAttribute CodeUnauthorized ∉ w.msg ∧
      Setter.errorCodeAttribute CodeStaleNonce ∉ w.msg ∧
      Setter.errorCodeAttribute CodeWrongCredentials ∉ w.msg) ∧
    (e.stunBuild [Setter.message m.transactionID,
        Setter.msgType (NewType cm ClassErrorResponse), Setter.errorCodeAttribute 400] = none →
      (authenticateRequest e r m cm).writes =
        [⟨r.Conn.name, r.SrcAddr, [Setter.message m.transactionID,
          Setter.msgType (NewType cm ClassErrorResponse), Setter.errorCodeAttribute 400]⟩]) ∧
    ((r.AuthHandler user realm r.SrcAddr).2 = false →
      (GoError.errorf "%w %s" errNoSuchUser [.str user]).wraps "errNoSuchUser" = true ∧
      (e.stunBuild [Setter.message m.transactionID,
          Setter.msgType (NewType cm ClassErrorResponse), Setter.errorCodeAttribute 400] = none →
        r.Conn.writeTo [Setter.message m.transactionID,
          Setter.msgType (NewType cm ClassErrorResponse), Setter.errorCodeAttribute 400]
          r.SrcAddr = none →
        (authenticateRequest e r m cm).err =
          some (.errorf "%w %s" errNoSuchUser [.str user])) ∧
      ((authenticateRequest e r m cm).err =
          some (.errorf "%w %s" errNoSuchUser [.str user]) ∨
        ∃ sendErr, (authenticateRequest e r m cm).err =
          some (.errorf "%w %v %v" errFailedToSendError
            [.err sendErr, .err (.errorf "%w %s" errNoSuchUser [.str user])])) ∧
      (∀ sendErr,
        (e.stunBuild [Setter.message m.transactionID,
            Setter.msgType (NewType cm ClassErrorResponse),
            Setter.errorCodeAttribute 400] = some sendErr ∨
          (e.stunBuild [Setter.message m.transactionID,
              Setter.msgType (NewType cm ClassErrorResponse),
              Setter.errorCodeAttribute 400] = none ∧
            r.Conn.writeTo [Setter.message m.transactionID,
              Setter.msgType (NewType cm ClassErrorResponse), Setter.errorCodeAttribute 400]
              r.SrcAddr = some sendErr)) →
        (authenticateRequest e r m cm).err =
          some (.errorf "%w %v %v" errFailedToSendError
            [.err sendErr, .err (.errorf "%w %s" errNoSuchUser [.str user])]) ∧
        (GoError.errorf "%w %v %v" errFailedToSendError
          [.err sendErr, .err (.errorf "%w %s" errNoSuchUser [.str user])]).wraps
            "errFailedToSendError" = true ∧
        (GoError.errorf "%w %v %v" errFailedToSendError
          [.err sendErr, .err (.errorf "%w %s" errNoSuchUser [.str user])]).wraps
            "errNoSuchUser" = false)) ∧
    ((e.stunBuild [Setter.message m.transactionID,
          Setter.msgType (NewType cm ClassErrorResponse), Setter.errorCodeAttribute 400] ≠ none ∨
        (e.stunBuild [Setter.message m.transactionID,
            Setter.msgType (NewType cm ClassErrorResponse),
            Setter.errorCodeAttribute 400] = none ∧
          r.Conn.writeTo [Setter.message m.transactionID,
            Setter.msgType (NewType cm ClassErrorResponse), Setter.errorCodeAttribute 400]
            r.SrcAddr ≠ none)) →
      ∃ x, (authenticateRequest e r m cm).err = some x ∧
        x.wraps "errFailedToSendError" = true) := by
  have hf := fun err => buildAndSendErr_facts e r.Conn r.SrcAddr err
    [Setter.message m.transactionID, Setter.msgType (NewType cm ClassErrorResponse),
      Setter.errorCodeAttribute 400]
  have hfw := fun err => buildAndSendErr_failed_wraps e r.Conn r.SrcAddr err
    [Setter.message m.transactionID, Setter.msgType (NewType cm ClassErrorResponse),
      Setter.errorCodeAttribute 400]
  have hnot : ¬ (nonceLifetime ≤ timeSince e t) := not_le.mpr hlt
  have hcodes : ∀ w : WriteCall, w = ⟨r.Conn.name, r.SrcAddr, [Setter.message m.transactionID,
        Setter.msgType (NewType cm ClassErrorResponse), Setter.errorCodeAttribute 400]⟩ →
      Setter.errorCodeAttribute CodeUnauthorized ∉ w.msg ∧
      Setter.errorCodeAttribute CodeStaleNonce ∉ w.msg ∧
      Setter.errorCodeAttribute CodeWrongCredentials ∉ w.msg := by
    intro w hw
    subst hw
    simp [CodeUnauthorized, CodeStaleNonce, CodeWrongCredentials]
  cases hauth : r.AuthHandler user realm r.SrcAddr with
  | mk ourKey ok =>
    cases ok with
    | false =>
      simp only [authenticateRequest, hMI, hp, hload, hnot, hrealm, huser, hauth, ge_iff_le,
        buildMsg, CodeBadRequest, List.cons_append, List.nil_append, Bool.not_true,
        Bool.false_eq_true, if_false]
      refine ⟨trivial, (hf _).2.1, fun w hw => hcodes w ((hf _).2.1 w hw), (hf _).2.2.1, ?_,
        hfw _⟩
      intro _
      refine ⟨by simp [GoError.wraps, errNoSuchUser], (hf _).2.2.2.1, (hf _).2.2.2.2, ?_⟩
      intro sendErr hsend
      exact ⟨buildAndSendErr_failed e r.Conn r.SrcAddr _ _ sendErr hsend,
        by simp [GoError.wraps, errFailedToSendError],
        by simp [GoError.wraps, errFailedToSendError]⟩
    | true =>
      rw [hauth] at hfail
      simp only [Bool.true_eq_false, false_or] at hfail
      cases hchk : m.integrityCheck ourKey with
      | none => exact absurd hchk hfail
      | some err =>
        simp only [authenticateRequest, hMI, hp, hload, hnot, hrealm, huser, hauth, hchk,
          ge_iff_le, buildMsg, CodeBadRequest, List.cons_append, List.nil_append,
          Bool.not_true, Bool.false_eq_true, if_false]
        refine ⟨trivial, (hf _).2.1, fun w hw => hcodes w ((hf _).2.1 w hw), (hf _).2.2.1, ?_,
          hfw _⟩
        intro h
        cases h

theorem authenticateRequest_wrong_credentials_witness :
    (authenticateRequest sampleEnv
      (sampleRequest [(MapKey.str "123", MapValue.time (2 * timeHour - 1))])
      sampleUnknownUserMsg 3).ok = false ∧
    (authenticateRequest sampleEnv
      (sampleRequest [(MapKey.str "123", MapValue.time (2 * timeHour - 1))])
      sampleUnknownUserMsg 3).writes =
      [⟨"udp4:0.0.0.0:3478", "250.128.0.0:5600",
        [Setter.message [1, 2, 3, 4, 5, 6, 7, 8, 9, 10, 11, 12],
          Setter.msgType (NewType 3 ClassErrorResponse), Setter.errorCodeAttribute 400]⟩] ∧
    (authenticateRequest sampleEnv
      (sampleRequest [(MapKey.str "123", MapValue.time (2 * timeHour - 1))])
      sampleUnknownUserMsg 3).err =
      some (.errorf "%w %s" errNoSuchUser [.str "mallory"]) :=
  have h := authenticateRequest_wrong_credentials sampleEnv
    (sampleRequest [(MapKey.str "123", MapValue.time (2 * timeHour - 1))])
    sampleUnknownUserMsg 3 "123" (2 * timeHour - 1) "myenterprise" "mallory"
    rfl rfl (by decide) (by decide) rfl rfl (Or.inl (by decide))
  ⟨h.1, h.2.2.2.1 rfl, (h.2.2.2.2.1 (by decide)).2.1 rfl rfl⟩

/-- C10. Every response that `authenticateRequest` writes goes to
`(Conn, SrcAddr)`, starts with the transaction id of the request it answers
and the message type "error response of `callingMethod`", and contains an
ERROR-CODE attribute, whose code is 401, 438 or 400. -/
theorem authenticateRequest_error_responses (e : Env) (r : Request) (m : StunMessageIF)
    (cm : Nat) :
    ∀ w ∈ (authenticateRequest e r m cm).writes,
      w.conn = r.Conn.name ∧ w.dst = r.SrcAddr ∧
      ∃ code rest, (code = 401 ∨ code = 438 ∨ code = 400) ∧
        w.msg = Setter.message m.transactionID ::
          Setter.msgType ⟨cm, MessageClass.errorResponse⟩ ::
          Setter.errorCodeAttribute code :: rest := by
  intro w hw
  rcases authenticateRequest_cases e r m cm with ⟨code, hcode, hrun⟩ | ⟨_, hbad⟩
  · rw [hrun] at hw
    obtain ⟨n, hn⟩ := respondWithNonce_writes e r m cm r.Nonces code w hw
    subst hn
    refine ⟨rfl, rfl, code, _, ?_, rfl⟩
    rcases hcode with h | h
    · exact Or.inl h
    · exact Or.inr (Or.inl h)
  · rw [hbad w hw]
    exact ⟨rfl, rfl, 400, [], Or.inr (Or.inr rfl), rfl⟩

theorem authenticateRequest_error_responses_witness :
    sampleChallenge ∈ (authenticateRequest sampleEnv (sampleRequest []) sampleBlankMsg 3).writes ∧
    sampleChallenge.conn = (sampleRequest []).Conn.name ∧
    sampleChallenge.dst = (sampleRequest []).SrcAddr ∧
    ∃ code rest, (code = 401 ∨ code = 438 ∨ code = 400) ∧
      sampleChallenge.msg = Setter.message sampleBlankMsg.transactionID ::
        Setter.msgType ⟨3, MessageClass.errorResponse⟩ ::
        Setter.errorCodeAttribute code :: rest :=
  ⟨by decide, authenticateRequest_error_responses sampleEnv (sampleRequest []) sampleBlankMsg 3
    sampleChallenge (by decide)⟩

/-! ## NONCE and REALM in the responses of `authenticateRequest` -/

/-- C11, as stated, fails for the 400 responses: on an integrity mismatch the
one response written carries the transaction id, the type and ERROR-CODE 400,
and neither a NONCE nor a REALM. -/
theorem bad_request_without_nonce_realm :
    (authenticateRequest sampleEnv
      (sampleRequest [(MapKey.str "123", MapValue.time (2 * timeHour - 1))])
      sampleBadIntegrityMsg 3).writes =
      [⟨"udp4:0.0.0.0:3478", "250.128.0.0:5600",
        [Setter.message [1, 2, 3, 4, 5, 6, 7, 8, 9, 10, 11, 12],
          Setter.msgType (NewType 3 ClassErrorResponse), Setter.errorCodeAttribute 400]⟩] ∧
    (∀ n, Setter.nonce n ∉ [Setter.message [1, 2, 3, 4, 5, 6, 7, 8, 9, 10, 11, 12],
      Setter.msgType (NewType 3 ClassErrorResponse), Setter.errorCodeAttribute 400]) ∧
    (∀ s, Setter.realm s ∉ [Setter.message [1, 2, 3, 4, 5, 6, 7, 8, 9, 10, 11, 12],
      Setter.msgType (NewType 3 ClassErrorResponse), Setter.errorCodeAttribute 400]) :=
  ⟨by decide, by simp, by simp⟩

/-- C11, amended. Every response written by `authenticateRequest` is either
a 401 or 438 response, which carries the NONCE that `buildNonce` has just
generated (not a key of the store before the call) and the configured REALM,
or a 400 response, which carries neither a NONCE nor a REALM. -/
theorem authenticateRequest_nonce_realm (e : Env) (r : Request) (m : StunMessageIF)
    (cm : Nat) :
    ∀ w ∈ (authenticateRequest e r m cm).writes,
      (∃ code n, (code = 401 ∨ code = 438) ∧ buildNonce e = .ok n ∧
        r.Nonces.Load (MapKey.str n) = none ∧
        w.msg = [Setter.message m.transactionID,
          Setter.msgType (NewType cm ClassErrorResponse), Setter.errorCodeAttribute code,
          Setter.nonce n, Setter.realm r.Realm]) ∨
      (w.msg = [Setter.message m.transactionID,
          Setter.msgType (NewType cm ClassErrorResponse), Setter.errorCodeAttribute 400] ∧
        (∀ n, Setter.nonce n ∉ w.msg) ∧ ∀ s, Setter.realm s ∉ w.msg) := by
  intro w hw
  rcases authenticateRequest_cases e r m cm with ⟨code, hcode, hrun⟩ | ⟨_, hbad⟩
  · left
    rw [hrun] at hw
    obtain ⟨n, hn⟩ := respondWithNonce_writes e r m cm r.Nonces code w hw
    have hissued := respondWithNonce_issued e r m cm r.Nonces code n
      ⟨w, hw, by rw [hn]; simp⟩
    refine ⟨code, n, ?_, hissued.1, hissued.2, by rw [hn]⟩
    rcases hcode with h | h
    · exact Or.inl h
    · exact Or.inr h
  · right
    rw [hbad w hw]
    simp [CodeBadRequest]

theorem authenticateRequest_nonce_realm_witness :
    sampleChallenge ∈
      (authenticateRequest sampleEnv (sampleRequest []) sampleBlankMsg 3).writes ∧
    ((∃ code n, (code = 401 ∨ code = 438) ∧ buildNonce sampleEnv = .ok n ∧
        (sampleRequest []).Nonces.Load (MapKey.str n) = none ∧
        sampleChallenge.msg = [Setter.message sampleBlankMsg.transactionID,
          Setter.msgType (NewType 3 ClassErrorResponse), Setter.errorCodeAttribute code,
          Setter.nonce n, Setter.realm (sampleRequest []).Realm]) ∨
      (sampleChallenge.msg = [Setter.message sampleBlankMsg.transactionID,
          Setter.msgType (NewType 3 ClassErrorResponse), Setter.errorCodeAttribute 400] ∧
        (∀ n, Setter.nonce n ∉ sampleChallenge.msg) ∧
        ∀ s, Setter.realm s ∉ sampleChallenge.msg)) :=
  ⟨by decide, authenticateRequest_nonce_realm sampleEnv (sampleRequest []) sampleBlankMsg 3
    sampleChallenge (by decide)⟩

/-! ## `buildNonce` -/

theorem hexDigit_mem (d : Nat) (h : d < 16) : hexDigit d ∈ "0123456789abcdef".toList := by
  interval_cases d <;> decide

theorem hexEncode_toList (b : List Nat) :
    (hexEncode b).toList = b.flatMap (fun x => [hexDigit (x / 16 % 16), hexDigit (x % 16)]) :=
  rfl

theorem hexEncode_length (b : List Nat) : (hexEncode b).length = 2 * b.length := by
  show (b.flatMap (fun x => [hexDigit (x / 16 % 16), hexDigit (x % 16)])).length = 2 * b.length
  induction b with
  | nil => rfl
  | cons x xs ih =>
    simp only [List.flatMap_cons, List.length_append, List.length_cons, List.length_nil, ih]
    omega

theorem hexEncode_digits (b : List Nat) :
    ∀ c ∈ (hexEncode b).toList, c ∈ "0123456789abcdef".toList := by
  intro c hc
  rw [hexEncode_toList, List.mem_flatMap] at hc
  obtain ⟨x, _, hx⟩ := hc
  simp only [List.mem_cons, List.mem_singleton, List.not_mem_nil, or_false] at hx
  rcases hx with h | h
  · rw [h]
    exact hexDigit_mem _ (Nat.mod_lt _ (by decide))
  · rw [h]
    exact hexDigit_mem _ (Nat.mod_lt _ (by decide))

theorem ByteSlice.len_le_cap (m : ByteSlice) : m.len ≤ m.cap :=
  Nat.le_add_right _ _

theorem goSlice_eq (m : ByteSlice) (a b : Nat) (hab : a ≤ b) (hb : b ≤ m.cap) :
    goSlice m (a : Int) (b : Int) = some (((m.elems ++ m.spare).drop a).take (b - a)) := by
  unfold goSlice
  rw [if_pos ⟨Int.ofNat_nonneg a, by exact_mod_cast hab, by exact_mod_cast hb⟩]
  have h1 : ((a : Int)).toNat = a := Int.toNat_natCast a
  have h2 : ((b : Int) - (a : Int)).toNat = b - a := by omega
  rw [h1, h2]

/-- A slice expression within the length reads the elements only. -/
theorem goSlice_elems (m : ByteSlice) (a b : Nat) (hab : a ≤ b) (hb : b ≤ m.len) :
    goSlice m (a : Int) (b : Int) = some ((m.elems.drop a).take (b - a)) := by
  have hb' : b ≤ m.elems.length := hb
  rw [goSlice_eq m a b hab (le_trans hb m.len_le_cap)]
  rw [List.drop_append_of_le_length (by omega), List.take_append_of_le_length]
  rw [List.length_drop]
  omega

theorem goSlice_value (h : List Nat) (v spare : List Nat) (hh : h.length = 4)
    (hv : v.length = 32) : goSlice ⟨h ++ v, spare⟩ 4 0x24 = some v := by
  have hs := goSlice_elems ⟨h ++ v, spare⟩ 4 36 (by omega)
    (by simp [ByteSlice.len, hh, hv])
  have e1 : ((4 : Nat) : Int) = 4 := rfl
  have e2 : ((36 : Nat) : Int) = 0x24 := rfl
  rw [e1, e2] at hs
  rw [hs]
  have h4 : (4 : Nat) = h.length := hh.symm
  have h32 : (36 - 4 : Nat) = v.length := by rw [hv]
  show some (((h ++ v).drop 4).take (36 - 4)) = some v
  rw [h32]
  nth_rewrite 1 [h4]
  rw [List.drop_left, List.take_length]

theorem goSlice_head (a b c d : Nat) (v spare : List Nat) :
    goSlice ⟨a :: b :: c :: d :: v, spare⟩ 0 2 = some [a, b] ∧
    goSlice ⟨a :: b :: c :: d :: v, spare⟩ 2 4 = some [c, d] := by
  have h0 := goSlice_elems ⟨a :: b :: c :: d :: v, spare⟩ 0 2 (by omega)
    (by simp [ByteSlice.len])
  have h2 := goSlice_elems ⟨a :: b :: c :: d :: v, spare⟩ 2 4 (by omega)
    (by simp [ByteSlice.len])
  exact ⟨h0, h2⟩

/-- C12. For every clock value and random value, `buildNonce` returns no
error and a string of exactly 32 characters, each a lowercase hexadecimal
digit (the hex encoding of the 16-byte MD5 digest); 32 is the length 0x20 that
`CheckNonce` requires: `CheckNonce` accepts the NONCE attribute (type 0x0015,
length 0x0020) whose value is that string, whatever the spare capacity of the
buffer that holds it. -/
theorem buildNonce_hex (e : Env) (hmd5 : ∀ bs, (e.md5Sum bs).length = 16) :
    ∃ n, buildNonce e = .ok n ∧ n.length = 32 ∧
      (∀ c ∈ n.toList, c ∈ "0123456789abcdef".toList) ∧
      n.length = 0x20 ∧
      ∀ spare, CheckNonce 0 ⟨[0x00, 0x15, 0x00, 0x20] ++ n.toList.map Char.toNat, spare⟩ =
        some (true, some (n.toList.map Char.toNat), 0x24) := by
  have hlen : (hexEncode (e.md5Sum (([] : List Nat) ++
      (formatInt e.unixNow).toList.map Char.toNat ++
      (formatInt (Int.ofNat e.randInt63)).toList.map Char.toNat))).length = 32 := by
    rw [hexEncode_length, hmd5]
  refine ⟨_, rfl, hlen, hexEncode_digits _, hlen, ?_⟩
  generalize hexEncode (e.md5Sum (([] : List Nat) ++
      (formatInt e.unixNow).toList.map Char.toNat ++
      (formatInt (Int.ofNat e.randInt63)).toList.map Char.toNat)) = n at hlen ⊢
  intro spare
  have hv : (n.toList.map Char.toNat).length = 32 := by
    rw [List.length_map]
    exact hlen
  have h1 := (goSlice_head 0x00 0x15 0x00 0x20 (n.toList.map Char.toNat) spare).1
  have h2 := (goSlice_head 0x00 0x15 0x00 0x20 (n.toList.map Char.toNat) spare).2
  have h3 := goSlice_value [0x00, 0x15, 0x00, 0x20] (n.toList.map Char.toNat) spare rfl hv
  simp only [List.cons_append, List.nil_append] at h3 ⊢
  unfold CheckNonce
  simp only [Int.zero_add, h1, h2, h3, Option.bind, bigEndianUint16]
  rfl

theorem buildNonce_hex_witness :
    ∃ n, buildNonce sampleEnv = .ok n ∧ n.length = 32 ∧
      (∀ c ∈ n.toList, c ∈ "0123456789abcdef".toList) ∧
      n.length = 0x20 ∧
      ∀ spare, CheckNonce 0 ⟨[0x00, 0x15, 0x00, 0x20] ++ n.toList.map Char.toNat, spare⟩ =
        some (true, some (n.toList.map Char.toNat), 0x24) :=
  buildNonce_hex sampleEnv (by
    intro bs
    show (sampleMd5 bs).length = 16
    unfold sampleMd5
    split <;> rfl)


/-! ## `getMessageHandler` -/

/-- The handler `getMessageHandler` returns is the one the routing table
lists. -/
theorem getMessageHandler_ok_iff (lib : Collaborators) (cls : MessageClass) (method : Nat)
    (logger : LeveledLogger) (h : Handler) :
    (getMessageHandler lib cls method logger).1 = .ok h ↔ routingTable cls method = some h := by
  unfold getMessageHandler routingTable
  cases cls <;>
    simp only [MethodBinding, MethodAllocate, MethodRefresh, MethodSend,
      MethodCreatePermission, MethodChannelBind, reduceCtorEq, false_and, true_and,
      if_false] <;>
    split_ifs <;> simp_all

/-- What `getMessageHandler` returns outside the routing table. -/
theorem getMessageHandler_error (lib : Collaborators) (cls : MessageClass) (method : Nat)
    (logger : LeveledLogger) (hnone : routingTable cls method = none) :
    (getMessageHandler lib cls method logger).1 =
      .error (if cls = MessageClass.request ∨ cls = MessageClass.indication then
        .errorf "%w: %s" errUnexpectedMethod [.str (lib.methodString method)]
      else .errorf "%w: %s" errUnexpectedClass [.str (lib.classString cls)]) := by
  unfold routingTable at hnone
  unfold getMessageHandler
  cases cls <;>
    simp only [MethodBinding, MethodAllocate, MethodRefresh, MethodSend,
      MethodCreatePermission, MethodChannelBind, reduceCtorEq, false_and, true_and,
      if_false, or_false, or_true, false_or, if_true] at hnone ⊢ <;>
    split_ifs at hnone ⊢ <;> simp_all

/-- C13. `getMessageHandler` implements the routing table: whatever logger
is passed, it returns with a nil error `handleBindingRequest` for
(Request, Binding), `handleAllocateRequest` for (Request, Allocate),
`handleRefreshRequest` for (Request, Refresh), `handleCreatePermissionRequest`
for (Request, CreatePermission), `handleChannelBindRequest` for
(Request, ChannelBind) and `handleSendIndication` for (Indication, Send). -/
theorem getMessageHandler_routes (lib : Collaborators) (logger : LeveledLogger) :
    (getMessageHandler lib ClassRequest MethodBinding logger).1 =
      .ok Handler.handleBindingRequest ∧
    (getMessageHandler lib ClassRequest MethodAllocate logger).1 =
      .ok Handler.handleAllocateRequest ∧
    (getMessageHandler lib ClassRequest MethodRefresh logger).1 =
      .ok Handler.handleRefreshRequest ∧
    (getMessageHandler lib ClassRequest MethodCreatePermission logger).1 =
      .ok Handler.handleCreatePermissionRequest ∧
    (getMessageHandler lib ClassRequest MethodChannelBind logger).1 =
      .ok Handler.handleChannelBindRequest ∧
    (getMessageHandler lib ClassIndication MethodSend logger).1 =
      .ok Handler.handleSendIndication :=
  ⟨rfl, rfl, rfl, rfl, rfl, rfl⟩

/-- C14. For every (class, method), `getMessageHandler` returns a non-nil
error (and no handler) if and only if the pair is not in the routing table;
the error wraps `errUnexpectedClass` when the class is neither Request nor
Indication, whatever the method, and `errUnexpectedMethod` otherwise, as for
(Indication, Binding) and (Request, Send). -/
theorem getMessageHandler_error_iff (lib : Collaborators) (cls : MessageClass) (method : Nat)
    (logger : LeveledLogger) :
    ((∃ err, (getMessageHandler lib cls method logger).1 = .error err) ↔
      routingTable cls method = none) ∧
    (cls ≠ MessageClass.request ∧ cls ≠ MessageClass.indication →
      ∃ err, (getMessageHandler lib cls method logger).1 = .error err ∧
        err.wraps "errUnexpectedClass" = true) ∧
    ((cls = MessageClass.request ∨ cls = MessageClass.indication) →
      routingTable cls method = none →
      ∃ err, (getMessageHandler lib cls method logger).1 = .error err ∧
        err.wraps "errUnexpectedMethod" = true) ∧
    (∃ err, (getMessageHandler lib ClassIndication MethodBinding logger).1 = .error err ∧
      err.wraps "errUnexpectedMethod" = true) ∧
    (∃ err, (getMessageHandler lib ClassRequest MethodSend logger).1 = .error err ∧
      err.wraps "errUnexpectedMethod" = true) := by
  refine ⟨⟨?_, ?_⟩, ?_, ?_, ⟨_, rfl, rfl⟩, ⟨_, rfl, rfl⟩⟩
  · rintro ⟨err, herr⟩
    cases hrt : routingTable cls method with
    | none => rfl
    | some h =>
      rw [(getMessageHandler_ok_iff lib cls method logger h).mpr hrt] at herr
      cases herr
  · intro hnone
    exact ⟨_, getMessageHandler_error lib cls method logger hnone⟩
  · rintro ⟨h1, h2⟩
    have hnone : routingTable cls method = none := by
      unfold routingTable
      simp [h1, h2]
    refine ⟨_, getMessageHandler_error lib cls method logger hnone, ?_⟩
    simp [h1, h2, GoError.wraps, errUnexpectedClass]
  · intro hcls hnone
    refine ⟨_, getMessageHandler_error lib cls method logger hnone, ?_⟩
    simp [hcls, GoError.wraps, errUnexpectedMethod]

/-! ## `handleTURNPacket` and `HandleRequest` -/

theorem handleTURNPacket_undecoded (e : Env) (lib : Collaborators) (log : LeveledLogger)
    (r : Request) (derr : GoError) (hdec : lib.stunDecode r.Buff = .error derr) :
    handleTURNPacket e lib log r =
      ⟨some (.errorf "%w: %v" errFailedToCreateSTUNPacket [.err derr]), r.Nonces, [],
        [Call.handleTURNPacket, Call.stunDecode]⟩ := by
  simp [handleTURNPacket, hdec]

theorem handleTURNPacket_unhandled (e : Env) (lib : Collaborators) (log : LeveledLogger)
    (r : Request) (m : DecodedMessage) (gerr : GoError)
    (hdec : lib.stunDecode r.Buff = .ok m)
    (hgmh : (getMessageHandler lib m.typeClass m.typeMethod log).1 = .error gerr) :
    handleTURNPacket e lib log r =
      ⟨some (.errorf "%w %v-%v from %v: %v" errUnhandledSTUNPacket
          [.str (lib.methodString m.typeMethod), .str (lib.classString m.typeClass),
            .str r.SrcAddr, .err gerr]),
        r.Nonces, [], [Call.handleTURNPacket, Call.stunDecode, Call.getMessageHandler]⟩ := by
  simp [handleTURNPacket, hdec, hgmh]

theorem handleTURNPacket_handled (e : Env) (lib : Collaborators) (log : LeveledLogger)
    (r : Request) (m : DecodedMessage) (h : Handler)
    (hdec : lib.stunDecode r.Buff = .ok m)
    (hgmh : (getMessageHandler lib m.typeClass m.typeMethod log).1 = .ok h) :
    (handleTURNPacket e lib log r).err =
      (match (runHandler e lib h r m.msg).err with
        | some err => some (.errorf "%w %v-%v from %v: %v" errFailedToHandle
            [.str (lib.methodString m.typeMethod), .str (lib.classString m.typeClass),
              .str r.SrcAddr, .err err])
        | none => none) ∧
    (handleTURNPacket e lib log r).nonces = (runHandler e lib h r m.msg).nonces ∧
    (handleTURNPacket e lib log r).writes = (runHandler e lib h r m.msg).writes ∧
    (handleTURNPacket e lib log r).calls =
      [Call.handleTURNPacket, Call.stunDecode, Call.getMessageHandler, Call.handler h] := by
  simp only [handleTURNPacket, hdec, hgmh]
  generalize runHandler e lib h r m.msg = res
  obtain ⟨err, ns, ws, ac⟩ := res
  cases err <;> simp

/-- C15, as stated, fails for requests: a decoded message of class Request
with the method Send, which the routing table does not list for requests, is
answered with nothing at all; the run returns an error wrapping
`errUnhandledSTUNPacket`. -/
theorem unrouted_request_not_answered :
    sampleLib.stunDecode sampleSendRequestBuf =
      .ok ⟨MethodSend, MessageClass.request, sampleBlankMsg⟩ ∧
    routingTable MessageClass.request MethodSend = none ∧
    (handleTURNPacket sampleEnv sampleLib sampleLog (sampleDatagram sampleSendRequestBuf)).writes =
      [] ∧
    (handleTURNPacket sampleEnv sampleLib sampleLog (sampleDatagram sampleSendRequestBuf)).err =
      some (.errorf "%w %v-%v from %v: %v" errUnhandledSTUNPacket
        [.str "6", .str "request", .str "250.128.0.0:5600",
          .err (.errorf "%w: %s" errUnexpectedMethod [.str "6"])]) :=
  ⟨rfl, by decide, by decide, rfl⟩

/-- C15, amended. For every successfully decoded STUN message whose
(class, method) pair is not in the routing table, of class Request as well as
Indication, `handleTURNPacket` writes nothing, invokes no handler, leaves the
nonce store as it is and returns an error wrapping `errUnhandledSTUNPacket`. -/
theorem handleTURNPacket_unrouted (e : Env) (lib : Collaborators) (log : LeveledLogger)
    (r : Request) (m : DecodedMessage)
    (hdec : lib.stunDecode r.Buff = .ok m)
    (hnone : routingTable m.typeClass m.typeMethod = none) :
    (handleTURNPacket e lib log r).writes = [] ∧
    (∀ h, Call.handler h ∉ (handleTURNPacket e lib log r).calls) ∧
    (handleTURNPacket e lib log r).nonces = r.Nonces ∧
    ∃ err, (handleTURNPacket e lib log r).err = some err ∧
      err.wraps "errUnhandledSTUNPacket" = true := by
  rw [handleTURNPacket_unhandled e lib log r m _ hdec
    (getMessageHandler_error lib m.typeClass m.typeMethod log hnone)]
  exact ⟨rfl, by simp, rfl, _, rfl, rfl⟩

theorem handleTURNPacket_unrouted_witness :
    (handleTURNPacket sampleEnv sampleLib sampleLog (sampleDatagram sampleSendRequestBuf)).writes =
      [] ∧
    (∀ h, Call.handler h ∉
      (handleTURNPacket sampleEnv sampleLib sampleLog
        (sampleDatagram sampleSendRequestBuf)).calls) ∧
    (handleTURNPacket sampleEnv sampleLib sampleLog (sampleDatagram sampleSendRequestBuf)).nonces =
      (sampleDatagram sampleSendRequestBuf).Nonces ∧
    ∃ err, (handleTURNPacket sampleEnv sampleLib sampleLog
        (sampleDatagram sampleSendRequestBuf)).err = some err ∧
      err.wraps "errUnhandledSTUNPacket" = true :=
  handleTURNPacket_unrouted sampleEnv sampleLib sampleLog (sampleDatagram sampleSendRequestBuf)
    ⟨MethodSend, MessageClass.request, sampleBlankMsg⟩ rfl (by decide)

theorem handleDataPacket_calls (lib : Collaborators) (r : Request) :
    (handleDataPacket lib r).calls = [Call.handleDataPacket, Call.channelDataDecode] ∨
    (handleDataPacket lib r).calls =
      [Call.handleDataPacket, Call.channelDataDecode, Call.handleChannelData] := by
  unfold handleDataPacket
  cases lib.channelDataDecode r.Buff with
  | error err => exact Or.inl rfl
  | ok c =>
    right
    simp only
    generalize lib.handleChannelData r c = res
    obtain ⟨err, ns, ws, ac⟩ := res
    cases err <;> rfl

theorem handleTURNPacket_calls (e : Env) (lib : Collaborators) (log : LeveledLogger)
    (r : Request) :
    (handleTURNPacket e lib log r).calls = [Call.handleTURNPacket, Call.stunDecode] ∨
    (handleTURNPacket e lib log r).calls =
      [Call.handleTURNPacket, Call.stunDecode, Call.getMessageHandler] ∨
    ∃ h, (handleTURNPacket e lib log r).calls =
      [Call.handleTURNPacket, Call.stunDecode, Call.getMessageHandler, Call.handler h] := by
  cases hdec : lib.stunDecode r.Buff with
  | error derr =>
    rw [handleTURNPacket_undecoded e lib log r derr hdec]
    exact Or.inl rfl
  | ok m =>
    cases hgmh : (getMessageHandler lib m.typeClass m.typeMethod log).1 with
    | error gerr =>
      rw [handleTURNPacket_unhandled e lib log r m gerr hdec hgmh]
      exact Or.inr (Or.inl rfl)
    | ok h =>
      exact Or.inr (Or.inr ⟨h, (handleTURNPacket_handled e lib log r m h hdec hgmh).2.2.2⟩)

/-- C16, as stated, fails: the datagram `[0x80, 0, 0, 0]`, whose first two
bits are 10, is not rejected by `HandleRequest` itself but handed to
`handleTURNPacket` and the STUN decoder; the error returned is the decoder's,
under `errFailedToCreateSTUNPacket`. -/
theorem other_prefix_reaches_decoder :
    (0x80 : Nat) / 64 % 4 = 2 ∧
    (HandleRequest sampleEnv sampleLib sampleLog (sampleDatagram [0x80, 0, 0, 0])).calls =
      [Call.handleTURNPacket, Call.stunDecode] ∧
    (HandleRequest sampleEnv sampleLib sampleLog (sampleDatagram [0x80, 0, 0, 0])).err =
      some (.errorf "%w: %v" errFailedToCreateSTUNPacket [.err (.external "unexpected EOF")]) :=
  ⟨by decide, by decide, rfl⟩

/-- C16, amended. `HandleRequest` does not reject a datagram whose first two
bits of byte 0 are 10 or 11: like every datagram it is handed to the
channel-data path when `proto.IsChannelData` holds of it and to
`handleTURNPacket` and the STUN decoder otherwise, which is the case when the
classifier follows the specification (only the prefix 01 is channel data);
the result is the result of that path. -/
theorem HandleRequest_other_leading_bits (e : Env) (lib : Collaborators) (log : LeveledLogger)
    (r : Request) (b : Nat) (rest : List Nat)
    (hbuf : r.Buff = b :: rest)
    (hbits : b / 64 % 4 = 2 ∨ b / 64 % 4 = 3) :
    (lib.IsChannelData r.Buff = true →
      HandleRequest e lib log r = handleDataPacket lib r ∧
      Call.channelDataDecode ∈ (HandleRequest e lib log r).calls) ∧
    (lib.IsChannelData r.Buff = false →
      HandleRequest e lib log r = handleTURNPacket e lib log r ∧
      Call.stunDecode ∈ (HandleRequest e lib log r).calls) ∧
    (lib.IsChannelData r.Buff = specIsChannelData r.Buff →
      HandleRequest e lib log r = handleTURNPacket e lib log r ∧
      Call.stunDecode ∈ (HandleRequest e lib log r).calls) := by
  have hdata : lib.IsChannelData r.Buff = true →
      HandleRequest e lib log r = handleDataPacket lib r ∧
      Call.channelDataDecode ∈ (HandleRequest e lib log r).calls := by
    intro h
    have heq : HandleRequest e lib log r = handleDataPacket lib r := by
      simp [HandleRequest, h]
    refine ⟨heq, ?_⟩
    rw [heq]
    rcases handleDataPacket_calls lib r with hc | hc <;> rw [hc] <;> simp
  have hturn : lib.IsChannelData r.Buff = false →
      HandleRequest e lib log r = handleTURNPacket e lib log r ∧
      Call.stunDecode ∈ (HandleRequest e lib log r).calls := by
    intro h
    have heq : HandleRequest e lib log r = handleTURNPacket e lib log r := by
      simp [HandleRequest, h]
    refine ⟨heq, ?_⟩
    rw [heq]
    rcases handleTURNPacket_calls e lib log r with hc | hc | ⟨h', hc⟩ <;> rw [hc] <;> simp
  refine ⟨hdata, hturn, ?_⟩
  intro hspec
  apply hturn
  rw [hspec, hbuf]
  rcases hbits with h | h <;> simp [specIsChannelData, h]

theorem HandleRequest_other_leading_bits_witness :
    (sampleLib.IsChannelData (sampleDatagram [0x80, 0, 0, 0]).Buff = true →
      HandleRequest sampleEnv sampleLib sampleLog (sampleDatagram [0x80, 0, 0, 0]) =
        handleDataPacket sampleLib (sampleDatagram [0x80, 0, 0, 0]) ∧
      Call.channelDataDecode ∈
        (HandleRequest sampleEnv sampleLib sampleLog (sampleDatagram [0x80, 0, 0, 0])).calls) ∧
    (sampleLib.IsChannelData (sampleDatagram [0x80, 0, 0, 0]).Buff = false →
      HandleRequest sampleEnv sampleLib sampleLog (sampleDatagram [0x80, 0, 0, 0]) =
        handleTURNPacket sampleEnv sampleLib sampleLog (sampleDatagram [0x80, 0, 0, 0]) ∧
      Call.stunDecode ∈
        (HandleRequest sampleEnv sampleLib sampleLog (sampleDatagram [0x80, 0, 0, 0])).calls) ∧
    (sampleLib.IsChannelData (sampleDatagram [0x80, 0, 0, 0]).Buff =
        specIsChannelData (sampleDatagram [0x80, 0, 0, 0]).Buff →
      HandleRequest sampleEnv sampleLib sampleLog (sampleDatagram [0x80, 0, 0, 0]) =
        handleTURNPacket sampleEnv sampleLib sampleLog (sampleDatagram [0x80, 0, 0, 0]) ∧
      Call.stunDecode ∈
        (HandleRequest sampleEnv sampleLib sampleLog (sampleDatagram [0x80, 0, 0, 0])).calls) :=
  HandleRequest_other_leading_bits sampleEnv sampleLib sampleLog (sampleDatagram [0x80, 0, 0, 0])
    0x80 [0, 0, 0] rfl (Or.inl (by decide))

/-- C17. For every request, `HandleRequest` invokes exactly one of
`handleDataPacket` and `handleTURNPacket`: `handleDataPacket` if and only if
`proto.IsChannelData` holds of the buffer; and it returns exactly the result
of the path it invoked. -/
theorem HandleRequest_one_path (e : Env) (lib : Collaborators) (log : LeveledLogger)
    (r : Request) :
    ((HandleRequest e lib log r).calls.count Call.handleDataPacket +
      (HandleRequest e lib log r).calls.count Call.handleTURNPacket = 1) ∧
    (Call.handleDataPacket ∈ (HandleRequest e lib log r).calls ↔
      lib.IsChannelData r.Buff = true) ∧
    (Call.handleTURNPacket ∈ (HandleRequest e lib log r).calls ↔
      lib.IsChannelData r.Buff = false) ∧
    (lib.IsChannelData r.Buff = true → HandleRequest e lib log r = handleDataPacket lib r) ∧
    (lib.IsChannelData r.Buff = false →
      HandleRequest e lib log r = handleTURNPacket e lib log r) := by
  cases hcd : lib.IsChannelData r.Buff with
  | true =>
    have heq : HandleRequest e lib log r = handleDataPacket lib r := by
      simp [HandleRequest, hcd]
    rw [heq]
    rcases handleDataPacket_calls lib r with hc | hc <;> rw [hc] <;> simp
  | false =>
    have heq : HandleRequest e lib log r = handleTURNPacket e lib log r := by
      simp [HandleRequest, hcd]
    rw [heq]
    rcases handleTURNPacket_calls e lib log r with hc | hc | ⟨h', hc⟩ <;> rw [hc] <;> simp

/-- C18. `handleTURNPacket` surfaces every failure as its return value: it
returns nil if and only if the buffer decodes, `getMessageHandler` finds a
handler and that handler returns nil; otherwise the error wraps
`errFailedToCreateSTUNPacket` (decode failed), `errUnhandledSTUNPacket` (no
handler) or `errFailedToHandle` (handler failed); the handler is invoked at
most once, and never when decoding fails or no handler is found. -/
theorem handleTURNPacket_errors (e : Env) (lib : Collaborators) (log : LeveledLogger)
    (r : Request) :
    ((handleTURNPacket e lib log r).err = none ↔
      ∃ m h, lib.stunDecode r.Buff = .ok m ∧
        (getMessageHandler lib m.typeClass m.typeMethod log).1 = .ok h ∧
        (runHandler e lib h r m.msg).err = none) ∧
    (∀ derr, lib.stunDecode r.Buff = .error derr →
      (∃ err, (handleTURNPacket e lib log r).err = some err ∧
        err.wraps "errFailedToCreateSTUNPacket" = true) ∧
      ∀ h, Call.handler h ∉ (handleTURNPacket e lib log r).calls) ∧
    (∀ m gerr, lib.stunDecode r.Buff = .ok m →
      (getMessageHandler lib m.typeClass m.typeMethod log).1 = .error gerr →
      (∃ err, (handleTURNPacket e lib log r).err = some err ∧
        err.wraps "errUnhandledSTUNPacket" = true) ∧
      ∀ h, Call.handler h ∉ (handleTURNPacket e lib log r).calls) ∧
    (∀ m h herr, lib.stunDecode r.Buff = .ok m →
      (getMessageHandler lib m.typeClass m.typeMethod log).1 = .ok h →
      (runHandler e lib h r m.msg).err = some herr →
      ∃ err, (handleTURNPacket e lib log r).err = some err ∧
        err.wraps "errFailedToHandle" = true) ∧
    ((handleTURNPacket e lib log r).calls.filter Call.isHandler).length ≤ 1 := by
  refine ⟨?_, ?_, ?_, ?_, ?_⟩
  · cases hdec : lib.stunDecode r.Buff with
    | error derr =>
      rw [handleTURNPacket_undecoded e lib log r derr hdec]
      simp
    | ok m =>
      cases hgmh : (getMessageHandler lib m.typeClass m.typeMethod log).1 with
      | error gerr =>
        rw [handleTURNPacket_unhandled e lib log r m gerr hdec hgmh]
        constructor
        · intro h
          cases h
        · rintro ⟨m', h', hm', hh', _⟩
          cases hm'
          rw [hgmh] at hh'
          cases hh'
      | ok h =>
        rw [(handleTURNPacket_handled e lib log r m h hdec hgmh).1]
        constructor
        · intro hnil
          refine ⟨m, h, rfl, hgmh, ?_⟩
          cases hres : (runHandler e lib h r m.msg).err with
          | none => rfl
          | some herr =>
            rw [hres] at hnil
            cases hnil
        · rintro ⟨m', h', hm', hh', hnil⟩
          cases hm'
          rw [hgmh] at hh'
          cases hh'
          rw [hnil]
  · intro derr hdec
    rw [handleTURNPacket_undecoded e lib log r derr hdec]
    exact ⟨⟨_, rfl, rfl⟩, by simp⟩
  · intro m gerr hdec hgmh
    rw [handleTURNPacket_unhandled e lib log r m gerr hdec hgmh]
    exact ⟨⟨_, rfl, rfl⟩, by simp⟩
  · intro m h herr hdec hgmh hres
    rw [(handleTURNPacket_handled e lib log r m h hdec hgmh).1, hres]
    exact ⟨_, rfl, rfl⟩
  · rcases handleTURNPacket_calls e lib log r with hc | hc | ⟨h', hc⟩ <;> rw [hc] <;>
      simp [Call.isHandler]

/-! ## `handleBindingRequest` -/

/-- C19, as stated, fails when `stun.Build` refuses the response: the
source address ":0" yields the nil IP and port 0, an XOR-MAPPED-ADDRESS whose
IP has neither 4 nor 16 bytes is refused, and `handleBindingRequest` writes
nothing and returns the error of `stun.Build`. -/
theorem binding_response_not_built :
    sampleNilIPLib.AddrIPPort ":0" = .ok ([], 0) ∧
    (handleBindingRequest sampleStrictEnv sampleNilIPLib
      ⟨sampleConn, ":0", sampleBindingBuf, [], sampleAuth, "myenterprise"⟩
      sampleBlankMsg).writes = [] ∧
    (handleBindingRequest sampleStrictEnv sampleNilIPLib
      ⟨sampleConn, ":0", sampleBindingBuf, [], sampleAuth, "myenterprise"⟩
      sampleBlankMsg).err = some (.external "invalid length of IP value") :=
  ⟨rfl, by decide, rfl⟩

/-- C19, amended. For every Binding request whose source address yields
(ip, port): if `stun.Build` accepts the setters of the response,
`handleBindingRequest` makes exactly one write, to the source address, of the
message that `stun.Build` builds from the request's transaction id, the type
Binding Success, XOR-MAPPED-ADDRESS (ip, port) and FINGERPRINT as the last
attribute, and returns what the write returns; if `stun.Build` refuses them,
it writes nothing and returns the error of `stun.Build`. If the source address
has no IP and port it returns that error and writes nothing. -/
theorem handleBindingRequest_response (e : Env) (lib : Collaborators) (r : Request)
    (m : StunMessageIF) :
    (∀ ip port, lib.AddrIPPort r.SrcAddr = .ok (ip, port) →
      e.stunBuild [Setter.message m.transactionID, Setter.msgType BindingSuccess,
        Setter.xorMappedAddress ip port, Setter.fingerprint] = none →
      (handleBindingRequest e lib r m).writes =
        [⟨r.Conn.name, r.SrcAddr, [Setter.message m.transactionID,
          Setter.msgType BindingSuccess, Setter.xorMappedAddress ip port,
          Setter.fingerprint]⟩] ∧
      (∀ w ∈ (handleBindingRequest e lib r m).writes,
        w.msg.getLast? = some Setter.fingerprint) ∧
      (handleBindingRequest e lib r m).err =
        r.Conn.writeTo [Setter.message m.transactionID, Setter.msgType BindingSuccess,
          Setter.xorMappedAddress ip port, Setter.fingerprint] r.SrcAddr) ∧
    (∀ ip port berr, lib.AddrIPPort r.SrcAddr = .ok (ip, port) →
      e.stunBuild [Setter.message m.transactionID, Setter.msgType BindingSuccess,
        Setter.xorMappedAddress ip port, Setter.fingerprint] = some berr →
      (handleBindingRequest e lib r m).writes = [] ∧
      (handleBindingRequest e lib r m).err = some berr) ∧
    (∀ err, lib.AddrIPPort r.SrcAddr = .error err →
      (handleBindingRequest e lib r m).err = some err ∧
      (handleBindingRequest e lib r m).writes = []) := by
  refine ⟨?_, ?_, ?_⟩
  · intro ip port haddr hbuild
    have hb := buildAndSend_built e r.Conn r.SrcAddr _ hbuild
    simp only [handleBindingRequest, haddr, buildMsg, List.cons_append, List.nil_append, hb]
    simp
  · intro ip port berr haddr hbuild
    have hb := buildAndSend_refused e r.Conn r.SrcAddr _ berr hbuild
    simp only [handleBindingRequest, haddr, buildMsg, List.cons_append, List.nil_append, hb]
    simp
  · intro err haddr
    simp [handleBindingRequest, haddr]

theorem handleBindingRequest_response_witness :
    (handleBindingRequest sampleEnv sampleLib (sampleDatagram sampleBindingBuf)
      sampleBlankMsg).writes =
      [⟨"udp4:0.0.0.0:3478", "250.128.0.0:5600",
        [Setter.message [1, 2, 3, 4, 5, 6, 7, 8, 9, 10, 11, 12],
          Setter.msgType BindingSuccess, Setter.xorMappedAddress [250, 128, 0, 0] 5600,
          Setter.fingerprint]⟩] ∧
    (handleBindingRequest sampleEnv sampleLib
      ⟨sampleConn, "pipe", sampleBindingBuf, [], sampleAuth, "myenterprise"⟩
      sampleBlankMsg).writes = [] :=
  ⟨((handleBindingRequest_response sampleEnv sampleLib (sampleDatagram sampleBindingBuf)
      sampleBlankMsg).1 [250, 128, 0, 0] 5600 rfl rfl).1,
    ((handleBindingRequest_response sampleEnv sampleLib
      ⟨sampleConn, "pipe", sampleBindingBuf, [], sampleAuth, "myenterprise"⟩
      sampleBlankMsg).2.2 (.external "failed to cast net.Addr") rfl).2⟩

/-- C20. Binding requires no authentication: `handleBindingRequest` makes no
`AuthHandler` call and leaves the nonce store as it is, and what it returns
and writes is the same for any two requests with the same connection and
source address and any two messages with the same transaction id, whatever
their nonce stores, credential lookups and realms, and whether or not the
messages carry MESSAGE-INTEGRITY, NONCE, USERNAME or REALM. -/
theorem handleBindingRequest_no_auth (e : Env) (lib : Collaborators) (r r2 : Request)
    (m m2 : StunMessageIF)
    (hconn : r2.Conn = r.Conn) (hsrc : r2.SrcAddr = r.SrcAddr)
    (htid : m2.transactionID = m.transactionID) :
    (handleBindingRequest e lib r m).authCalls = [] ∧
    (handleBindingRequest e lib r m).nonces = r.Nonces ∧
    (handleBindingRequest e lib r2 m2).err = (handleBindingRequest e lib r m).err ∧
    (handleBindingRequest e lib r2 m2).writes = (handleBindingRequest e lib r m).writes := by
  unfold handleBindingRequest
  rw [hconn, hsrc, htid]
  cases lib.AddrIPPort r.SrcAddr with
  | error err => exact ⟨rfl, rfl, rfl, rfl⟩
  | ok a =>
    obtain ⟨ip, port⟩ := a
    exact ⟨rfl, rfl, rfl, rfl⟩

theorem handleBindingRequest_no_auth_witness :
    (handleBindingRequest sampleEnv sampleLib (sampleDatagram sampleBindingBuf)
      sampleBlankMsg).authCalls = [] ∧
    (handleBindingRequest sampleEnv sampleLib (sampleDatagram sampleBindingBuf)
      sampleBlankMsg).nonces = (sampleDatagram sampleBindingBuf).Nonces ∧
    (handleBindingRequest sampleEnv sampleLib
      (sampleRequest [(MapKey.str "123", MapValue.time 0)]) (sampleAuthMsg "123")).err =
      (handleBindingRequest sampleEnv sampleLib (sampleDatagram sampleBindingBuf)
        sampleBlankMsg).err ∧
    (handleBindingRequest sampleEnv sampleLib
      (sampleRequest [(MapKey.str "123", MapValue.time 0)]) (sampleAuthMsg "123")).writes =
      (handleBindingRequest sampleEnv sampleLib (sampleDatagram sampleBindingBuf)
        sampleBlankMsg).writes :=
  handleBindingRequest_no_auth sampleEnv sampleLib (sampleDatagram sampleBindingBuf)
    (sampleRequest [(MapKey.str "123", MapValue.time 0)]) sampleBlankMsg (sampleAuthMsg "123")
    rfl rfl rfl

/-! ## `allocationLifeTime` -/

/-- C21. For every message that has no parseable LIFETIME attribute,
`allocationLifeTime` returns `proto.DefaultLifetime`, ten minutes. -/
theorem allocationLifeTime_absent (m : LifetimeMessage) (err : GoError)
    (h : m.lifetime = .error err) :
    allocationLifeTime m = DefaultLifetime ∧ DefaultLifetime = 10 * 60 * 1000000000 := by
  simp [allocationLifeTime, h, DefaultLifetime]

theorem allocationLifeTime_absent_witness :
    allocationLifeTime ⟨.error (.external "attribute not found")⟩ = DefaultLifetime ∧
    DefaultLifetime = 10 * 60 * 1000000000 :=
  allocationLifeTime_absent ⟨.error (.external "attribute not found")⟩ _ rfl

/-- C22. For every message whose LIFETIME attribute is a duration `d`
strictly less than one hour, `allocationLifeTime` returns exactly `d`. -/
theorem allocationLifeTime_below_hour (m : LifetimeMessage) (d : Int)
    (h : m.lifetime = .ok d) (hd : d < timeHour) :
    allocationLifeTime m = d := by
  simp [allocationLifeTime, h, maximumAllocationLifetime, hd]

theorem allocationLifeTime_below_hour_witness :
    allocationLifeTime ⟨.ok (5 * 1000000000)⟩ = 5 * 1000000000 :=
  allocationLifeTime_below_hour ⟨.ok (5 * 1000000000)⟩ (5 * 1000000000) rfl (by decide)

/-- C23, as stated, fails: a requested lifetime of two hours is granted ten
minutes, which is not min(2 h, 1 h) = 1 h, and so is a requested lifetime of
exactly one hour. -/
theorem allocationLifeTime_not_capped :
    allocationLifeTime ⟨.ok (2 * timeHour)⟩ = DefaultLifetime ∧
    allocationLifeTime ⟨.ok (2 * timeHour)⟩ ≠ min (2 * timeHour) timeHour ∧
    allocationLifeTime ⟨.ok timeHour⟩ = DefaultLifetime ∧
    allocationLifeTime ⟨.ok timeHour⟩ ≠ min timeHour timeHour :=
  ⟨by decide, by decide, by decide, by decide⟩

/-- C23, amended. For every message whose LIFETIME attribute is a duration
`d`, `allocationLifeTime` returns `d` if `d` is strictly less than one hour
and `proto.DefaultLifetime` (ten minutes) otherwise; in particular a request
for one hour or more is granted ten minutes, not one hour. -/
theorem allocationLifeTime_value (m : LifetimeMessage) (d : Int) (h : m.lifetime = .ok d) :
    allocationLifeTime m = (if d < timeHour then d else DefaultLifetime) ∧
    (timeHour ≤ d → allocationLifeTime m = 10 * 60 * 1000000000) := by
  constructor
  · simp [allocationLifeTime, h, maximumAllocationLifetime]
  · intro hd
    simp [allocationLifeTime, h, maximumAllocationLifetime, not_lt.mpr hd, DefaultLifetime]

theorem allocationLifeTime_value_witness :
    allocationLifeTime ⟨.ok (2 * timeHour)⟩ =
      (if 2 * timeHour < timeHour then 2 * timeHour else DefaultLifetime) ∧
    (timeHour ≤ 2 * timeHour → allocationLifeTime ⟨.ok (2 * timeHour)⟩ = 10 * 60 * 1000000000) :=
  allocationLifeTime_value ⟨.ok (2 * timeHour)⟩ (2 * timeHour) rfl

/-- C24. For every message whose LIFETIME attribute is bigger than
`maximumAllocationLifetime` (one hour), `allocationLifeTime` returns
`proto.DefaultLifetime`. -/
theorem allocationLifeTime_overflow (m : LifetimeMessage) (d : Int)
    (h : m.lifetime = .ok d) (hd : maximumAllocationLifetime < d) :
    allocationLifeTime m = DefaultLifetime := by
  simp [allocationLifeTime, h, not_lt.mpr (le_of_lt hd)]

theorem allocationLifeTime_overflow_witness :
    allocationLifeTime ⟨.ok (maximumAllocationLifetime * 2)⟩ = DefaultLifetime :=
  allocationLifeTime_overflow ⟨.ok (maximumAllocationLifetime * 2)⟩
    (maximumAllocationLifetime * 2) rfl (by decide)

/-- C25. For every message, with or without a LIFETIME attribute and whatever
its value, the duration returned by `allocationLifeTime` is at most one
hour. -/
theorem allocationLifeTime_le_hour (m : LifetimeMessage) :
    allocationLifeTime m ≤ timeHour := by
  have hdef : DefaultLifetime ≤ timeHour := by decide
  unfold allocationLifeTime
  split
  · split
    · rename_i hlt
      exact le_of_lt hlt
    · exact hdef
  · exact hdef

/-- C26. A requested lifetime of zero is preserved: for every message whose
LIFETIME attribute is 0, `allocationLifeTime` returns 0 and not
`proto.DefaultLifetime`. -/
theorem allocationLifeTime_zero (m : LifetimeMessage) (h : m.lifetime = .ok 0) :
    allocationLifeTime m = 0 ∧ allocationLifeTime m ≠ DefaultLifetime := by
  have h0 : allocationLifeTime m = 0 := by
    simp [allocationLifeTime, h, maximumAllocationLifetime, timeHour]
  rw [h0]
  exact ⟨rfl, by decide⟩

theorem allocationLifeTime_zero_witness :
    allocationLifeTime ⟨.ok 0⟩ = 0 ∧ allocationLifeTime ⟨.ok 0⟩ ≠ DefaultLifetime :=
  allocationLifeTime_zero ⟨.ok 0⟩ rfl

/-! ## `buildAndSendErr` -/

/-- C27. `buildAndSendErr` returns the original error to the caller: for
every error `err` (nil or not) and attribute list, if building and writing the
packet succeed it returns exactly `err`; if building fails, or building
succeeds and writing fails, it returns an error wrapping
`errFailedToSendError`; hence for a non-nil `err` it never returns nil. -/
theorem buildAndSendErr_returns (e : Env) (conn : PacketConn) (dst : NetAddr)
    (err : Option GoError) (attrs : List Setter) :
    (e.stunBuild attrs = none → conn.writeTo attrs dst = none →
      (buildAndSendErr e conn dst err attrs).1 = err) ∧
    (e.stunBuild attrs ≠ none ∨ (e.stunBuild attrs = none ∧ conn.writeTo attrs dst ≠ none) →
      ∃ x, (buildAndSendErr e conn dst err attrs).1 = some x ∧
        x.wraps "errFailedToSendError" = true) ∧
    (err ≠ none → (buildAndSendErr e conn dst err attrs).1 ≠ none) := by
  unfold buildAndSendErr buildAndSend
  cases hb : e.stunBuild attrs with
  | some se =>
    refine ⟨by simp, fun _ => ⟨_, rfl, rfl⟩, by simp⟩
  | none =>
    cases hw : conn.writeTo attrs dst with
    | some we =>
      refine ⟨by simp, fun _ => ⟨_, rfl, rfl⟩, by simp⟩
    | none =>
      refine ⟨by simp, by simp, by simp⟩

/-! ## `checkpackets.go` -/

theorem bigEndianUint16_some (l : List Nat) (h : 2 ≤ l.length) :
    ∃ x, bigEndianUint16 l = some x := by
  match l, h with
  | b0 :: b1 :: _, _ => exact ⟨_, rfl⟩

theorem bigEndianUint32_some (l : List Nat) (h : 4 ≤ l.length) :
    ∃ x, bigEndianUint32 l = some x := by
  match l, h with
  | b0 :: b1 :: b2 :: b3 :: _, _ => exact ⟨_, rfl⟩

/-- The slices that `CheckHeader` takes at cursor 0 of a buffer of at least
20 bytes. -/
theorem goSlice_header (m : ByteSlice) (hlen : 20 ≤ m.len) :
    goSlice m 0 2 = some (m.elems.take 2) ∧
    goSlice m 2 4 = some ((m.elems.drop 2).take 2) ∧
    goSlice m 4 8 = some ((m.elems.drop 4).take 4) ∧
    goSlice m 8 20 = some ((m.elems.drop 8).take 12) := by
  have h0 := goSlice_elems m 0 2 (by omega) (by omega)
  have h2 := goSlice_elems m 2 4 (by omega) (by omega)
  have h4 := goSlice_elems m 4 8 (by omega) (by omega)
  have h8 := goSlice_elems m 8 20 (by omega) (by omega)
  simp only [Nat.cast_ofNat, Nat.cast_zero, List.drop_zero, Nat.sub_zero] at h0 h2 h4 h8
  exact ⟨h0, h2, h4, h8⟩

/-- The slices that `CheckHeader` takes at cursor 0 of a buffer whose
capacity is at least 20 bytes. -/
theorem goSlice_header_cap (m : ByteSlice) (hcap : 20 ≤ m.cap) :
    goSlice m 0 2 = some ((m.elems ++ m.spare).take 2) ∧
    goSlice m 2 4 = some (((m.elems ++ m.spare).drop 2).take 2) ∧
    goSlice m 4 8 = some (((m.elems ++ m.spare).drop 4).take 4) ∧
    goSlice m 8 20 = some (((m.elems ++ m.spare).drop 8).take 12) := by
  have h0 := goSlice_eq m 0 2 (by omega) (by omega)
  have h2 := goSlice_eq m 2 4 (by omega) (by omega)
  have h4 := goSlice_eq m 4 8 (by omega) (by omega)
  have h8 := goSlice_eq m 8 20 (by omega) (by omega)
  simp only [Nat.cast_ofNat, Nat.cast_zero, List.drop_zero, Nat.sub_zero] at h0 h2 h4 h8
  exact ⟨h0, h2, h4, h8⟩

/-- C28. `CheckHeader` reads the canonical 20-byte STUN header: for every
buffer `m` of at least 20 bytes and cursor 0 it returns the big-endian uint16
of `m[0:2]` as type, the big-endian uint16 of `m[2:4]` as length, the
big-endian uint32 of `m[4:8]` as cookie, and the 12 bytes `m[8:20]` as
transaction id. -/
theorem CheckHeader_reads (m : ByteSlice) (hlen : 20 ≤ m.len) :
    ∃ mType mLength mCookie,
      bigEndianUint16 (m.elems.take 2) = some mType ∧
      bigEndianUint16 ((m.elems.drop 2).take 2) = some mLength ∧
      bigEndianUint32 ((m.elems.drop 4).take 4) = some mCookie ∧
      ((m.elems.drop 8).take 12).length = 12 ∧
      ∃ mPkt, CheckHeader 0 m =
        some ((mType, mLength, mCookie, (m.elems.drop 8).take 12), mPkt) := by
  have hlen' : 20 ≤ m.elems.length := hlen
  obtain ⟨h0, h2, h4, h8⟩ := goSlice_header m hlen
  obtain ⟨ty, hty⟩ := bigEndianUint16_some (m.elems.take 2) (by simp; omega)
  obtain ⟨ln, hln⟩ := bigEndianUint16_some ((m.elems.drop 2).take 2) (by simp; omega)
  obtain ⟨ck, hck⟩ := bigEndianUint32_some ((m.elems.drop 4).take 4) (by simp; omega)
  refine ⟨ty, ln, ck, hty, hln, hck, by simp; omega, 8, ?_⟩
  unfold CheckHeader
  simp only [Int.zero_add, h0, h2, h4, h8, Option.bind, getType, getLength, getMagicCookie,
    getTransactionID, hty, hln, hck]

theorem CheckHeader_reads_witness :
    ∃ mType mLength mCookie,
      bigEndianUint16 (sampleBadAuthPacket.take 2) = some mType ∧
      bigEndianUint16 ((sampleBadAuthPacket.drop 2).take 2) = some mLength ∧
      bigEndianUint32 ((sampleBadAuthPacket.drop 4).take 4) = some mCookie ∧
      ((sampleBadAuthPacket.drop 8).take 12).length = 12 ∧
      ∃ mPkt, CheckHeader 0 ⟨sampleBadAuthPacket, []⟩ =
        some ((mType, mLength, mCookie, (sampleBadAuthPacket.drop 8).take 12), mPkt) :=
  CheckHeader_reads ⟨sampleBadAuthPacket, []⟩ (by decide)

theorem CheckHeader_cursor (c : Int) (m : ByteSlice) (r : Nat × Nat × Nat × List Nat)
    (c' : Int) (h : CheckHeader c m = some (r, c')) : c' = c + 8 := by
  unfold CheckHeader at h
  split at h
  · cases h
  · split at h
    · cases h
    · split at h
      · cases h
      · split at h
        · cases h
        · simp only [Option.some.injEq, Prod.mk.injEq] at h
          exact h.2.symm

theorem CheckTransactionID_cursor (c : Int) (m : ByteSlice) (b : Bool) (c' : Int)
    (h : CheckTransactionID c m = some (b, c')) : c' = c + 12 := by
  unfold CheckTransactionID at h
  split at h
  · cases h
  · split at h <;>
    · simp only [Option.some.injEq, Prod.mk.injEq] at h
      exact h.2.symm

/-- C29. `CheckHeader` advances the cursor by exactly 8 (not 12, and not 20)
and `CheckTransactionID` by exactly 12, so that for every buffer of at least
20 bytes the sequence `CheckBadAuthHeader`; `CheckTransactionID` started at
cursor 0 leaves the cursor at 20 = `headerlen`. -/
theorem header_checks_cursor (m : ByteSlice) (hlen : 20 ≤ m.len) :
    (∀ c r c', CheckHeader c m = some (r, c') → c' = c + 8 ∧ c' ≠ c + 12 ∧ c' ≠ c + 20) ∧
    (∀ c b c', CheckTransactionID c m = some (b, c') → c' = c + 12) ∧
    ∃ b1 b2 c1 c2, CheckBadAuthHeader 0 m = some (b1, c1) ∧ c1 = 8 ∧
      CheckTransactionID c1 m = some (b2, c2) ∧ c2 = 20 ∧ c2 = headerlen := by
  refine ⟨?_, ?_, ?_⟩
  · intro c r c' h
    have := CheckHeader_cursor c m r c' h
    omega
  · intro c b c' h
    exact CheckTransactionID_cursor c m b c' h
  · obtain ⟨ty, ln, ck, _, _, _, _, c1, hh⟩ := CheckHeader_reads m hlen
    have hc1 : c1 = 8 := by
      have := CheckHeader_cursor 0 m _ c1 hh
      omega
    subst hc1
    have hbad : ∃ b1, CheckBadAuthHeader 0 m = some (b1, 8) := by
      unfold CheckBadAuthHeader
      rw [hh]
      simp only
      split
      · exact ⟨true, rfl⟩
      · exact ⟨false, rfl⟩
    obtain ⟨b1, hb1⟩ := hbad
    have h8 := (goSlice_header m hlen).2.2.2
    have htid : ∃ b2, CheckTransactionID 8 m = some (b2, 20) := by
      unfold CheckTransactionID
      have : (8 : Int) + 12 = 20 := by norm_num
      rw [this, h8]
      simp only
      split
      · exact ⟨true, rfl⟩
      · exact ⟨false, rfl⟩
    obtain ⟨b2, hb2⟩ := htid
    exact ⟨b1, b2, 8, 20, hb1, rfl, hb2, rfl, rfl⟩

theorem header_checks_cursor_witness :
    (∀ c r c', CheckHeader c ⟨sampleBadAuthPacket, []⟩ = some (r, c') →
      c' = c + 8 ∧ c' ≠ c + 12 ∧ c' ≠ c + 20) ∧
    (∀ c b c', CheckTransactionID c ⟨sampleBadAuthPacket, []⟩ = some (b, c') → c' = c + 12) ∧
    ∃ b1 b2 c1 c2, CheckBadAuthHeader 0 ⟨sampleBadAuthPacket, []⟩ = some (b1, c1) ∧ c1 = 8 ∧
      CheckTransactionID c1 ⟨sampleBadAuthPacket, []⟩ = some (b2, c2) ∧ c2 = 20 ∧
      c2 = headerlen :=
  header_checks_cursor ⟨sampleBadAuthPacket, []⟩ (by decide)

/-- C30, as stated, fails for a value whose length is not a multiple of 4:
on the REALM attribute with the three-byte value "abc" and one byte of
padding, `CheckRealm` succeeds and leaves the cursor at 7, not at the next
4-byte boundary 8. -/
theorem CheckRealm_skips_no_padding :
    CheckRealm 0 ⟨samplePaddedRealm, []⟩ [97, 98, 99] = some (true, 7) ∧
    (4 + [97, 98, 99].length + 3) / 4 * 4 = 8 ∧ (7 : Int) ≠ 8 :=
  ⟨by decide, by decide, by decide⟩

/-- C30, amended. For every buffer, cursor `c` and expected value `v`,
`CheckRealm` returns true if and only if the attribute at `c` has type 0x0014,
length `len(v)` (as the uint16 the code compares) and value bytes equal to
`v`; on success it advances the cursor by the 4-byte header and the length
read, i.e. by 4 + len(v) for a value shorter than 65536 bytes, and skips no
padding; on failure the cursor is unchanged. -/
theorem CheckRealm_iff (m : ByteSlice) (c : Int) (v : List Nat) :
    (∀ c', CheckRealm c m v = some (true, c') ↔
      ((goSlice m c (c + 2)).bind bigEndianUint16 = some 0x14 ∧
        (goSlice m (c + 2) (c + 4)).bind bigEndianUint16 = some (v.length % 65536) ∧
        goSlice m (c + 4) (c + 4 + (v.length : Int)) = some v ∧
        c' = c + 4 + ((v.length % 65536 : Nat) : Int))) ∧
    (v.length < 65536 → ∀ c', CheckRealm c m v = some (true, c') →
      c' = c + 4 + (v.length : Int)) ∧
    (∀ c', CheckRealm c m v = some (false, c') → c' = c) := by
  have hiff : ∀ c', CheckRealm c m v = some (true, c') ↔
      ((goSlice m c (c + 2)).bind bigEndianUint16 = some 0x14 ∧
        (goSlice m (c + 2) (c + 4)).bind bigEndianUint16 = some (v.length % 65536) ∧
        goSlice m (c + 4) (c + 4 + (v.length : Int)) = some v ∧
        c' = c + 4 + ((v.length % 65536 : Nat) : Int)) := by
    intro c'
    unfold CheckRealm
    cases h1 : (goSlice m c (c + 2)).bind bigEndianUint16 with
    | none => simp
    | some mtype =>
      by_cases ht : mtype = 0x14
      · subst ht
        cases h2 : (goSlice m (c + 2) (c + 4)).bind bigEndianUint16 with
        | none => simp
        | some mLength =>
          by_cases hl : mLength = v.length % 65536
          · subst hl
            cases h3 : goSlice m (c + 4) (c + 4 + (v.length : Int)) with
            | none => simp
            | some value =>
              by_cases hv : v = value
              · subst hv
                simp
                constructor <;> intro h <;> omega
              · simp [hv]
                intro h
                exact absurd h.symm hv
          · simp [hl]
      · simp [ht]
  refine ⟨hiff, ?_, ?_⟩
  · intro hlt c' h
    have := ((hiff c').mp h).2.2.2
    rw [Nat.mod_eq_of_lt hlt] at this
    exact this
  · intro c' h
    unfold CheckRealm at h
    split at h
    · cases h
    · split at h
      · simp only [Option.some.injEq, Prod.mk.injEq, true_and] at h
        exact h.symm
      · split at h
        · cases h
        · split at h
          · simp only [Option.some.injEq, Prod.mk.injEq, true_and] at h
            exact h.symm
          · split at h
            · cases h
            · split at h
              · simp only [Option.some.injEq, Prod.mk.injEq, true_and] at h
                exact h.symm
              · simp at h

/-! ## Runs of `authenticateRequest`: errors, lookups and the store -/

/-- When `authenticateRequest` returns `ok = true`, and only then, every
check has passed. -/
theorem authenticateRequest_ok_conditions (e : Env) (r : Request) (m : StunMessageIF)
    (cm : Nat) :
    (authenticateRequest e r m cm).ok = true ↔
      (m.contains AttrMessageIntegrity = true ∧
        ∃ n t realm user, m.nonce = .ok n ∧
          r.Nonces.Load (MapKey.str n) = some (MapValue.time t) ∧
          timeSince e t < nonceLifetime ∧
          m.realm = .ok realm ∧ m.username = .ok user ∧
          (r.AuthHandler user realm r.SrcAddr).2 = true ∧
          m.integrityCheck (r.AuthHandler user realm r.SrcAddr).1 = none) := by
  unfold authenticateRequest
  split
  · rename_i h
    simp only [Bool.not_eq_true', Bool.not_eq_eq_eq_not, Bool.not_true] at h
    simp [respondWithNonce_ok, h]
  · rename_i h
    simp only [Bool.not_eq_true, Bool.not_eq_false'] at h
    split
    · simp_all
    · split
      · simp_all [respondWithNonce_ok]
      · simp_all [respondWithNonce_ok]
      · split
        · simp_all [respondWithNonce_ok]
        · split
          · simp_all
          · split
            · simp_all
            · split
              · simp_all
              · split
                · simp_all
                · simp_all

/-- The calls of `AuthHandler` in a run: none, or exactly one, made after the
MESSAGE-INTEGRITY, nonce, realm and username checks have passed. -/
theorem authenticateRequest_authCalls (e : Env) (r : Request) (m : StunMessageIF)
    (cm : Nat) :
    (authenticateRequest e r m cm).authCalls = [] ∨
    (m.contains AttrMessageIntegrity = true ∧
      ∃ p t realm user, m.nonce = .ok p ∧
        r.Nonces.Load (MapKey.str p) = some (MapValue.time t) ∧
        timeSince e t < nonceLifetime ∧
        m.realm = .ok realm ∧ m.username = .ok user ∧
        (authenticateRequest e r m cm).authCalls = [(user, realm, r.SrcAddr)]) := by
  unfold authenticateRequest
  split
  · exact Or.inl (respondWithNonce_authCalls _ _ _ _ _ _)
  · rename_i h
    simp only [Bool.not_eq_true, Bool.not_eq_false'] at h
    split
    · exact Or.inl rfl
    · split
      · exact Or.inl (respondWithNonce_authCalls _ _ _ _ _ _)
      · exact Or.inl (respondWithNonce_authCalls _ _ _ _ _ _)
      · split
        · exact Or.inl (respondWithNonce_authCalls _ _ _ _ _ _)
        · rename_i hstale
          split
          · exact Or.inl rfl
          · split
            · exact Or.inl rfl
            · split
              · simp_all
              · split
                · simp_all
                · simp_all

/-- In a run that passes the nonce check, either the request is accepted or
the returned error is non-nil. -/
theorem authenticateRequest_accepted_or_error (e : Env) (r : Request) (m : StunMessageIF)
    (cm : Nat) (p : String) (t : Int)
    (hMI : m.contains AttrMessageIntegrity = true) (hp : m.nonce = .ok p)
    (hload : r.Nonces.Load (MapKey.str p) = some (MapValue.time t))
    (hlt : timeSince e t < nonceLifetime) :
    (authenticateRequest e r m cm).ok = true ∨ (authenticateRequest e r m cm).err ≠ none := by
  have hnot : ¬ (nonceLifetime ≤ timeSince e t) := not_le.mpr hlt
  have hne := fun (err : GoError) => buildAndSendErr_ne_none e r.Conn r.SrcAddr err
    (buildMsg m.transactionID (NewType cm ClassErrorResponse)
      [Setter.errorCodeAttribute CodeBadRequest])
  simp only [authenticateRequest, hMI, hp, hload, ge_iff_le, hnot,
    Bool.not_true, Bool.false_eq_true, if_false]
  split
  · exact Or.inr (hne _)
  · split
    · exact Or.inr (hne _)
    · split
      · exact Or.inr (hne _)
      · split
        · exact Or.inr (hne _)
        · exact Or.inl rfl

/-- C31. A sent challenge is not an error: when a run writes a 401 or 438
response and the write succeeds, `authenticateRequest` returns a nil key,
`ok = false` and a nil error; on every 400 branch (MESSAGE-INTEGRITY present,
NONCE unparseable or stored with an age under one hour, and the request not
accepted) the returned error is non-nil. -/
theorem challenge_sent_no_error (e : Env) (r : Request) (m : StunMessageIF) (cm : Nat) :
    ((∃ w ∈ (authenticateRequest e r m cm).writes,
        (Setter.errorCodeAttribute CodeUnauthorized ∈ w.msg ∨
          Setter.errorCodeAttribute CodeStaleNonce ∈ w.msg) ∧
        r.Conn.writeTo w.msg w.dst = none) →
      (authenticateRequest e r m cm).integrity = [] ∧
      (authenticateRequest e r m cm).ok = false ∧
      (authenticateRequest e r m cm).err = none) ∧
    (m.contains AttrMessageIntegrity = true →
      ((∃ err, m.nonce = .error err) ∨
        ∃ p t, m.nonce = .ok p ∧ r.Nonces.Load (MapKey.str p) = some (MapValue.time t) ∧
          timeSince e t < nonceLifetime) →
      (authenticateRequest e r m cm).ok = false →
      (authenticateRequest e r m cm).err ≠ none) := by
  constructor
  · rintro ⟨w, hw, hcode, hwrite⟩
    rcases authenticateRequest_cases e r m cm with ⟨code, _, hrun⟩ | ⟨_, hbad⟩
    · rw [hrun] at hw ⊢
      obtain ⟨n, hn⟩ := buildNonce_ok e
      cases hv : r.Nonces.Load (MapKey.str n) with
      | some v =>
        rw [respondWithNonce_collision e r m cm r.Nonces code n v hn hv] at hw
        simp at hw
      | none =>
        rw [respondWithNonce_fresh e r m cm r.Nonces code n hn hv] at hw ⊢
        refine ⟨rfl, rfl, ?_⟩
        simp only at hw ⊢
        have hweq := buildAndSend_writes e r.Conn r.SrcAddr _ w hw
        subst hweq
        unfold buildAndSend at hw ⊢
        cases hb : e.stunBuild (buildMsg m.transactionID (NewType cm ClassErrorResponse)
            [Setter.errorCodeAttribute code, Setter.nonce n, Setter.realm r.Realm]) with
        | some se =>
          rw [hb] at hw
          simp at hw
        | none =>
          simp only
          exact hwrite
    · rw [hbad w hw] at hcode
      simp [CodeUnauthorized, CodeStaleNonce, CodeBadRequest] at hcode
  · intro hMI hcase hok
    rcases hcase with ⟨err, hp⟩ | ⟨p, t, hp, hload, hlt⟩
    · have hne := buildAndSendErr_ne_none e r.Conn r.SrcAddr err
        (buildMsg m.transactionID (NewType cm ClassErrorResponse)
          [Setter.errorCodeAttribute CodeBadRequest])
      simp only [authenticateRequest, hMI, hp, Bool.not_true, Bool.false_eq_true, if_false]
      exact hne
    · rcases authenticateRequest_accepted_or_error e r m cm p t hMI hp hload hlt with h | h
      · rw [h] at hok
        cases hok
      · exact h

/-- C33. In every run of `authenticateRequest`, `AuthHandler` is invoked at
most once, and only when the message contains MESSAGE-INTEGRITY, the NONCE is
in the store with an age under one hour, and REALM and USERNAME have been
parsed (the call is made with that username and realm and the source
address); in every run that writes a 401 or 438 response `AuthHandler` is not
invoked at all. -/
theorem authHandler_after_checks (e : Env) (r : Request) (m : StunMessageIF) (cm : Nat) :
    (authenticateRequest e r m cm).authCalls.length ≤ 1 ∧
    ((authenticateRequest e r m cm).authCalls ≠ [] →
      m.contains AttrMessageIntegrity = true ∧
      ∃ p t realm user, m.nonce = .ok p ∧
        r.Nonces.Load (MapKey.str p) = some (MapValue.time t) ∧
        timeSince e t < nonceLifetime ∧
        m.realm = .ok realm ∧ m.username = .ok user ∧
        (authenticateRequest e r m cm).authCalls = [(user, realm, r.SrcAddr)]) ∧
    ((∃ w ∈ (authenticateRequest e r m cm).writes,
        Setter.errorCodeAttribute CodeUnauthorized ∈ w.msg ∨
          Setter.errorCodeAttribute CodeStaleNonce ∈ w.msg) →
      (authenticateRequest e r m cm).authCalls = []) := by
  refine ⟨?_, ?_, ?_⟩
  · rcases authenticateRequest_authCalls e r m cm with h | ⟨_, p, t, realm, user, _, _, _, _, _, h⟩
    · rw [h]
      simp
    · rw [h]
      simp
  · intro hne
    rcases authenticateRequest_authCalls e r m cm with h | h
    · exact absurd h hne
    · exact h
  · rintro ⟨w, hw, hcode⟩
    rcases authenticateRequest_cases e r m cm with ⟨code, _, hrun⟩ | ⟨_, hbad⟩
    · rw [hrun]
      exact respondWithNonce_authCalls _ _ _ _ _ _
    · rw [hbad w hw] at hcode
      simp [CodeUnauthorized, CodeStaleNonce, CodeBadRequest] at hcode

/-- Repeating an accepted request: as long as the presented nonce is less
than one hour old at each run, every run accepts and leaves the store as it
is. -/
theorem authenticateRepeatedly_ok (es : List Env) (r : Request) (m : StunMessageIF) (cm : Nat)
    (p : String) (t : Int) (realm user : String)
    (hMI : m.contains AttrMessageIntegrity = true) (hp : m.nonce = .ok p)
    (hload : r.Nonces.Load (MapKey.str p) = some (MapValue.time t))
    (hrealm : m.realm = .ok realm) (huser : m.username = .ok user)
    (hauth : (r.AuthHandler user realm r.SrcAddr).2 = true)
    (hcheck : m.integrityCheck (r.AuthHandler user realm r.SrcAddr).1 = none)
    (hage : ∀ e2 ∈ es, e2.sinceNow - t < nonceLifetime) :
    ∀ out ∈ authenticateRepeatedly es r m cm, out.ok = true ∧ out.nonces = r.Nonces := by
  induction es with
  | nil =>
    intro out hout
    simp [authenticateRepeatedly] at hout
  | cons e2 rest ih =>
    have hlt : timeSince e2 t < nonceLifetime := by
      have h1 := hage e2 (List.mem_cons_self _ _)
      have h2 := (timeSince_ge_iff e2 t).not.mpr (by omega)
      omega
    have hok : (authenticateRequest e2 r m cm).ok = true :=
      (authenticateRequest_ok_conditions e2 r m cm).mpr
        ⟨hMI, p, t, realm, user, hp, hload, hlt, hrealm, huser, hauth, hcheck⟩
    have hns : (authenticateRequest e2 r m cm).nonces = r.Nonces :=
      (authenticateRequest_accepted_nonce e2 r m cm p t hMI hp hload hlt).1
    have hreq : (⟨r.Conn, r.SrcAddr, r.Buff, (authenticateRequest e2 r m cm).nonces,
        r.AuthHandler, r.Realm⟩ : Request) = r := by
      rw [hns]
    intro out hout
    simp only [authenticateRepeatedly, List.mem_cons] at hout
    rcases hout with h | h
    · rw [h]
      exact ⟨hok, hns⟩
    · rw [hreq] at h
      exact ih (fun e3 he3 => hage e3 (List.mem_cons_of_mem _ he3)) out h

/-- C34. A nonce is not consumed by use: every run of `authenticateRequest`
that returns `ok = true`, and every run that writes a 400 response, leaves the
nonce store exactly as it was; so after an accepted request the same request
is accepted again, any number of times, on the store each run leaves, as long
as the nonce is less than one hour old when it is presented. -/
theorem nonce_not_consumed (e : Env) (r : Request) (m : StunMessageIF) (cm : Nat) :
    ((authenticateRequest e r m cm).ok = true →
      (authenticateRequest e r m cm).nonces = r.Nonces) ∧
    ((∃ w ∈ (authenticateRequest e r m cm).writes,
        Setter.errorCodeAttribute CodeBadRequest ∈ w.msg) →
      (authenticateRequest e r m cm).nonces = r.Nonces) ∧
    ((authenticateRequest e r m cm).ok = true →
      ∃ p t, m.nonce = .ok p ∧ r.Nonces.Load (MapKey.str p) = some (MapValue.time t) ∧
        ∀ es : List Env, (∀ e2 ∈ es, e2.sinceNow - t < nonceLifetime) →
          ∀ out ∈ authenticateRepeatedly es
              ⟨r.Conn, r.SrcAddr, r.Buff, (authenticateRequest e r m cm).nonces,
                r.AuthHandler, r.Realm⟩ m cm,
            out.ok = true ∧ out.nonces = r.Nonces) := by
  have hkeep : (authenticateRequest e r m cm).ok = true →
      (authenticateRequest e r m cm).nonces = r.Nonces := by
    intro hok
    rcases authenticateRequest_cases e r m cm with ⟨code, _, hrun⟩ | ⟨hns, _⟩
    · rw [hrun, respondWithNonce_ok] at hok
      cases hok
    · exact hns
  refine ⟨hkeep, ?_, ?_⟩
  · rintro ⟨w, hw, hcode⟩
    rcases authenticateRequest_cases e r m cm with ⟨code, hc, hrun⟩ | ⟨hns, _⟩
    · rw [hrun] at hw
      obtain ⟨n, hn⟩ := respondWithNonce_writes e r m cm r.Nonces code w hw
      rw [hn] at hcode
      rcases hc with h | h <;>
        simp [h, CodeUnauthorized, CodeStaleNonce, CodeBadRequest] at hcode
    · exact hns
  · intro hok
    obtain ⟨hMI, p, t, realm, user, hp, hload, _, hrealm, huser, hauth, hcheck⟩ :=
      (authenticateRequest_ok_conditions e r m cm).mp hok
    refine ⟨p, t, hp, hload, ?_⟩
    intro es hage
    have hreq : (⟨r.Conn, r.SrcAddr, r.Buff, (authenticateRequest e r m cm).nonces,
        r.AuthHandler, r.Realm⟩ : Request) = r := by
      rw [hkeep hok]
    rw [hreq]
    exact authenticateRepeatedly_ok es r m cm p t realm user hMI hp hload hrealm huser hauth
      hcheck hage

/-! ## `handleDataPacket` -/

/-- C32. `handleDataPacket` has no response channel: when decoding the buffer
as channel data fails it returns an error wrapping
`errFailedToCreateChannelData`, without invoking `handleChannelData` and
without a write; when `handleChannelData` fails it returns an error wrapping
`errUnableToHandleChannelData`; it returns nil if and only if both succeed;
and its writes are those of `handleChannelData`, none of its own. -/
theorem handleDataPacket_errors (lib : Collaborators) (r : Request) :
    (∀ derr, lib.channelDataDecode r.Buff = .error derr →
      (∃ err, (handleDataPacket lib r).err = some err ∧
        err.wraps "errFailedToCreateChannelData" = true) ∧
      Call.handleChannelData ∉ (handleDataPacket lib r).calls ∧
      (handleDataPacket lib r).writes = []) ∧
    (∀ c herr, lib.channelDataDecode r.Buff = .ok c →
      (lib.handleChannelData r c).err = some herr →
      ∃ err, (handleDataPacket lib r).err = some err ∧
        err.wraps "errUnableToHandleChannelData" = true) ∧
    ((handleDataPacket lib r).err = none ↔
      ∃ c, lib.channelDataDecode r.Buff = .ok c ∧ (lib.handleChannelData r c).err = none) ∧
    (∀ c, lib.channelDataDecode r.Buff = .ok c →
      (handleDataPacket lib r).writes = (lib.handleChannelData r c).writes) := by
  unfold handleDataPacket
  cases hdec : lib.channelDataDecode r.Buff with
  | error derr =>
    refine ⟨?_, ?_, ?_, ?_⟩
    · intro derr' h
      cases h
      exact ⟨⟨_, rfl, rfl⟩, by simp, rfl⟩
    · intro c herr h
      cases h
    · simp
    · intro c h
      cases h
  | ok c =>
    simp only
    generalize hres : lib.handleChannelData r c = res
    obtain ⟨err, ns, ws, ac⟩ := res
    cases err with
    | none =>
      refine ⟨?_, ?_, ?_, ?_⟩
      · intro derr h
        cases h
      · intro c' herr h h2
        cases h
        rw [hres] at h2
        cases h2
      · simp only [true_iff]
        exact ⟨c, rfl, by rw [hres]⟩
      · intro c' h
        cases h
        rw [hres]
    | some herr0 =>
      refine ⟨?_, ?_, ?_, ?_⟩
      · intro derr h
        cases h
      · intro c' herr h h2
        exact ⟨_, rfl, rfl⟩
      · constructor
        · intro h
          cases h
        · rintro ⟨c', h, h2⟩
          cases h
          rw [hres] at h2
          cases h2
      · intro c' h
        cases h
        rw [hres]

/-! ## `checkpackets.go`: definedness and results -/

theorem goSlice_some_iff (m : ByteSlice) (lo hi : Int) :
    (∃ s, goSlice m lo hi = some s) ↔ 0 ≤ lo ∧ lo ≤ hi ∧ hi ≤ (m.cap : Int) := by
  unfold goSlice
  split
  · rename_i h
    exact ⟨fun _ => h, fun _ => ⟨_, rfl⟩⟩
  · rename_i h
    exact ⟨fun hex => (by obtain ⟨s, hs⟩ := hex; cases hs), fun h' => absurd h' h⟩

theorem goSlice_none_iff (m : ByteSlice) (lo hi : Int) :
    goSlice m lo hi = none ↔ ¬ (0 ≤ lo ∧ lo ≤ hi ∧ hi ≤ (m.cap : Int)) := by
  rw [← goSlice_some_iff]
  cases goSlice m lo hi with
  | none => simp
  | some s => simp

theorem goSlice_length (m : ByteSlice) (lo hi : Int) (s : List Nat)
    (h : goSlice m lo hi = some s) : (s.length : Int) = hi - lo := by
  unfold goSlice at h
  split at h
  · rename_i hb
    simp only [Option.some.injEq] at h
    have hcap : (m.cap : Int) = ((m.elems ++ m.spare).length : Int) := by
      simp [ByteSlice.cap]
    rw [← h, List.length_take, List.length_drop]
    omega
  · cases h

theorem bigEndianUint16_length (l : List Nat) (x : Nat) (h : bigEndianUint16 l = some x) :
    2 ≤ l.length := by
  match l, h with
  | b0 :: b1 :: _, _ => simp

/-- C35. `CheckTransactionID` never accepts: whenever it returns, on any
buffer and at any cursor, it returns false, because the 12 bytes of the
transaction id are compared with the 14 bytes of the string "00000000000000",
and it has advanced the cursor by 12. It returns whenever the buffer holds at
least 12 bytes from the cursor; in all, it returns exactly when the 12 bytes
from the cursor lie within the capacity of the buffer. -/
theorem CheckTransactionID_rejects (c : Int) (m : ByteSlice) :
    (∀ b c', CheckTransactionID c m = some (b, c') → b = false ∧ c' = c + 12) ∧
    (0 ≤ c → c + 12 ≤ (m.len : Int) → CheckTransactionID c m = some (false, c + 12)) ∧
    ((∃ b c', CheckTransactionID c m = some (b, c')) ↔ 0 ≤ c ∧ c + 12 ≤ (m.cap : Int)) ∧
    ("00000000000000".toList.map Char.toNat).length = 14 := by
  have hres : ∀ b c', CheckTransactionID c m = some (b, c') → b = false ∧ c' = c + 12 := by
    intro b c' h
    refine ⟨?_, CheckTransactionID_cursor c m b c' h⟩
    unfold CheckTransactionID at h
    split at h
    · cases h
    · rename_i s hs
      have hlen := goSlice_length m c (c + 12) s hs
      split at h
      · rename_i heq
        have h14 : s.length = 14 := by
          have := congrArg List.length heq
          simpa [getTransactionID] using this
        omega
      · simp only [Option.some.injEq, Prod.mk.injEq] at h
        exact h.1.symm
  have hdef : (∃ b c', CheckTransactionID c m = some (b, c')) ↔
      0 ≤ c ∧ c + 12 ≤ (m.cap : Int) := by
    constructor
    · rintro ⟨b, c', h⟩
      unfold CheckTransactionID at h
      split at h
      · cases h
      · rename_i s hs
        have := (goSlice_some_iff m c (c + 12)).mp ⟨s, hs⟩
        omega
    · rintro ⟨h1, h2⟩
      obtain ⟨s, hs⟩ := (goSlice_some_iff m c (c + 12)).mpr ⟨h1, by omega, h2⟩
      unfold CheckTransactionID
      rw [hs]
      simp only
      split
      · exact ⟨true, _, rfl⟩
      · exact ⟨false, _, rfl⟩
  refine ⟨hres, ?_, hdef, by decide⟩
  intro h1 h2
  have hcap : (m.len : Int) ≤ (m.cap : Int) := by exact_mod_cast m.len_le_cap
  obtain ⟨b, c', h⟩ := hdef.mpr ⟨h1, by omega⟩
  obtain ⟨hb, hc⟩ := hres b c' h
  rw [h, hb, hc]

/-- At cursor 0 of a buffer of at least 20 bytes `CheckHeader` returns and
leaves the cursor at 8. -/
theorem CheckHeader_at_zero (m : ByteSlice) (hlen : 20 ≤ m.len) :
    ∃ mType mLength mCookie,
      bigEndianUint16 (m.elems.take 2) = some mType ∧
      bigEndianUint16 ((m.elems.drop 2).take 2) = some mLength ∧
      bigEndianUint32 ((m.elems.drop 4).take 4) = some mCookie ∧
      CheckHeader 0 m = some ((mType, mLength, mCookie, (m.elems.drop 8).take 12), 8) := by
  have hlen' : 20 ≤ m.elems.length := hlen
  obtain ⟨h0, h2, h4, h8⟩ := goSlice_header m hlen
  obtain ⟨ty, hty⟩ := bigEndianUint16_some (m.elems.take 2) (by simp; omega)
  obtain ⟨ln, hln⟩ := bigEndianUint16_some ((m.elems.drop 2).take 2) (by simp; omega)
  obtain ⟨ck, hck⟩ := bigEndianUint32_some ((m.elems.drop 4).take 4) (by simp; omega)
  refine ⟨ty, ln, ck, hty, hln, hck, ?_⟩
  unfold CheckHeader
  simp only [Int.zero_add, h0, h2, h4, h8, Option.bind, getType, getLength, getMagicCookie,
    getTransactionID, hty, hln, hck]

/-- At cursor 0 of a buffer whose capacity is at least 20 bytes `CheckHeader`
returns and leaves the cursor at 8. -/
theorem CheckHeader_at_zero_cap (m : ByteSlice) (hcap : 20 ≤ m.cap) :
    ∃ r, CheckHeader 0 m = some (r, 8) := by
  have hlen' : 20 ≤ (m.elems ++ m.spare).length := by
    simpa [ByteSlice.cap] using hcap
  obtain ⟨h0, h2, h4, h8⟩ := goSlice_header_cap m hcap
  obtain ⟨ty, hty⟩ := bigEndianUint16_some ((m.elems ++ m.spare).take 2)
    (by rw [List.length_take]; omega)
  obtain ⟨ln, hln⟩ := bigEndianUint16_some (((m.elems ++ m.spare).drop 2).take 2)
    (by rw [List.length_take, List.length_drop]; omega)
  obtain ⟨ck, hck⟩ := bigEndianUint32_some (((m.elems ++ m.spare).drop 4).take 4)
    (by rw [List.length_take, List.length_drop]; omega)
  refine ⟨(ty, ln, ck, ((m.elems ++ m.spare).drop 8).take 12), ?_⟩
  unfold CheckHeader
  simp only [Int.zero_add, h0, h2, h4, h8, Option.bind, getType, getLength, getMagicCookie,
    getTransactionID, hty, hln, hck]

/-- C36, as stated, fails on a slice with spare capacity: the slice
`sampleBadAuthPacket[:10:64]` has 10 bytes, fewer than 20, yet at cursor 0
`CheckHeader` returns, reading the header fields and the transaction id from
the 20 bytes of the backing array. -/
theorem CheckHeader_short_slice :
    sampleShortSlice.len = 10 ∧ sampleShortSlice.cap = 64 ∧
    CheckHeader 0 sampleShortSlice =
      some ((0x113, 0x3c, 0x2112A442, [1, 2, 3, 4, 5, 6, 7, 8, 9, 10, 11, 12]), 8) :=
  ⟨by decide, by decide, by decide⟩

/-- C36, amended. `CheckHeader` is defined only at cursor 0: it yields a
result if and only if the cursor is 0 and the capacity of the buffer is at
least 20 bytes, so on every buffer of at least 20 bytes; for every cursor of 1
or more, and every buffer, it fails, because the upper bounds 2, 4, 8 and 20
of its slices are absolute while the lower bounds follow the cursor. -/
theorem CheckHeader_defined_iff (c : Int) (m : ByteSlice) :
    ((∃ r c', CheckHeader c m = some (r, c')) ↔ c = 0 ∧ 20 ≤ m.cap) ∧
    (20 ≤ m.len → ∃ r, CheckHeader 0 m = some (r, 8)) ∧
    (1 ≤ c → CheckHeader c m = none) := by
  have honly : ∀ r c', CheckHeader c m = some (r, c') → c = 0 ∧ 20 ≤ m.cap := by
    intro r c' h
    unfold CheckHeader at h
    cases h1 : goSlice m c 2 with
    | none => simp [h1] at h
    | some s1 =>
      cases ht : getType s1 with
      | none => simp [h1, ht] at h
      | some ty =>
        have hs1 := goSlice_length m c 2 s1 h1
        have hb1 := (goSlice_some_iff m c 2).mp ⟨s1, h1⟩
        have h2len := bigEndianUint16_length s1 ty ht
        have hc0 : c = 0 := by omega
        subst hc0
        refine ⟨rfl, ?_⟩
        simp only [h1, ht, Option.bind] at h
        split at h
        · cases h
        · split at h
          · cases h
          · split at h
            · cases h
            · rename_i s8 h8
              have := (goSlice_some_iff m (0 + 8) 20).mp ⟨s8, h8⟩
              omega
  refine ⟨⟨?_, ?_⟩, ?_, ?_⟩
  · rintro ⟨r, c', h⟩
    exact honly r c' h
  · rintro ⟨hc, hcap⟩
    subst hc
    obtain ⟨r, h⟩ := CheckHeader_at_zero_cap m hcap
    exact ⟨_, _, h⟩
  · intro hlen
    exact CheckHeader_at_zero_cap m (le_trans hlen m.len_le_cap)
  · intro hc
    cases h : CheckHeader c m with
    | none => rfl
    | some x =>
      obtain ⟨r, c'⟩ := x
      have := (honly r c' h).1
      omega

/-- C37. For every buffer of at least 20 bytes and cursor 0,
`CheckBadAuthHeader` returns true if and only if the header type is 0x0113,
the header length is 0x3c and the cookie field is non-zero; so it accepts a
header whose cookie is 1 instead of the magic cookie 0x2112A442, and rejects
every header whose length field is not 60. -/
theorem CheckBadAuthHeader_iff (m : ByteSlice) (hlen : 20 ≤ m.len) :
    (CheckBadAuthHeader 0 m = some (true, 8) ↔
      bigEndianUint16 (m.elems.take 2) = some 0x113 ∧
      bigEndianUint16 ((m.elems.drop 2).take 2) = some 0x3c ∧
      ∃ ck, bigEndianUint32 ((m.elems.drop 4).take 4) = some ck ∧ ck ≠ 0) ∧
    (CheckBadAuthHeader 0 m = some (true, 8) ∨ CheckBadAuthHeader 0 m = some (false, 8)) ∧
    (bigEndianUint16 ((m.elems.drop 2).take 2) ≠ some 0x3c →
      CheckBadAuthHeader 0 m = some (false, 8)) ∧
    (CheckBadAuthHeader 0 ⟨sampleHeaderOddCookie, []⟩ = some (true, 8) ∧
      bigEndianUint32 ((sampleHeaderOddCookie.drop 4).take 4) = some 1 ∧
      (1 : Nat) ≠ 0x2112A442) := by
  have hlen' : 20 ≤ m.elems.length := hlen
  obtain ⟨ty, ln, ck, hty, hln, hck, hh⟩ := CheckHeader_at_zero m hlen
  have htid : ((m.elems.drop 8).take 12).length = 12 := by
    simp
    omega
  have hval : CheckBadAuthHeader 0 m =
      if ty = 0x113 ∧ ln = 0x3c ∧ ck ≠ 0x0 then some (true, 8) else some (false, 8) := by
    unfold CheckBadAuthHeader
    rw [hh]
    simp only [htid, and_true]
  rw [hval, hty, hln, hck]
  refine ⟨?_, ?_, ?_, by decide, by decide, by decide⟩
  · by_cases h : ty = 0x113 ∧ ln = 0x3c ∧ ck ≠ 0x0
    · simp [h]
    · rw [if_neg h]
      constructor
      · intro hc
        simp at hc
      · rintro ⟨h1, h2, ck', h3, h4⟩
        have e1 : ty = 0x113 := Option.some.inj h1
        have e2 : ln = 0x3c := Option.some.inj h2
        have e3 : ck = ck' := Option.some.inj h3
        exact absurd ⟨e1, e2, e3 ▸ h4⟩ h
  · by_cases h : ty = 0x113 ∧ ln = 0x3c ∧ ck ≠ 0x0
    · simp [h]
    · simp [h]
  · intro hne
    have : ln ≠ 0x3c := fun h => hne (by rw [h])
    simp [this]

theorem CheckBadAuthHeader_iff_witness :
    CheckBadAuthHeader 0 ⟨sampleBadAuthPacket, []⟩ = some (true, 8) ∧
    bigEndianUint16 (sampleBadAuthPacket.take 2) = some 0x113 :=
  ⟨((CheckBadAuthHeader_iff ⟨sampleBadAuthPacket, []⟩ (by decide)).1).mpr
      ⟨by decide, by decide, 0x2112A442, by decide, by decide⟩,
    by decide⟩

/-- C38. For every buffer with at least 8 bytes from cursor `c`,
`CheckErrorCode` returns true if and only if the big-endian uint16 at `c`
equals the required type, the big-endian uint16 at `c + 2` equals the required
length and the big-endian uint32 at `c + 4` equals the required code; the
cursor advances by 8 exactly when type and length match (also when the code
differs and the result is false) and is unchanged when type or length
differ. -/
theorem CheckErrorCode_iff (c : Int) (m : ByteSlice) (ty ln code : Nat)
    (hc : 0 ≤ c) (hlen : c + 8 ≤ (m.len : Int)) :
    ∃ t l k,
      (goSlice m c (c + 2)).bind bigEndianUint16 = some t ∧
      (goSlice m (c + 2) (c + 4)).bind bigEndianUint16 = some l ∧
      (goSlice m (c + 4) (c + 8)).bind bigEndianUint32 = some k ∧
      CheckErrorCode c m ty ln code =
        some (decide (t = ty ∧ l = ln ∧ k = code), if t = ty ∧ l = ln then c + 8 else c) := by
  have hcap : (m.len : Int) ≤ (m.cap : Int) := by exact_mod_cast m.len_le_cap
  obtain ⟨s1, hs1⟩ := (goSlice_some_iff m c (c + 2)).mpr ⟨hc, by omega, by omega⟩
  obtain ⟨s2, hs2⟩ := (goSlice_some_iff m (c + 2) (c + 4)).mpr ⟨by omega, by omega, by omega⟩
  obtain ⟨s3, hs3⟩ := (goSlice_some_iff m (c + 4) (c + 8)).mpr ⟨by omega, by omega, by omega⟩
  have l1 := goSlice_length m _ _ s1 hs1
  have l2 := goSlice_length m _ _ s2 hs2
  have l3 := goSlice_length m _ _ s3 hs3
  obtain ⟨t, ht⟩ := bigEndianUint16_some s1 (by omega)
  obtain ⟨l, hl⟩ := bigEndianUint16_some s2 (by omega)
  obtain ⟨k, hk⟩ := bigEndianUint32_some s3 (by omega)
  refine ⟨t, l, k, by simp [hs1, ht], by simp [hs2, hl], by simp [hs3, hk], ?_⟩
  unfold CheckErrorCode
  simp only [hs1, hs2, hs3, Option.bind, ht, hl, hk]
  by_cases h1 : t = ty
  · by_cases h2 : l = ln
    · by_cases h3 : k = code
      · simp [h1, h2, h3]
      · simp [h1, h2, h3]
    · simp [h1, h2]
  · simp [h1]

theorem CheckErrorCode_iff_witness :
    ∃ t l k,
      (goSlice ⟨sampleBadAuthPacket, []⟩ 20 (20 + 2)).bind bigEndianUint16 = some t ∧
      (goSlice ⟨sampleBadAuthPacket, []⟩ (20 + 2) (20 + 4)).bind bigEndianUint16 = some l ∧
      (goSlice ⟨sampleBadAuthPacket, []⟩ (20 + 4) (20 + 8)).bind bigEndianUint32 = some k ∧
      CheckErrorCode 20 ⟨sampleBadAuthPacket, []⟩ 0x09 0x04 0x401 =
        some (decide (t = 0x09 ∧ l = 0x04 ∧ k = 0x401),
          if t = 0x09 ∧ l = 0x04 then 20 + 8 else 20) :=
  CheckErrorCode_iff 20 ⟨sampleBadAuthPacket, []⟩ 0x09 0x04 0x401 (by decide) (by decide)

/-- C39, as stated, fails on a buffer that does not reach the attribute: on
the nil buffer (length 0, capacity 0), whose attribute at offset 28 has
neither type 0x0015 nor length 0x20, `GetNonceFromResponse` does not return
nil but stops with an out-of-range slice. -/
theorem GetNonceFromResponse_out_of_range :
    (⟨[], []⟩ : ByteSlice).len = 0 ∧ (⟨[], []⟩ : ByteSlice).cap = 0 ∧
    GetNonceFromResponse 0 ⟨[], []⟩ = none :=
  ⟨by decide, by decide, by decide⟩

/-- C39, amended. `GetNonceFromResponse` does not move its cursor: whenever
it returns, the receiver's cursor is still `c`. It returns the 32 bytes
`m[c+32 : c+64]` when the attribute at offset `c + 28` has type 0x0015 and
length 0x20 and the capacity of the buffer reaches `c + 64`, and nil when the
type or the length read differs; when the type field, the length field or the
value lies beyond the capacity of the buffer it does not return. Within the
capacity every read is defined. -/
theorem GetNonceFromResponse_result (c : Int) (m : ByteSlice) :
    (∀ res c', GetNonceFromResponse c m = some (res, c') → c' = c) ∧
    (∀ n, (goSlice m (c + 28) (c + 30)).bind bigEndianUint16 = some 0x15 →
      (goSlice m (c + 30) (c + 32)).bind bigEndianUint16 = some 0x20 →
      goSlice m (c + 32) (c + 64) = some n →
      GetNonceFromResponse c m = some (some n, c) ∧ n.length = 32) ∧
    (∀ t, (goSlice m (c + 28) (c + 30)).bind bigEndianUint16 = some t → t ≠ 0x15 →
      GetNonceFromResponse c m = some (none, c)) ∧
    (∀ l, (goSlice m (c + 28) (c + 30)).bind bigEndianUint16 = some 0x15 →
      (goSlice m (c + 30) (c + 32)).bind bigEndianUint16 = some l → l ≠ 0x20 →
      GetNonceFromResponse c m = some (none, c)) ∧
    (c + 28 < 0 ∨ (m.cap : Int) < c + 30 → GetNonceFromResponse c m = none) ∧
    ((goSlice m (c + 28) (c + 30)).bind bigEndianUint16 = some 0x15 →
      (m.cap : Int) < c + 32 → GetNonceFromResponse c m = none) ∧
    ((goSlice m (c + 28) (c + 30)).bind bigEndianUint16 = some 0x15 →
      (goSlice m (c + 30) (c + 32)).bind bigEndianUint16 = some 0x20 →
      (m.cap : Int) < c + 64 → GetNonceFromResponse c m = none) ∧
    (0 ≤ c + 28 → c + 64 ≤ (m.cap : Int) →
      ∃ t l n, (goSlice m (c + 28) (c + 30)).bind bigEndianUint16 = some t ∧
        (goSlice m (c + 30) (c + 32)).bind bigEndianUint16 = some l ∧
        goSlice m (c + 32) (c + 64) = some n) := by
  have e0 : c + (headerlen + errorcodelen) = c + 28 := by
    simp [headerlen, errorcodelen]
  have e1 : c + 28 + 2 = c + 30 := by omega
  have e2 : c + 28 + 4 = c + 32 := by omega
  have e3 : c + 28 + 0x24 = c + 64 := by omega
  have hdef : GetNonceFromResponse c m =
      match (goSlice m (c + 28) (c + 30)).bind bigEndianUint16 with
      | none => none
      | some mtype =>
        if mtype ≠ 0x15 then some (none, c)
        else
          match (goSlice m (c + 30) (c + 32)).bind bigEndianUint16 with
          | none => none
          | some mLength =>
            if mLength ≠ 0x20 then some (none, c)
            else
              match goSlice m (c + 32) (c + 64) with
              | none => none
              | some nonce => some (some nonce, c) := by
    unfold GetNonceFromResponse CheckNonce
    rw [e0, e1, e2, e3]
    cases (goSlice m (c + 28) (c + 30)).bind bigEndianUint16 with
    | none => rfl
    | some mtype =>
      by_cases ht : mtype = 0x15
      · subst ht
        cases (goSlice m (c + 30) (c + 32)).bind bigEndianUint16 with
        | none => rfl
        | some mLength =>
          by_cases hl : mLength = 0x20
          · subst hl
            cases goSlice m (c + 32) (c + 64) with
            | none => rfl
            | some nonce => rfl
          · simp [hl]
      · simp [ht]
  rw [hdef]
  refine ⟨?_, ?_, ?_, ?_, ?_, ?_, ?_, ?_⟩
  · intro res c' h
    split at h
    · cases h
    · split at h
      · simp only [Option.some.injEq, Prod.mk.injEq] at h
        exact h.2.symm
      · split at h
        · cases h
        · split at h
          · simp only [Option.some.injEq, Prod.mk.injEq] at h
            exact h.2.symm
          · split at h
            · cases h
            · simp only [Option.some.injEq, Prod.mk.injEq] at h
              exact h.2.symm
  · intro n h1 h2 h3
    rw [h1, h2, h3]
    refine ⟨by simp, ?_⟩
    have := goSlice_length m _ _ n h3
    omega
  · intro t h1 ht
    rw [h1]
    simp [ht]
  · intro l h1 h2 hl
    rw [h1, h2]
    simp [hl]
  · intro hout
    have h1 : goSlice m (c + 28) (c + 30) = none :=
      (goSlice_none_iff m _ _).mpr (by omega)
    rw [h1]
    rfl
  · intro h1 hout
    have h2 : goSlice m (c + 30) (c + 32) = none :=
      (goSlice_none_iff m _ _).mpr (by omega)
    rw [h1, h2]
    rfl
  · intro h1 h2 hout
    have h3 : goSlice m (c + 32) (c + 64) = none :=
      (goSlice_none_iff m _ _).mpr (by omega)
    rw [h1, h2, h3]
    rfl
  · intro hlo hhi
    obtain ⟨s1, hs1⟩ := (goSlice_some_iff m (c + 28) (c + 30)).mpr ⟨hlo, by omega, by omega⟩
    obtain ⟨s2, hs2⟩ := (goSlice_some_iff m (c + 30) (c + 32)).mpr
      ⟨by omega, by omega, by omega⟩
    obtain ⟨n, hn⟩ := (goSlice_some_iff m (c + 32) (c + 64)).mpr
      ⟨by omega, by omega, hhi⟩
    have l1 := goSlice_length m _ _ s1 hs1
    have l2 := goSlice_length m _ _ s2 hs2
    obtain ⟨t, ht⟩ := bigEndianUint16_some s1 (by omega)
    obtain ⟨l, hl⟩ := bigEndianUint16_some s2 (by omega)
    exact ⟨t, l, n, by simp [hs1, ht], by simp [hs2, hl], hn⟩

theorem GetNonceFromResponse_result_witness :
    sampleReslicedPacket.len = 40 ∧ sampleReslicedPacket.cap = 80 ∧
    GetNonceFromResponse 0 sampleReslicedPacket =
      some (some (sampleNonce.toList.map Char.toNat), 0) ∧
    (sampleNonce.toList.map Char.toNat).length = 32 :=
  ⟨by decide, by decide,
    (GetNonceFromResponse_result 0 sampleReslicedPacket).2.1
      (sampleNonce.toList.map Char.toNat) (by decide) (by decide) (by decide)⟩

end TurnServer
